import Mathlib

/-!
# ZABR interpolation (ql/experimental/volatility/zabrinterpolation.hpp)

A shallow embedding of the calibration code of `zabrinterpolation.hpp`.

Conventions of the embedding.

* `Real` is an arbitrary linear ordered field `R` (ideal real arithmetic). The
  functions of `<cmath>` that the code calls (`sqrt`, `exp`, `log`, `sin`,
  `asin`) are the fields of `Libm R`; `std::fabs` is the absolute value of `R`.
  Rounding, NaN and infinities are not represented: a floating point division
  by zero, whose IEEE result is not a finite number, is the failure
  `Failure.divisionByZero`.
* A C++ exception or an undefined access (empty `shared_ptr`, index past the
  end of an `Array`) is a `Failure`. Functions that mutate the object return
  the object as it is at the point of the throw together with the failure.
* Code of the library that is not part of the file (the smile section, the
  Black formula, the Halton generator, the optimizer, `QL_MAX_REAL`,
  `QL_MIN_REAL`) is a field of `Collaborators R`.
-/

set_option linter.unusedSectionVars false
set_option linter.dupNamespace false

namespace QuantLib

/-- Ways in which the embedded code stops without returning a value. -/
inductive Failure where
  /-- The check `QL_REQUIRE(forward_>0.0, ..)` of `update`. -/
  | forwardNotPositive
  /-- The check `QL_REQUIRE(x>0.0, ..)` of `value`. -/
  | strikeNotPositive
  /-- The call `section_->volatility(x)` on an empty `shared_ptr`. -/
  | nullSection
  /-- The statements `QL_FAIL(..)` of `primitive`, `derivative`, `secondDerivative`. -/
  | notImplemented
  /-- A floating point division whose divisor is zero. -/
  | divisionByZero
  /-- The access `bestParameters[i]` on an `Array` that is still empty. -/
  | indexOutOfRange
  /-- An iterator over `weights_` or over the volatilities moved past the end. -/
  | iteratorPastEnd
  /-- The check `QL_REQUIRE(t>0.0, ..)` of the constructor of `ZABRCoeffHolder`. -/
  | expiryNotPositive
  /-- The call `validateSabrParameters(alpha_, beta_, nu_, rho_)` throws. -/
  | invalidSabrParameters
  /-- The check `QL_REQUIRE(gamma_ >= 0.0, ..)` of the constructor of `ZABRCoeffHolder`. -/
  | gammaNegative
  /-- The constructor of the base class `Interpolation::templateImpl` rejects the points. -/
  | notEnoughPoints
  deriving DecidableEq, Repr

/-- The values of `EndCriteria::Type`.
Modelled from the spec: `ql/math/optimization/endcriteria.hpp` is not part of the
sources; the spec lists the termination statuses Converged, MaxIterations,
StationaryPoint, StationaryFunctionValue and Unknown/None. -/
inductive EndCriteriaType where
  | None
  | MaxIterations
  | StationaryPoint
  | StationaryFunctionValue
  | Converged
  | Unknown
  deriving DecidableEq, Repr

/-- An `Array` of size five: `Array y_(5)`, `Array guess(5)`. -/
structure Array5 (α : Type) where
  a0 : α
  a1 : α
  a2 : α
  a3 : α
  a4 : α
  deriving DecidableEq, Repr

/-- The functions of `<cmath>` used by the code. -/
structure Libm (R : Type) where
  sqrt : R → R
  exp : R → R
  log : R → R
  sin : R → R
  asin : R → R

section Transformation

variable {R : Type} [LinearOrderedField R]

/-- The member `eps1_(.0000001)` of `ZabrParametersTransformation`. -/
def ZabrParametersTransformation.eps1_ : R := 1 / 10000000

/-- The member `eps2_(.9999)` of `ZabrParametersTransformation`. -/
def ZabrParametersTransformation.eps2_ : R := 9999 / 10000

/-- The member `dilationFactor_(0.001)` of `ZabrParametersTransformation`. -/
def ZabrParametersTransformation.dilationFactor_ : R := 1 / 1000

/-- `ZabrParametersTransformation::direct` (lines 352-360). -/
def ZabrParametersTransformation.direct (L : Libm R) (x : Array5 R) : Array5 R :=
  { a0 := if |x.a0| < 5 then x.a0 * x.a0 + eps1_ else 25
    a1 := if |x.a1| < 1000 then L.exp (-(x.a1 * x.a1)) else eps1_
    a2 := if |x.a2| < 5 then x.a2 * x.a2 + eps1_ else 25
    a3 := if |x.a3| < 10 then eps2_ * L.sin x.a3 else eps1_
    a4 := if |x.a2| < 5 then x.a2 * x.a2 + eps1_ else 25 }

/-- `ZabrParametersTransformation::inverse` (lines 362-370). -/
def ZabrParametersTransformation.inverse (L : Libm R) (x : Array5 R) : Array5 R :=
  { a0 := L.sqrt (x.a0 - eps1_)
    a1 := L.sqrt (-(L.log x.a1))
    a2 := L.sqrt (x.a2 - eps1_)
    a3 := L.asin (x.a3 / eps2_)
    a4 := L.sqrt (x.a4 - eps1_) }

end Transformation

section Model

variable {R : Type} [LinearOrderedField R]

/-- What `ZabrSmileSection` is constructed from at lines 278-281: expiry,
forward, the five parameters and the evaluation mode (a number here, the
enumeration `ZabrSmileSection::Evaluation` is declared outside the file). -/
structure ZabrSmileSection (R : Type) where
  timeToExpiry : R
  forward : R
  zabrParameters : Array5 R
  evaluation : Nat

/-- The data members of `ZABRCoeffHolder` (lines 103-113). `forward_` is a
reference in the source; the field holds the value it currently refers to. -/
structure ZABRCoeffHolder (R : Type) where
  t_ : R
  forward_ : R
  alpha_ : R
  beta_ : R
  nu_ : R
  rho_ : R
  gamma_ : R
  alphaIsFixed_ : Bool
  betaIsFixed_ : Bool
  nuIsFixed_ : Bool
  rhoIsFixed_ : Bool
  gammaIsFixed_ : Bool
  weights_ : List R
  error_ : R
  maxError_ : R
  ZABREndCriteria_ : EndCriteriaType

/-- The object `ZABRInterpolationImpl` (lines 116-412): the coefficient holder,
the points `[xBegin_, xEnd_)` with the volatilities read from `yBegin_`, and
the private members. `endCriteria_` and `optMethod_` are met only through
`Collaborators.minimize`; `transformation_` is always the transformation above. -/
structure ZABRInterpolationImpl (R : Type) extends ZABRCoeffHolder R where
  xs : List R
  ys : List R
  errorAccept_ : R
  useMaxError_ : Bool
  maxGuesses_ : Nat
  vegaWeighted_ : Bool
  section_ : Option (ZabrSmileSection R)
  evaluation_ : Nat

/-- What one call `optMethod_->minimize(problem, *endCriteria_)` does, as far as
the caller can see: the points at which it evaluated the cost function, in
order, the final `problem.currentValue()` and the returned status. -/
structure OptimizerRun (R : Type) where
  evaluated : List (List R)
  currentValue : List R
  endCriteria : EndCriteriaType

/-- Code called by the file and declared outside it.

* `volatility s x` is `ZabrSmileSection::volatility(x)` of the section `s`;
* `haltonNextSequence d k j` is component `j` of the `k`-th sample
  (`k = 1, 2, ..`) of `HaltonRsg(d, 42)`;
* `minimize i value values start` is the `i`-th call of the optimizer in one
  `update`, on a problem with cost function `value` / `values` started at `start`. -/
structure Collaborators (R : Type) where
  libm : Libm R
  volatility : ZabrSmileSection R → R → R
  blackFormulaStdDevDerivative : R → R → R → R
  haltonNextSequence : Nat → Nat → Nat → R
  minimize : Nat → (List R → Except Failure R) → (List R → Except Failure (List R)) →
    List R → OptimizerRun R
  QL_MAX_REAL : R
  QL_MIN_REAL : R

/-- The free entries of a full vector, `ProjectedCostFunction::project`.
Modelled from the spec: `projectedcostfunction.hpp` is not part of the sources;
the spec has `project(fullVector) -> freeSubvector`. The flag `true` marks a
fixed slot, as in `parameterAreFixed`. -/
def ProjectedCostFunction.project (parameterAreFixed : Array5 Bool) (p : Array5 R) : List R :=
  (if parameterAreFixed.a0 then [] else [p.a0]) ++
  (if parameterAreFixed.a1 then [] else [p.a1]) ++
  (if parameterAreFixed.a2 then [] else [p.a2]) ++
  (if parameterAreFixed.a3 then [] else [p.a3]) ++
  (if parameterAreFixed.a4 then [] else [p.a4])

/-- The number of free slots before slot `j`: the counter `i` of the loops
`y[j] = projectedParameters[i++]`. -/
def ProjectedCostFunction.freeBefore (parameterAreFixed : Array5 Bool) (j : Nat) : Nat :=
  (if 0 < j ∧ parameterAreFixed.a0 = false then 1 else 0) +
  (if 1 < j ∧ parameterAreFixed.a1 = false then 1 else 0) +
  (if 2 < j ∧ parameterAreFixed.a2 = false then 1 else 0) +
  (if 3 < j ∧ parameterAreFixed.a3 = false then 1 else 0) +
  (if 4 < j ∧ parameterAreFixed.a4 = false then 1 else 0)

/-- The full vector of a free subvector, `ProjectedCostFunction::include`.
Modelled from the spec: `projectedcostfunction.hpp` is not part of the sources;
the spec has `include(freeSubvector) -> fullVector`, substituting the fixed values
(here the entries of `fixedParameters`) for the fixed slots. A free slot for which
the subvector has no entry keeps the entry of `fixedParameters`. -/
def ProjectedCostFunction.include (fixedParameters : Array5 R)
    (parameterAreFixed : Array5 Bool) (projected : List R) : Array5 R :=
  { a0 := if parameterAreFixed.a0 then fixedParameters.a0
          else projected.getD (freeBefore parameterAreFixed 0) fixedParameters.a0
    a1 := if parameterAreFixed.a1 then fixedParameters.a1
          else projected.getD (freeBefore parameterAreFixed 1) fixedParameters.a1
    a2 := if parameterAreFixed.a2 then fixedParameters.a2
          else projected.getD (freeBefore parameterAreFixed 2) fixedParameters.a2
    a3 := if parameterAreFixed.a3 then fixedParameters.a3
          else projected.getD (freeBefore parameterAreFixed 3) fixedParameters.a3
    a4 := if parameterAreFixed.a4 then fixedParameters.a4
          else projected.getD (freeBefore parameterAreFixed 4) fixedParameters.a4 }

namespace ZABRInterpolationImpl

/-- `ZABRInterpolationImpl::value` (lines 285-289). -/
def value (E : Collaborators R) (z : ZABRInterpolationImpl R) (x : R) : Except Failure R :=
  if x > 0 then
    match z.section_ with
    | some s => .ok (E.volatility s x)
    | none => .error .nullSection
  else .error .strikeNotPositive

/-- `ZABRInterpolationImpl::primitive` (lines 290-292). -/
def primitive (_z : ZABRInterpolationImpl R) (_x : R) : Except Failure R :=
  .error .notImplemented

/-- `ZABRInterpolationImpl::derivative` (lines 293-295). -/
def derivative (_z : ZABRInterpolationImpl R) (_x : R) : Except Failure R :=
  .error .notImplemented

/-- `ZABRInterpolationImpl::secondDerivative` (lines 296-298). -/
def secondDerivative (_z : ZABRInterpolationImpl R) (_x : R) : Except Failure R :=
  .error .notImplemented

/-- The loop of `interpolationSquaredError` (lines 305-308) over the remaining
strikes, volatilities and weights, with the running `totalError`. -/
def squaredErrorLoop (E : Collaborators R) (z : ZABRInterpolationImpl R) :
    List R → List R → List R → R → Except Failure R
  | [], _, _, totalError => .ok totalError
  | x :: xs, y :: ys, w :: ws, totalError =>
    match value E z x with
    | .error e => .error e
    | .ok v => squaredErrorLoop E z xs ys ws (totalError + (v - y) * (v - y) * w)
  | _ :: _, _, _, _ => .error .iteratorPastEnd

/-- `ZABRInterpolationImpl::interpolationSquaredError` (lines 300-310). -/
def interpolationSquaredError (E : Collaborators R) (z : ZABRInterpolationImpl R) :
    Except Failure R :=
  squaredErrorLoop E z z.xs z.ys z.weights_ 0

/-- The loop of `interpolationErrors` (lines 318-320). -/
def errorsLoop (E : Collaborators R) (z : ZABRInterpolationImpl R) :
    List R → List R → List R → Except Failure (List R)
  | [], _, _ => .ok []
  | x :: xs, y :: ys, w :: ws =>
    match value E z x with
    | .error e => .error e
    | .ok v =>
      match errorsLoop E z xs ys ws with
      | .error e => .error e
      | .ok rest => .ok ((v - y) * E.libm.sqrt w :: rest)
  | _ :: _, _, _ => .error .iteratorPastEnd

/-- `ZABRInterpolationImpl::interpolationErrors` (lines 312-322). -/
def interpolationErrors (E : Collaborators R) (z : ZABRInterpolationImpl R) :
    Except Failure (List R) :=
  errorsLoop E z z.xs z.ys z.weights_

/-- `ZABRInterpolationImpl::interpolationError` (lines 324-328). `n` is a `Size`,
so `n-1` is computed modulo `2^64` before it is converted to `Real`. -/
def interpolationError (E : Collaborators R) (z : ZABRInterpolationImpl R) :
    Except Failure R :=
  let n : Nat := z.xs.length
  match interpolationSquaredError E z with
  | .error e => .error e
  | .ok squaredError =>
    let d : Nat := (n + 2 ^ 64 - 1) % 2 ^ 64
    if d = 0 then .error .divisionByZero
    else .ok (E.libm.sqrt ((n : R) * squaredError / (d : R)))

/-- The loop of `interpolationMaxError` (lines 334-337) with the running `maxError`. -/
def maxErrorLoop (E : Collaborators R) (z : ZABRInterpolationImpl R) :
    List R → List R → R → Except Failure R
  | [], _, maxError => .ok maxError
  | x :: xs, y :: ys, maxError =>
    match value E z x with
    | .error e => .error e
    | .ok v => maxErrorLoop E z xs ys (max maxError |v - y|)
  | _ :: _, [], _ => .error .iteratorPastEnd

/-- `ZABRInterpolationImpl::interpolationMaxError` (lines 330-339). -/
def interpolationMaxError (E : Collaborators R) (z : ZABRInterpolationImpl R) :
    Except Failure R :=
  maxErrorLoop E z z.xs z.ys E.QL_MIN_REAL

end ZABRInterpolationImpl

/-- The assignments of `ZABRError::value` and `ZABRError::values` to the
parameters of the object (lines 379-384 and 389-394). -/
def ZABRError.assign (E : Collaborators R) (zabr_ : ZABRInterpolationImpl R) (x : Array5 R) :
    ZABRInterpolationImpl R :=
  let y := ZabrParametersTransformation.direct E.libm x
  { zabr_ with alpha_ := y.a0, beta_ := y.a1, nu_ := y.a2, rho_ := y.a3, gamma_ := y.a4 }

/-- `ZABRError::value` (lines 378-386): the returned value, or the failure, and
the object as the call leaves it. -/
def ZABRError.value (E : Collaborators R) (zabr_ : ZABRInterpolationImpl R) (x : Array5 R) :
    Except Failure R × ZABRInterpolationImpl R :=
  let z := ZABRError.assign E zabr_ x
  (z.interpolationSquaredError E, z)

/-- `ZABRError::values` (lines 388-396). -/
def ZABRError.values (E : Collaborators R) (zabr_ : ZABRInterpolationImpl R) (x : Array5 R) :
    Except Failure (List R) × ZABRInterpolationImpl R :=
  let z := ZABRError.assign E zabr_ x
  (z.interpolationErrors E, z)

/-- The variables of `update` that one pass of the restart loop reads and writes
up to line 260: the object, `guess`, the number of sequences drawn from `halton`,
and, for the record, the starting points handed to the optimizer so far. -/
structure RestartState (R : Type) where
  zabr : ZABRInterpolationImpl R
  guess : Array5 R
  sequencesDrawn : Nat
  minimizeStarts : List (List R)

/-- What one pass of the restart loop computes up to line 260: `result`,
`tmpEndCriteria` and `tmpInterpolationError`. -/
structure Attempt (R : Type) where
  result : Array5 R
  tmpEndCriteria : EndCriteriaType
  tmpInterpolationError : R

/-- The variables of the restart loop of `update` (lines 214-268), with the list
of the passes completed so far. -/
structure LoopVars (R : Type) where
  st : RestartState R
  iterations : Nat
  bestError : R
  bestParameters : Option (Array5 R)
  attempts : List (Attempt R)

/-- What a call of `update` leaves: the failure if it threw, the object, and for
the record the passes of the restart loop that completed, the starting points
handed to the optimizer and the number of sequences drawn from `halton`. -/
structure UpdateRun (R : Type) where
  outcome : Option Failure
  state : ZABRInterpolationImpl R
  attempts : List (Attempt R)
  minimizeStarts : List (List R)
  sequencesDrawn : Nat

namespace ZABRInterpolationImpl

/-- The first loop of the vega weighting (lines 175-180): the weights pushed so
far and `weightsSum`. -/
def vegaWeightsLoop (E : Collaborators R) (z : ZABRInterpolationImpl R) :
    List R → List R → List R → R → Except Failure (List R × R)
  | [], _, weights, weightsSum => .ok (weights, weightsSum)
  | x :: xs, y :: ys, weights, weightsSum =>
    let stdDev := E.libm.sqrt (y * y * z.t_)
    let w := E.blackFormulaStdDevDerivative x z.forward_ stdDev
    vegaWeightsLoop E z xs ys (weights ++ [w]) (weightsSum + w)
  | _ :: _, [], _, _ => .error .iteratorPastEnd

/-- The vega weighting of `update` (lines 169-185). -/
def updateWeights (E : Collaborators R) (z : ZABRInterpolationImpl R) :
    Option Failure × ZABRInterpolationImpl R :=
  if z.vegaWeighted_ then
    match vegaWeightsLoop E z z.xs z.ys [] 0 with
    | .error e => (some e, { z with weights_ := [] })
    | .ok (weights, weightsSum) =>
      if weights ≠ [] ∧ weightsSum = 0 then (some .divisionByZero, { z with weights_ := weights })
      else (none, { z with weights_ := weights.map (fun w => w / weightsSum) })
  else (none, z)

/-- The evaluations of the cost function made by the optimizer, in order: each
one assigns the parameters of the object (`ZABRError::value` and
`ZABRError::values` assign alike and fail on the same states) and the first
failure ends the call. -/
def evaluateAll (E : Collaborators R) (fixedParameters : Array5 R)
    (parameterAreFixed : Array5 Bool) :
    List (List R) → ZABRInterpolationImpl R → Option Failure × ZABRInterpolationImpl R
  | [], z => (none, z)
  | x :: rest, z =>
    match ZABRError.value E z (ProjectedCostFunction.include fixedParameters parameterAreFixed x) with
    | (.error e, z1) => (some e, z1)
    | (.ok _, z1) => evaluateAll E fixedParameters parameterAreFixed rest z1

/-- The new `guess` of a pass with `iterations > 0` (lines 226-241). -/
def nextGuess (E : Collaborators R) (parameterAreFixed : Array5 Bool) (freeParameters : Nat)
    (s : RestartState R) : RestartState R :=
  let sample := E.haltonNextSequence freeParameters (s.sequencesDrawn + 1)
  let j := ProjectedCostFunction.freeBefore parameterAreFixed
  let raw : Array5 R :=
    { a0 := if parameterAreFixed.a0 then s.guess.a0
            else (1 - 2 / 1000000) * sample (j 0) + 1 / 1000000
      a1 := if parameterAreFixed.a1 then s.guess.a1
            else (1 - 2 / 1000000) * sample (j 1) + 1 / 1000000
      a2 := if parameterAreFixed.a2 then s.guess.a2
            else 5 * sample (j 2) + 1 / 1000000
      a3 := if parameterAreFixed.a3 then s.guess.a3
            else (2 * sample (j 3) - 1) * (1 - 1 / 1000000)
      a4 := if parameterAreFixed.a4 then s.guess.a4
            else 5 * sample (j 4) + 1 / 1000000 }
  let g := ZabrParametersTransformation.direct E.libm raw
  { s with
    sequencesDrawn := s.sequencesDrawn + 1
    guess :=
      { a0 := if s.zabr.alphaIsFixed_ then s.zabr.alpha_ else g.a0
        a1 := if s.zabr.betaIsFixed_ then s.zabr.beta_ else g.a1
        a2 := if s.zabr.nuIsFixed_ then s.zabr.nu_ else g.a2
        a3 := if s.zabr.rhoIsFixed_ then s.zabr.rho_ else g.a3
        a4 := if s.zabr.gammaIsFixed_ then s.zabr.gamma_ else g.a4 } }

/-- The error of line 260: `useMaxError_ ? interpolationMaxError() :
interpolationError()`. -/
def acceptanceError (E : Collaborators R) (z : ZABRInterpolationImpl R) : Except Failure R :=
  if z.useMaxError_ then z.interpolationMaxError E else z.interpolationError E

/-- The variables with which a pass goes on after lines 225-242. -/
def startOfPass (E : Collaborators R) (parameterAreFixed : Array5 Bool) (freeParameters : Nat)
    (iterations : Nat) (s : RestartState R) : RestartState R :=
  if iterations > 0 then nextGuess E parameterAreFixed freeParameters s else s

/-- The call of the optimizer in a pass (lines 244-254), on the projected cost
function of the object as the pass found it. -/
def minimizeCall (E : Collaborators R) (parameterAreFixed : Array5 Bool)
    (iterations : Nat) (s1 : RestartState R) : OptimizerRun R :=
  let inversedTransformatedGuess := ZabrParametersTransformation.inverse E.libm s1.guess
  E.minimize iterations
    (fun x => (ZABRError.value E s1.zabr
      (ProjectedCostFunction.include inversedTransformatedGuess parameterAreFixed x)).1)
    (fun x => (ZABRError.values E s1.zabr
      (ProjectedCostFunction.include inversedTransformatedGuess parameterAreFixed x)).1)
    (ProjectedCostFunction.project parameterAreFixed inversedTransformatedGuess)

/-- One pass of the restart loop up to line 260. -/
def restartBody (E : Collaborators R) (parameterAreFixed : Array5 Bool) (freeParameters : Nat)
    (iterations : Nat) (s : RestartState R) :
    Except (Failure × RestartState R) (RestartState R × Attempt R) :=
  let s1 := startOfPass E parameterAreFixed freeParameters iterations s
  let inversedTransformatedGuess := ZabrParametersTransformation.inverse E.libm s1.guess
  let projectedGuess :=
    ProjectedCostFunction.project parameterAreFixed inversedTransformatedGuess
  let run := minimizeCall E parameterAreFixed iterations s1
  let s2 := { s1 with minimizeStarts := s1.minimizeStarts ++ [projectedGuess] }
  match evaluateAll E inversedTransformatedGuess parameterAreFixed run.evaluated s1.zabr with
  | (some e, z) => .error (e, { s2 with zabr := z })
  | (none, z) =>
    let transfResult :=
      ProjectedCostFunction.include inversedTransformatedGuess parameterAreFixed run.currentValue
    let result := ZabrParametersTransformation.direct E.libm transfResult
    match acceptanceError E z with
    | .error e => .error (e, { s2 with zabr := z })
    | .ok tmpInterpolationError =>
      .ok ({ s2 with zabr := z }, ⟨result, run.endCriteria, tmpInterpolationError⟩)

/-- Lines 262-266 and the increment of line 268: the best pass is replaced when
the new error is strictly smaller. -/
def recordAttempt (v : LoopVars R) (s : RestartState R) (a : Attempt R) : LoopVars R :=
  if a.tmpInterpolationError < v.bestError then
    { st := { s with zabr := { s.zabr with ZABREndCriteria_ := a.tmpEndCriteria } }
      iterations := v.iterations + 1
      bestError := a.tmpInterpolationError
      bestParameters := some a.result
      attempts := v.attempts ++ [a] }
  else
    { st := s
      iterations := v.iterations + 1
      bestError := v.bestError
      bestParameters := v.bestParameters
      attempts := v.attempts ++ [a] }

/-- The restart loop `do { .. } while (++iterations < maxGuesses_ &&
tmpInterpolationError > errorAccept_)` (lines 223-268) around a pass `body`. -/
def restartLoop
    (body : Nat → RestartState R → Except (Failure × RestartState R) (RestartState R × Attempt R))
    (maxGuesses : Nat) (errorAccept : R) (v : LoopVars R) : Option Failure × LoopVars R :=
  match body v.iterations v.st with
  | .error (e, s) => (some e, { v with st := s })
  | .ok (s, a) =>
    if v.iterations + 1 < maxGuesses ∧ a.tmpInterpolationError > errorAccept then
      restartLoop body maxGuesses errorAccept (recordAttempt v s a)
    else (none, recordAttempt v s a)
termination_by maxGuesses - v.iterations
decreasing_by
  simp only [recordAttempt]
  split_ifs <;> simp only [] <;> omega

/-- The statements of `update` after the restart loop (lines 270-281). -/
def readBack (E : Collaborators R) (z : ZABRInterpolationImpl R)
    (bestParameters : Option (Array5 R)) : Option Failure × ZABRInterpolationImpl R :=
  match bestParameters with
  | none => (some .indexOutOfRange, z)
  | some p =>
    let z1 := { z with alpha_ := p.a0, beta_ := p.a1, nu_ := p.a2, rho_ := p.a3, gamma_ := p.a4 }
    match z1.interpolationError E with
    | .error e => (some e, z1)
    | .ok error =>
      let z2 := { z1 with error_ := error }
      match z2.interpolationMaxError E with
      | .error e => (some e, z2)
      | .ok maxError =>
        let z3 := { z2 with maxError_ := maxError }
        let zabrParameters : Array5 R := ⟨z3.alpha_, z3.beta_, z3.nu_, z3.rho_, z3.gamma_⟩
        (none, { z3 with
          section_ := some ⟨z3.t_, z3.forward_, zabrParameters, z3.evaluation_⟩ })

/-- The branch of `update` taken when all five parameters are fixed (lines 188-192). -/
def updateAllFixed (E : Collaborators R) (z : ZABRInterpolationImpl R) :
    Option Failure × ZABRInterpolationImpl R :=
  match z.interpolationError E with
  | .error e => (some e, z)
  | .ok error =>
    let z1 := { z with error_ := error }
    match z1.interpolationMaxError E with
    | .error e => (some e, z1)
    | .ok maxError => (none, { z1 with maxError_ := maxError, ZABREndCriteria_ := .None })

/-- The condition of line 188: there is nothing to optimize. -/
def allParametersFixed (z : ZABRInterpolationImpl R) : Bool :=
  z.alphaIsFixed_ && z.betaIsFixed_ && z.nuIsFixed_ && z.rhoIsFixed_ && z.gammaIsFixed_

/-- The vector `parameterAreFixed` of `update` (lines 207-212). -/
def parameterAreFixed (z : ZABRInterpolationImpl R) : Array5 Bool :=
  ⟨z.alphaIsFixed_, z.betaIsFixed_, z.nuIsFixed_, z.rhoIsFixed_, z.gammaIsFixed_⟩

/-- The count `freeParameters` of `update` (line 218). -/
def freeParameters (z : ZABRInterpolationImpl R) : Nat :=
  ProjectedCostFunction.freeBefore (parameterAreFixed z) 5

/-- The variables of the restart loop when it is entered (lines 200-222). -/
def initialLoopVars (E : Collaborators R) (z : ZABRInterpolationImpl R) : LoopVars R :=
  { st :=
      { zabr := z
        guess := ⟨z.alpha_, z.beta_, z.nu_, z.rho_, z.gamma_⟩
        sequencesDrawn := 0
        minimizeStarts := [] }
    iterations := 0
    bestError := E.QL_MAX_REAL
    bestParameters := none
    attempts := [] }

/-- The restart loop as `update` runs it. -/
def runRestarts (E : Collaborators R) (z : ZABRInterpolationImpl R) :
    Option Failure × LoopVars R :=
  restartLoop (restartBody E (parameterAreFixed z) (freeParameters z))
    z.maxGuesses_ z.errorAccept_ (initialLoopVars E z)

/-- `ZABRInterpolationImpl::update` (lines 161-283). -/
def update (E : Collaborators R) (z : ZABRInterpolationImpl R) : UpdateRun R :=
  if z.forward_ > 0 then
    match updateWeights E z with
    | (some e, z1) => ⟨some e, z1, [], [], 0⟩
    | (none, z1) =>
      if allParametersFixed z1 then
        match updateAllFixed E z1 with
        | (outcome, z2) => ⟨outcome, z2, [], [], 0⟩
      else
        match runRestarts E z1 with
        | (some e, v) => ⟨some e, v.st.zabr, v.attempts, v.st.minimizeStarts, v.st.sequencesDrawn⟩
        | (none, v) =>
          match readBack E v.st.zabr v.bestParameters with
          | (outcome, z2) =>
            ⟨outcome, z2, v.attempts, v.st.minimizeStarts, v.st.sequencesDrawn⟩
  else ⟨some .forwardNotPositive, z, [], [], 0⟩

end ZABRInterpolationImpl

/-- The triple that lines 262-266 keep for the best pass: `bestError`,
`bestParameters` and `ZABREndCriteria_`. -/
structure Best (R : Type) where
  bestError : R
  bestParameters : Option (Array5 R)
  endCriteria : EndCriteriaType

/-- Lines 262-266 on the kept triple. -/
def Best.record (b : Best R) (a : Attempt R) : Best R :=
  if a.tmpInterpolationError < b.bestError then
    ⟨a.tmpInterpolationError, some a.result, a.tmpEndCriteria⟩
  else b

/-- The kept triple after the passes `as`, starting from `b`. -/
def Best.over (b : Best R) (as : List (Attempt R)) : Best R :=
  as.foldl Best.record b

/-- The passes `as`, the first of them entered with `iterations = k`, are the
passes of one run of the restart loop: the loop condition of line 268 holds after
each pass but the last and fails after the last. -/
def StopsAfter (maxGuesses : Nat) (errorAccept : R) : Nat → List (Attempt R) → Prop
  | _, [] => False
  | k, [a] => ¬ (k + 1 < maxGuesses ∧ a.tmpInterpolationError > errorAccept)
  | k, a :: b :: rest =>
    (k + 1 < maxGuesses ∧ a.tmpInterpolationError > errorAccept) ∧
      StopsAfter maxGuesses errorAccept (k + 1) (b :: rest)

/-- The best (minimum) error over the restarts `0 .. k-1` of a run. -/
def bestErrorOver (as : List (Attempt R)) (k : Nat) : WithTop R :=
  ((as.take k).map Attempt.tmpInterpolationError).minimum

/-- Two kept triples agree on the error and on the parameters. -/
def Best.Agree (b c : Best R) : Prop :=
  b.bestError = c.bestError ∧ b.bestParameters = c.bestParameters

/-- A state of the object used at concrete inputs: three strikes around the
forward 0.04 with expiry 5, uniform weights, the initial guess alpha = 0.2,
beta = 0.5, nu = 0.4, rho = 0 supplied and free, gamma supplied and fixed at 1,
the maximum error as acceptance criterion, one restart, and a section built from
these parameters. -/
def sampleImpl : ZABRInterpolationImpl R :=
  { t_ := 5, forward_ := 4 / 100
    alpha_ := 1 / 5, beta_ := 1 / 2, nu_ := 2 / 5, rho_ := 0, gamma_ := 1
    alphaIsFixed_ := false, betaIsFixed_ := false, nuIsFixed_ := false
    rhoIsFixed_ := false, gammaIsFixed_ := true
    weights_ := [1 / 3, 1 / 3, 1 / 3], error_ := 0, maxError_ := 0
    ZABREndCriteria_ := .None
    xs := [3 / 100, 4 / 100, 5 / 100], ys := [22 / 100, 20 / 100, 19 / 100]
    errorAccept_ := 1 / 1000, useMaxError_ := true, maxGuesses_ := 1
    vegaWeighted_ := false
    section_ := some ⟨5, 4 / 100, ⟨1 / 5, 1 / 2, 2 / 5, 0, 1⟩, 0⟩
    evaluation_ := 0 }

/-- The object `sampleImpl` as the constructor leaves it: `section_` is an empty
pointer until the end of the first `update` that runs the restart loop (0 stands
for the sentinel `Null<Real>()` in `error_` and `maxError_`). -/
def freshImpl : ZABRInterpolationImpl R :=
  { (sampleImpl : ZABRInterpolationImpl R) with section_ := none }

/-- Collaborators used at concrete inputs, for any `<cmath>`: a smile that is flat
at the level alpha of the section, a generator whose samples are all 1/2, an
optimizer that evaluates the cost function once, at the point whose coordinates
are all 1/2, and returns that point with status `MaxIterations`, and the largest
finite `double` as `QL_MAX_REAL`. -/
def sampleCollaborators (L : Libm R) : Collaborators R :=
  { libm := L
    volatility := fun s _ => s.zabrParameters.a0
    blackFormulaStdDevDerivative := fun _ _ _ => 1
    haltonNextSequence := fun _ _ _ => 1 / 2
    minimize := fun _ _ _ start =>
      ⟨[start.map (fun _ => 1 / 2)], start.map (fun _ => 1 / 2), .MaxIterations⟩
    QL_MAX_REAL := 2 ^ 1024 - 2 ^ 971
    QL_MIN_REAL := -(2 ^ 1024 - 2 ^ 971) }

/-- The variables of the restart loop on entry for `sampleImpl`, with
`QL_MAX_REAL` replaced by `10 ^ 30`. -/
def sampleLoopVars : LoopVars R :=
  { st := { zabr := sampleImpl, guess := ⟨1 / 5, 1 / 2, 2 / 5, 0, 1⟩,
            sequencesDrawn := 0, minimizeStarts := [] }
    iterations := 0, bestError := 10 ^ 30, bestParameters := none, attempts := [] }

/-- A pass of the restart loop that never fails and whose error, result and
status in pass `i` are read from a table (a counting stub of the optimizer). -/
def tableBody (table : List (Attempt R)) :
    Nat → RestartState R → Except (Failure × RestartState R) (RestartState R × Attempt R) :=
  fun i s => .ok (s, table.getD i ⟨s.guess, .Unknown, 0⟩)

/-- The weighted squared error of the smile model evaluated with the parameters
`p` against all market points, `sum_i w_i * (model_i - vol_i)^2`, as the spec
states the objective: the model is the smile section of expiry `t_`, forward
`forward_` and parameters `p`. -/
def modelSquaredError (E : Collaborators R) (z : ZABRInterpolationImpl R) (p : Array5 R) : R :=
  ((List.zip (List.zip z.xs z.ys) z.weights_).map (fun q =>
    q.2 * (E.volatility ⟨z.t_, z.forward_, p, z.evaluation_⟩ q.1.1 - q.1.2) ^ 2)).sum

/-- The maximum absolute error of the smile model evaluated with the parameters
`p` against all market points, `max_i |model_i - vol_i|`, as the spec states it
(0 for an empty point set). -/
def modelMaxError (E : Collaborators R) (z : ZABRInterpolationImpl R) (p : Array5 R) : R :=
  ((List.zip z.xs z.ys).map (fun q =>
    |E.volatility ⟨z.t_, z.forward_, p, z.evaluation_⟩ q.1 - q.2|)).foldl max 0

/-- The object without its five parameters and its termination status: what the
evaluations of the cost function and the bookkeeping of the best pass leave
untouched. -/
def ZABRInterpolationImpl.frame (z : ZABRInterpolationImpl R) : ZABRInterpolationImpl R :=
  { z with alpha_ := 0, beta_ := 0, nu_ := 0, rho_ := 0, gamma_ := 0, ZABREndCriteria_ := .None }

/-- The array `result` of the pass with `iterations = 0` (line 258) for an object
that enters the restart loop as `z`. -/
def ZABRInterpolationImpl.firstResult (E : Collaborators R) (z : ZABRInterpolationImpl R) :
    Array5 R :=
  ZabrParametersTransformation.direct E.libm
    (ProjectedCostFunction.include
      (ZabrParametersTransformation.inverse E.libm (initialLoopVars E z).st.guess)
      (parameterAreFixed z)
      (minimizeCall E (parameterAreFixed z) 0 (initialLoopVars E z).st).currentValue)

/-- The members that `update` never assigns: expiry, forward, the fixed flags,
the points and the settings of the calibration. -/
def ZABRInterpolationImpl.configuration (z : ZABRInterpolationImpl R) :
    ZABRInterpolationImpl R :=
  { z with
    alpha_ := 0, beta_ := 0, nu_ := 0, rho_ := 0, gamma_ := 0, weights_ := [],
    error_ := 0, maxError_ := 0, ZABREndCriteria_ := .None, section_ := none }

/-- The collaborators `E` with an optimizer that makes the same evaluations and
ends at the same point but returns the status `f i` in its `i`-th call. -/
def Collaborators.withStatuses (E : Collaborators R) (f : Nat → EndCriteriaType) :
    Collaborators R :=
  { E with
    minimize := fun i value values start =>
      { E.minimize i value values start with endCriteria := f i } }

/-- The object with another termination status. -/
def ZABRInterpolationImpl.setStatus (c : EndCriteriaType) (z : ZABRInterpolationImpl R) :
    ZABRInterpolationImpl R :=
  { z with ZABREndCriteria_ := c }

/-- The variables of a pass with another termination status in the object. -/
def RestartState.setStatus (c : EndCriteriaType) (s : RestartState R) : RestartState R :=
  { s with zabr := s.zabr.setStatus c }

/-- The variables of two runs of the restart loop agree but for the statuses. -/
def LoopVars.SameButStatus (v w : LoopVars R) : Prop :=
  (∃ c, w.st = v.st.setStatus c) ∧ w.iterations = v.iterations ∧
    w.bestError = v.bestError ∧ w.bestParameters = v.bestParameters

/-- The residuals `model_i - vol_i` of the market points, the model being the
section `sec`: what `value(*x) - *y` is at each point when `value` returns. -/
def sectionResiduals (E : Collaborators R) (sec : ZabrSmileSection R) (xs ys : List R) :
    List R :=
  List.zipWith (fun x y => E.volatility sec x - y) xs ys

/-- What the constructors use of headers that are not part of the sources:
the sentinel `Null<Real>()` of `ql/utilities/null.hpp`, and
`validateSabrParameters` of `ql/termstructures/volatility/sabr.hpp`, here `true`
when the call returns and `false` when it throws. -/
structure Library (R : Type) where
  Null : R
  validateSabrParameters : R → R → R → R → Bool

/-- `ZABRCoeffHolder::ZABRCoeffHolder` (lines 57-100): the member initialisers,
then the body, statement by statement. -/
def ZABRCoeffHolder.ZABRCoeffHolder (L : Libm R) (Lib : Library R)
    (t forward alpha beta nu rho gamma : R)
    (alphaIsFixed betaIsFixed nuIsFixed rhoIsFixed gammaIsFixed : Bool) :
    Except Failure (QuantLib.ZABRCoeffHolder R) :=
  if t > 0 then
    let alphaIsFixed_ := if alpha ≠ Lib.Null then alphaIsFixed else false
    let alpha_ := if alpha ≠ Lib.Null then alpha else L.sqrt (2 / 10)
    let betaIsFixed_ := if beta ≠ Lib.Null then betaIsFixed else false
    let beta_ := if beta ≠ Lib.Null then beta else 5 / 10
    let nuIsFixed_ := if nu ≠ Lib.Null then nuIsFixed else false
    let nu_ := if nu ≠ Lib.Null then nu else L.sqrt (4 / 10)
    let rhoIsFixed_ := if rho ≠ Lib.Null then rhoIsFixed else false
    let rho_ := if rho ≠ Lib.Null then rho else 0
    if Lib.validateSabrParameters alpha_ beta_ nu_ rho_ then
      let gammaIsFixed_ := if gamma ≠ Lib.Null then gammaIsFixed else false
      let gamma_ := if gamma ≠ Lib.Null then gamma else 1
      if gamma_ ≥ 0 then
        .ok { t_ := t, forward_ := forward, alpha_ := alpha_, beta_ := beta_, nu_ := nu_,
              rho_ := rho_, gamma_ := gamma_, alphaIsFixed_ := alphaIsFixed_,
              betaIsFixed_ := betaIsFixed_, nuIsFixed_ := nuIsFixed_,
              rhoIsFixed_ := rhoIsFixed_, gammaIsFixed_ := gammaIsFixed_, weights_ := [],
              error_ := Lib.Null, maxError_ := Lib.Null, ZABREndCriteria_ := .None }
      else .error .gammaNegative
    else .error .invalidSabrParameters
  else .error .expiryNotPositive

/-- Modelled from the spec: the constructor of the base class
`Interpolation::templateImpl<I1,I2>(xBegin, xEnd, yBegin)` of
`ql/math/interpolation.hpp`, which is not part of the sources. The spec's words
for what it decides: construction "fails with InvalidInput if empty". The base
class is handed the three iterators only; `none` stands for a call that returns. -/
def Interpolation.templateImpl (xs _ys : List R) : Option Failure :=
  if xs.length = 0 then some .notEnoughPoints else none

/-- `ZABRInterpolationImpl::ZABRInterpolationImpl` (lines 120-159): the base class
`Interpolation::templateImpl` first, then `ZABRCoeffHolder`, then the members and
the body. The arguments `endCriteria` and `optMethod`, with their defaults, are the
optimizer `minimize` of the collaborators and are not stored here; `section_` is
default-initialised, that is empty. -/
def ZABRInterpolationImpl.ZABRInterpolationImpl (L : Libm R) (Lib : Library R)
    (xs ys : List R) (t forward alpha beta nu rho gamma : R)
    (alphaIsFixed betaIsFixed nuIsFixed rhoIsFixed gammaIsFixed : Bool)
    (evaluation : Nat) (vegaWeighted : Bool) (errorAccept : R) (useMaxError : Bool)
    (maxGuesses : Nat) : Except Failure (QuantLib.ZABRInterpolationImpl R) :=
  match Interpolation.templateImpl xs ys with
  | some e => .error e
  | none =>
    match ZABRCoeffHolder.ZABRCoeffHolder L Lib t forward alpha beta nu rho gamma
        alphaIsFixed betaIsFixed nuIsFixed rhoIsFixed gammaIsFixed with
    | .error e => .error e
    | .ok holder =>
      .ok { holder with
            weights_ := List.replicate xs.length (1 / (xs.length : R)),
            xs := xs, ys := ys, errorAccept_ := errorAccept, useMaxError_ := useMaxError,
            maxGuesses_ := maxGuesses, vegaWeighted_ := vegaWeighted, section_ := none,
            evaluation_ := evaluation }

/-- A sample of the missing headers: `Null<Real>()` is the largest `float`, and
`validateSabrParameters` accepts alpha > 0, 0 <= beta <= 1, nu >= 0 and
rho * rho < 1. -/
def sampleLibrary : Library R :=
  { Null := 2 ^ 128 - 2 ^ 104,
    validateSabrParameters := fun alpha beta nu rho =>
      decide (alpha > 0) && decide (beta ≥ 0 ∧ beta ≤ 1) && decide (nu ≥ 0) &&
        decide (rho * rho < 1) }

/-- The weights that the loop of lines 175-179 collects before they are
normalised: the derivative of the Black formula at each point. -/
def vegaWeights (E : Collaborators R) (z : ZABRInterpolationImpl R) : List R :=
  List.zipWith (fun x y => E.blackFormulaStdDevDerivative x z.forward_
    (E.libm.sqrt (y * y * z.t_))) z.xs z.ys

/-- The assignments of lines 230-234 of `update`: the sample `s.value` of the pass
scaled to the range of each free parameter, before `direct` is applied (line 235);
a fixed slot keeps its entry of `guess`, and `j` counts the free slots before. -/
def rangedSample (parameterAreFixed : Array5 Bool) (sample : Nat → R) (guess : Array5 R) :
    Array5 R :=
  { a0 := if parameterAreFixed.a0 then guess.a0
          else (1 - 2 / 1000000) * sample (ProjectedCostFunction.freeBefore parameterAreFixed 0) +
            1 / 1000000
    a1 := if parameterAreFixed.a1 then guess.a1
          else (1 - 2 / 1000000) * sample (ProjectedCostFunction.freeBefore parameterAreFixed 1) +
            1 / 1000000
    a2 := if parameterAreFixed.a2 then guess.a2
          else 5 * sample (ProjectedCostFunction.freeBefore parameterAreFixed 2) + 1 / 1000000
    a3 := if parameterAreFixed.a3 then guess.a3
          else (2 * sample (ProjectedCostFunction.freeBefore parameterAreFixed 3) - 1) *
            (1 - 1 / 1000000)
    a4 := if parameterAreFixed.a4 then guess.a4
          else 5 * sample (ProjectedCostFunction.freeBefore parameterAreFixed 4) + 1 / 1000000 }

/-- The object that the constructor returns, with `sampleLibrary`, for the points,
expiry, forward, guess, flags and settings of `sampleImpl`: `section_` is empty and
`error_`, `maxError_` hold `Null<Real>()`. -/
def constructedImpl : ZABRInterpolationImpl R :=
  { (freshImpl : ZABRInterpolationImpl R) with
    error_ := (sampleLibrary : Library R).Null, maxError_ := (sampleLibrary : Library R).Null }

end Model

section TransformationTheorems

variable {R : Type} [LinearOrderedField R]

open ZabrParametersTransformation

end TransformationTheorems

section RestartLoop

variable {R : Type} [LinearOrderedField R]

open ZABRInterpolationImpl

theorem recordAttempt_attempts (v : LoopVars R) (s : RestartState R) (a : Attempt R) :
    (recordAttempt v s a).attempts = v.attempts ++ [a] := by
  unfold recordAttempt; split_ifs <;> rfl

theorem recordAttempt_iterations (v : LoopVars R) (s : RestartState R) (a : Attempt R) :
    (recordAttempt v s a).iterations = v.iterations + 1 := by
  unfold recordAttempt; split_ifs <;> rfl

theorem recordAttempt_best (v : LoopVars R) (s : RestartState R) (a : Attempt R) :
    (⟨(recordAttempt v s a).bestError, (recordAttempt v s a).bestParameters,
        (recordAttempt v s a).st.zabr.ZABREndCriteria_⟩ : Best R) =
      Best.record ⟨v.bestError, v.bestParameters, s.zabr.ZABREndCriteria_⟩ a := by
  unfold recordAttempt Best.record; split_ifs <;> rfl

theorem recordAttempt_bestError_le (v : LoopVars R) (s : RestartState R) (a : Attempt R) :
    (recordAttempt v s a).bestError ≤ v.bestError := by
  unfold recordAttempt; split_ifs with h
  · exact h.le
  · exact le_rfl

theorem Best.record_agree {b c : Best R} (h : Best.Agree b c) (a : Attempt R) :
    Best.Agree (Best.record b a) (Best.record c a) := by
  obtain ⟨h1, h2⟩ := h
  unfold Best.record
  rw [h1]
  split_ifs
  · exact ⟨rfl, rfl⟩
  · exact ⟨h1, h2⟩

theorem Best.over_agree (as : List (Attempt R)) :
    ∀ {b c : Best R}, Best.Agree b c → Best.Agree (Best.over b as) (Best.over c as) := by
  induction as with
  | nil => intro b c h; exact h
  | cons a rest ih =>
    intro b c h
    exact ih (Best.record_agree h a)

theorem Best.over_cons (b : Best R) (a : Attempt R) (as : List (Attempt R)) :
    Best.over b (a :: as) = Best.over (Best.record b a) as := rfl

theorem Best.over_nil (b : Best R) : Best.over b [] = b := rfl

theorem recordAttempt_agree (v : LoopVars R) (s : RestartState R) (a : Attempt R)
    (c d : EndCriteriaType) :
    Best.Agree ⟨(recordAttempt v s a).bestError, (recordAttempt v s a).bestParameters, c⟩
      (Best.record ⟨v.bestError, v.bestParameters, d⟩ a) := by
  unfold recordAttempt Best.record
  split_ifs <;> exact ⟨rfl, rfl⟩

/-- A run of the restart loop that returns has made a non-empty list of passes,
recorded in `attempts`, counted by `iterations`, stopped by the loop condition,
and keeps the best of them. -/
theorem restartLoop_trace
    (body : Nat → RestartState R → Except (Failure × RestartState R) (RestartState R × Attempt R))
    (maxGuesses : Nat) (errorAccept : R) (v : LoopVars R) :
    ∀ w, restartLoop body maxGuesses errorAccept v = (none, w) →
      ∃ as : List (Attempt R), as ≠ [] ∧ w.attempts = v.attempts ++ as ∧
        w.iterations = v.iterations + as.length ∧
        StopsAfter maxGuesses errorAccept v.iterations as ∧
        Best.Agree ⟨w.bestError, w.bestParameters, .None⟩
          (Best.over ⟨v.bestError, v.bestParameters, .None⟩ as) := by
  refine restartLoop.induct body maxGuesses errorAccept
    (fun v => ∀ w, restartLoop body maxGuesses errorAccept v = (none, w) →
      ∃ as : List (Attempt R), as ≠ [] ∧ w.attempts = v.attempts ++ as ∧
        w.iterations = v.iterations + as.length ∧
        StopsAfter maxGuesses errorAccept v.iterations as ∧
        Best.Agree ⟨w.bestError, w.bestParameters, .None⟩
          (Best.over ⟨v.bestError, v.bestParameters, .None⟩ as))
    ?_ ?_ ?_ v
  · intro x e s hb w hw
    rw [restartLoop, hb] at hw
    simp at hw
  · intro x s a hb hc ih w hw
    rw [restartLoop, hb] at hw
    simp only [hc, and_self, if_true] at hw
    obtain ⟨as, hne, h1, h2, h3, h4⟩ := ih w hw
    refine ⟨a :: as, by simp, ?_, ?_, ?_, ?_⟩
    · rw [h1, recordAttempt_attempts]; simp
    · rw [h2, recordAttempt_iterations]; simp; omega
    · cases as with
      | nil => exact absurd rfl hne
      | cons b rest =>
        rw [recordAttempt_iterations] at h3
        exact ⟨hc, h3⟩
    · rw [Best.over_cons]
      exact ⟨h4.1.trans (Best.over_agree as (recordAttempt_agree x s a _ _)).1,
        h4.2.trans (Best.over_agree as (recordAttempt_agree x s a _ _)).2⟩
  · intro x s a hb hc w hw
    rw [restartLoop, hb] at hw
    simp only [hc, if_false] at hw
    have hw2 : recordAttempt x s a = w := (Prod.mk.inj hw).2
    subst hw2
    refine ⟨[a], by simp, recordAttempt_attempts x s a, ?_, hc, ?_⟩
    · rw [recordAttempt_iterations]; rfl
    · exact recordAttempt_agree x s a _ _

theorem StopsAfter_take (maxGuesses : Nat) (errorAccept : R) (as : List (Attempt R)) :
    ∀ k j, StopsAfter maxGuesses errorAccept k as → j < as.length →
      (1 ≤ j → k + j < maxGuesses) ∧
        ∀ a ∈ as.take j, a.tmpInterpolationError > errorAccept := by
  induction as with
  | nil => intro k j h; exact absurd h (by simp [StopsAfter])
  | cons a rest ih =>
    intro k j h hj
    cases j with
    | zero => exact ⟨fun h0 => absurd h0 (by omega), by simp⟩
    | succ i =>
      cases rest with
      | nil => simp at hj
      | cons b rest2 =>
        obtain ⟨⟨hk, ha⟩, hrest⟩ := h
        have hi : i < (b :: rest2).length := by simpa using hj
        obtain ⟨h1, h2⟩ := ih (k + 1) i hrest hi
        refine ⟨fun _ => ?_, ?_⟩
        · rcases Nat.eq_zero_or_pos i with h0 | h0
          · subst h0; simpa using hk
          · have := h1 h0; omega
        · intro c hc
          rw [List.take_succ_cons, List.mem_cons] at hc
          rcases hc with hc | hc
          · rw [hc]; exact ha
          · exact h2 c hc

theorem StopsAfter_last (maxGuesses : Nat) (errorAccept : R) (as : List (Attempt R)) :
    ∀ k, StopsAfter maxGuesses errorAccept k as →
      ∃ a, a ∈ as ∧
        ¬ (k + as.length < maxGuesses ∧ a.tmpInterpolationError > errorAccept) := by
  induction as with
  | nil => intro k h; exact absurd h (by simp [StopsAfter])
  | cons a rest ih =>
    intro k h
    cases rest with
    | nil => exact ⟨a, by simp, by simpa [StopsAfter] using h⟩
    | cons b rest2 =>
      obtain ⟨_, hrest⟩ := h
      obtain ⟨c, hc, hstop⟩ := ih (k + 1) hrest
      refine ⟨c, List.mem_cons_of_mem _ hc, ?_⟩
      have hlen : k + (a :: b :: rest2).length = k + 1 + (b :: rest2).length := by
        simp only [List.length_cons]; omega
      rw [hlen]; exact hstop

/-- The number of passes of a run stopped by the loop condition is the least
`k ≥ 1` with `k = maxGuesses` or best error over the passes `0 .. k-1` at most
`errorAccept`. -/
theorem StopsAfter_isLeast (maxGuesses : Nat) (errorAccept : R) (as : List (Attempt R))
    (hM : 1 ≤ maxGuesses) (h : StopsAfter maxGuesses errorAccept 0 as) :
    IsLeast {k | 1 ≤ k ∧ (k = maxGuesses ∨ bestErrorOver as k ≤ (errorAccept : WithTop R))}
      as.length := by
  have hlen : 1 ≤ as.length := by
    cases as with
    | nil => exact absurd h (by simp [StopsAfter])
    | cons a rest => simp
  constructor
  · refine ⟨hlen, ?_⟩
    obtain ⟨a, ha, hstop⟩ := StopsAfter_last maxGuesses errorAccept as 0 h
    by_cases hthr : a.tmpInterpolationError > errorAccept
    · left
      have hge : maxGuesses ≤ as.length := by
        by_contra hlt
        exact hstop ⟨by omega, hthr⟩
      rcases Nat.lt_or_ge as.length 2 with h2 | h2
      · omega
      · have := (StopsAfter_take maxGuesses errorAccept as 0 (as.length - 1) h (by omega)).1
          (by omega)
        omega
    · right
      unfold bestErrorOver
      rw [List.take_length, List.minimum_le_coe_iff]
      exact ⟨a.tmpInterpolationError, List.mem_map_of_mem _ ha, not_lt.mp hthr⟩
  · rintro j ⟨hj1, hj⟩
    by_contra hlt
    have hjlt : j < as.length := not_le.mp hlt
    obtain ⟨h1, h2⟩ := StopsAfter_take maxGuesses errorAccept as 0 j h hjlt
    rcases hj with hj | hj
    · have := h1 hj1; omega
    · unfold bestErrorOver at hj
      rw [List.minimum_le_coe_iff] at hj
      obtain ⟨b, hb, hble⟩ := hj
      obtain ⟨c, hc, rfl⟩ := List.mem_map.mp hb
      exact absurd hble (not_le.mpr (h2 c hc))

/-- C5. Stop rule: for every `maxGuesses ≥ 1`, every `errorAccept` and every
pass `body` (so every sequence of per-restart errors), a run of the restart loop
entered as `update` enters it counts its passes in `iterations`, and their number
is the least `k ≥ 1` such that `k = maxGuesses` or the best (minimum) error over
the restarts `0 .. k-1` is at most `errorAccept`; when restart 0 already has an
error at most `errorAccept` exactly one pass is made. -/
theorem restart_count_is_least
    (body : Nat → RestartState R → Except (Failure × RestartState R) (RestartState R × Attempt R))
    (maxGuesses : Nat) (errorAccept : R) (v : LoopVars R)
    (hM : 1 ≤ maxGuesses) (h0 : v.iterations = 0) (hA : v.attempts = [])
    (hrun : (restartLoop body maxGuesses errorAccept v).1 = none) :
    (restartLoop body maxGuesses errorAccept v).2.iterations =
        (restartLoop body maxGuesses errorAccept v).2.attempts.length ∧
      IsLeast {k | 1 ≤ k ∧ (k = maxGuesses ∨
          bestErrorOver (restartLoop body maxGuesses errorAccept v).2.attempts k ≤
            (errorAccept : WithTop R))}
        (restartLoop body maxGuesses errorAccept v).2.iterations ∧
      (∀ a, (restartLoop body maxGuesses errorAccept v).2.attempts.head? = some a →
        a.tmpInterpolationError ≤ errorAccept →
        (restartLoop body maxGuesses errorAccept v).2.iterations = 1) := by
  obtain ⟨as, hne, h1, h2, h3, _⟩ :=
    restartLoop_trace body maxGuesses errorAccept v _ (Prod.ext hrun rfl)
  rw [hA, List.nil_append] at h1
  rw [h0, Nat.zero_add] at h2
  rw [h0] at h3
  have hleast := StopsAfter_isLeast maxGuesses errorAccept as hM h3
  rw [h1, h2]
  refine ⟨rfl, hleast, ?_⟩
  intro a ha hle
  have hmem : 1 ∈ {k | 1 ≤ k ∧ (k = maxGuesses ∨
      bestErrorOver as k ≤ (errorAccept : WithTop R))} := by
    refine ⟨le_rfl, Or.inr ?_⟩
    unfold bestErrorOver
    rw [List.minimum_le_coe_iff]
    cases as with
    | nil => exact absurd rfl hne
    | cons b rest =>
      simp only [List.head?_cons, Option.some.injEq] at ha
      subst ha
      exact ⟨b.tmpInterpolationError, by simp, hle⟩
  exact le_antisymm (hleast.2 hmem) hleast.1.1

/-- C5 at a concrete input: with errors 3, 2, 1/2, 5 in the restarts 0, 1, 2, 3,
threshold 1 and `maxGuesses = 10` the loop returns after three passes. -/
theorem restart_count_is_least_witness :
    (restartLoop (tableBody
        [⟨⟨1, 1, 1, 0, 1⟩, .MaxIterations, 3⟩, ⟨⟨2, 1, 1, 0, 1⟩, .Converged, 2⟩,
         ⟨⟨3, 1, 1, 0, 1⟩, .MaxIterations, 1 / 2⟩, ⟨⟨4, 1, 1, 0, 1⟩, .Converged, 5⟩])
      10 (1 : ℚ) sampleLoopVars).2.iterations = 3 ∧
    IsLeast {k | 1 ≤ k ∧ (k = 10 ∨
      bestErrorOver (restartLoop (tableBody
        [⟨⟨1, 1, 1, 0, 1⟩, .MaxIterations, 3⟩, ⟨⟨2, 1, 1, 0, 1⟩, .Converged, 2⟩,
         ⟨⟨3, 1, 1, 0, 1⟩, .MaxIterations, 1 / 2⟩, ⟨⟨4, 1, 1, 0, 1⟩, .Converged, 5⟩])
        10 (1 : ℚ) sampleLoopVars).2.attempts k ≤ ((1 : ℚ) : WithTop ℚ))}
      (restartLoop (tableBody
        [⟨⟨1, 1, 1, 0, 1⟩, .MaxIterations, 3⟩, ⟨⟨2, 1, 1, 0, 1⟩, .Converged, 2⟩,
         ⟨⟨3, 1, 1, 0, 1⟩, .MaxIterations, 1 / 2⟩, ⟨⟨4, 1, 1, 0, 1⟩, .Converged, 5⟩])
        10 (1 : ℚ) sampleLoopVars).2.iterations :=
  ⟨by
      rw [restartLoop]; simp [tableBody, sampleLoopVars, recordAttempt]
      rw [restartLoop]; simp [tableBody, recordAttempt]
      rw [restartLoop]; simp [tableBody, recordAttempt]
      norm_num,
    (restart_count_is_least _ 10 1 sampleLoopVars (by norm_num) rfl rfl (by
      rw [restartLoop]; simp [tableBody, sampleLoopVars, recordAttempt]
      rw [restartLoop]; simp [tableBody, recordAttempt]
      rw [restartLoop]; simp [tableBody, recordAttempt]
      norm_num)).2.1⟩

theorem Best.record_bestError_le (b : Best R) (a : Attempt R) :
    (Best.record b a).bestError ≤ b.bestError ∧
      (Best.record b a).bestError ≤ a.tmpInterpolationError := by
  unfold Best.record
  split_ifs with h
  · exact ⟨h.le, le_rfl⟩
  · exact ⟨le_rfl, not_lt.mp h⟩

theorem Best.over_bestError_le (as : List (Attempt R)) :
    ∀ b : Best R, (Best.over b as).bestError ≤ b.bestError := by
  induction as with
  | nil => intro b; exact le_rfl
  | cons a rest ih =>
    intro b
    exact (ih (Best.record b a)).trans (Best.record_bestError_le b a).1

/-- The kept triple is the initial one when no pass has a smaller error, and
otherwise that of the first pass whose error is the least of all. -/
theorem Best.over_spec (as : List (Attempt R)) :
    ∀ b : Best R,
      (Best.over b as = b ∧ ∀ a ∈ as, b.bestError ≤ a.tmpInterpolationError) ∨
      (∃ (i : Nat) (a : Attempt R), as[i]? = some a ∧
        Best.over b as = ⟨a.tmpInterpolationError, some a.result, a.tmpEndCriteria⟩ ∧
        a.tmpInterpolationError < b.bestError ∧
        (∀ c ∈ as, a.tmpInterpolationError ≤ c.tmpInterpolationError) ∧
        (∀ (j : Nat) (c : Attempt R), j < i → as[j]? = some c →
          a.tmpInterpolationError < c.tmpInterpolationError)) := by
  induction as with
  | nil => intro b; exact Or.inl ⟨rfl, by simp⟩
  | cons a rest ih =>
    intro b
    have hle := Best.record_bestError_le b a
    rcases ih (Best.record b a) with ⟨heq, hall⟩ | ⟨i, c, hi, heq, hlt, hmin, hfirst⟩
    · by_cases h : a.tmpInterpolationError < b.bestError
      · right
        have hrec : Best.record b a =
            ⟨a.tmpInterpolationError, some a.result, a.tmpEndCriteria⟩ := by
          unfold Best.record; rw [if_pos h]
        refine ⟨0, a, by simp, ?_, h, ?_, ?_⟩
        · rw [Best.over_cons, heq, hrec]
        · intro c hc
          rcases List.mem_cons.mp hc with hc | hc
          · rw [hc]
          · have := hall c hc
            rw [hrec] at this
            exact this
        · intro j c hj; exact absurd hj (Nat.not_lt_zero j)
      · left
        have hrec : Best.record b a = b := by
          unfold Best.record; rw [if_neg h]
        refine ⟨by rw [Best.over_cons, heq, hrec], ?_⟩
        intro c hc
        rcases List.mem_cons.mp hc with hc | hc
        · rw [hc]; exact not_lt.mp h
        · have := hall c hc
          rw [hrec] at this
          exact this
    · right
      refine ⟨i + 1, c, by rw [List.getElem?_cons_succ]; exact hi,
        by rw [Best.over_cons, heq],
        lt_of_lt_of_le hlt hle.1, ?_, ?_⟩
      · intro d hd
        rcases List.mem_cons.mp hd with hd | hd
        · rw [hd]; exact (lt_of_lt_of_le hlt hle.2).le
        · exact hmin d hd
      · intro j d hj hd
        cases j with
        | zero =>
          simp only [List.getElem?_cons_zero, Option.some.injEq] at hd
          rw [← hd]; exact lt_of_lt_of_le hlt hle.2
        | succ k =>
          simp only [List.getElem?_cons_succ] at hd
          exact hfirst k d (by omega) hd

/-- C6. Tie-break: in every run of the restart loop entered, as `update` enters
it, with no parameters kept yet, the parameters kept as best at the end are the
result of the lowest-index restart whose error is the minimum over all restarts
run (every earlier restart has a strictly larger error, so a later restart with
an equal error has not replaced it), `bestError` is that error, and parameters
are kept as soon as one restart has an error below the initial `bestError`. -/
theorem best_is_first_minimum
    (body : Nat → RestartState R → Except (Failure × RestartState R) (RestartState R × Attempt R))
    (maxGuesses : Nat) (errorAccept : R) (v : LoopVars R)
    (hA : v.attempts = []) (hP : v.bestParameters = none)
    (hrun : (restartLoop body maxGuesses errorAccept v).1 = none) :
    (∀ p, (restartLoop body maxGuesses errorAccept v).2.bestParameters = some p →
      ∃ (i : Nat) (a : Attempt R),
        (restartLoop body maxGuesses errorAccept v).2.attempts[i]? = some a ∧
        p = a.result ∧
        (restartLoop body maxGuesses errorAccept v).2.bestError = a.tmpInterpolationError ∧
        (∀ c ∈ (restartLoop body maxGuesses errorAccept v).2.attempts,
          a.tmpInterpolationError ≤ c.tmpInterpolationError) ∧
        (∀ (j : Nat) (c : Attempt R), j < i →
          (restartLoop body maxGuesses errorAccept v).2.attempts[j]? = some c →
          a.tmpInterpolationError < c.tmpInterpolationError)) ∧
    ((∃ c ∈ (restartLoop body maxGuesses errorAccept v).2.attempts,
        c.tmpInterpolationError < v.bestError) →
      (restartLoop body maxGuesses errorAccept v).2.bestParameters ≠ none) := by
  obtain ⟨as, _, h1, _, _, hbe, hbp⟩ :=
    restartLoop_trace body maxGuesses errorAccept v _ (Prod.ext hrun rfl)
  rw [hA, List.nil_append] at h1
  rw [h1]
  simp only at hbe hbp
  rw [hP] at hbe hbp
  rcases Best.over_spec as ⟨v.bestError, none, .None⟩ with
    ⟨heq, hall⟩ | ⟨i, a, hi, heq, hlt, hmin, hfirst⟩
  · rw [heq] at hbp
    refine ⟨fun p hp => ?_, ?_⟩
    · rw [hbp] at hp; exact absurd hp (by simp)
    · rintro ⟨c, hc, hclt⟩
      exact absurd hclt (not_lt.mpr (hall c hc))
  · rw [heq] at hbe hbp
    refine ⟨fun p hp => ?_, fun _ => ?_⟩
    · rw [hbp] at hp
      simp only [Option.some.injEq] at hp
      exact ⟨i, a, hi, hp.symm, hbe, hmin, hfirst⟩
    · rw [hbp]; simp

/-- C6 at a concrete input: with errors 3, 2, 2, 5 in the restarts 0 .. 3 (none
accepted by the threshold 1, `maxGuesses = 4`) the result of restart 1 is kept,
not that of restart 2 which has the same error. -/
theorem best_is_first_minimum_witness :
    (restartLoop (tableBody
        [⟨⟨1, 1, 1, 0, 1⟩, .MaxIterations, 3⟩, ⟨⟨2, 1, 1, 0, 1⟩, .Converged, 2⟩,
         ⟨⟨3, 1, 1, 0, 1⟩, .MaxIterations, 2⟩, ⟨⟨4, 1, 1, 0, 1⟩, .Converged, 5⟩])
      4 (1 : ℚ) sampleLoopVars).2.bestParameters = some ⟨2, 1, 1, 0, 1⟩ ∧
    ((∃ c ∈ (restartLoop (tableBody
        [⟨⟨1, 1, 1, 0, 1⟩, .MaxIterations, 3⟩, ⟨⟨2, 1, 1, 0, 1⟩, .Converged, 2⟩,
         ⟨⟨3, 1, 1, 0, 1⟩, .MaxIterations, 2⟩, ⟨⟨4, 1, 1, 0, 1⟩, .Converged, 5⟩])
        4 (1 : ℚ) sampleLoopVars).2.attempts,
        c.tmpInterpolationError < (sampleLoopVars : LoopVars ℚ).bestError) →
      (restartLoop (tableBody
        [⟨⟨1, 1, 1, 0, 1⟩, .MaxIterations, 3⟩, ⟨⟨2, 1, 1, 0, 1⟩, .Converged, 2⟩,
         ⟨⟨3, 1, 1, 0, 1⟩, .MaxIterations, 2⟩, ⟨⟨4, 1, 1, 0, 1⟩, .Converged, 5⟩])
        4 (1 : ℚ) sampleLoopVars).2.bestParameters ≠ none) :=
  ⟨by
      rw [restartLoop]; simp [tableBody, sampleLoopVars, recordAttempt]
      rw [restartLoop]; simp [tableBody, recordAttempt]
      rw [restartLoop]; simp [tableBody, recordAttempt]
      rw [restartLoop]; simp [tableBody, recordAttempt]
      norm_num,
    (best_is_first_minimum _ 4 1 sampleLoopVars rfl rfl (by
      rw [restartLoop]; simp [tableBody, sampleLoopVars, recordAttempt]
      rw [restartLoop]; simp [tableBody, recordAttempt]
      rw [restartLoop]; simp [tableBody, recordAttempt]
      rw [restartLoop]; simp [tableBody, recordAttempt]
      norm_num)).2⟩

/-- C8. Monotonic improvement: for the same pass `body` (market data, initial
guess, fixed flags and a deterministic optimizer), the same threshold and the
same entry state, whenever the restart loop with `maxGuesses = N + 1` returns, the
loop with `maxGuesses = N` returns too, its restarts are an initial segment of
those run with `N + 1`, and the best error found with `N + 1` is at most the best
error found with `N`; this holds for every `N ≥ 0`. -/
theorem more_restarts_not_worse
    (body : Nat → RestartState R → Except (Failure × RestartState R) (RestartState R × Attempt R))
    (N : Nat) (errorAccept : R) (v : LoopVars R)
    (hrun : (restartLoop body (N + 1) errorAccept v).1 = none) :
    (restartLoop body N errorAccept v).1 = none ∧
      (restartLoop body (N + 1) errorAccept v).2.bestError ≤
        (restartLoop body N errorAccept v).2.bestError ∧
      (restartLoop body N errorAccept v).2.attempts <+:
        (restartLoop body (N + 1) errorAccept v).2.attempts := by
  revert hrun
  refine restartLoop.induct body N errorAccept
    (fun v => (restartLoop body (N + 1) errorAccept v).1 = none →
      (restartLoop body N errorAccept v).1 = none ∧
      (restartLoop body (N + 1) errorAccept v).2.bestError ≤
        (restartLoop body N errorAccept v).2.bestError ∧
      (restartLoop body N errorAccept v).2.attempts <+:
        (restartLoop body (N + 1) errorAccept v).2.attempts)
    ?_ ?_ ?_ v
  · intro x e s hb hrun
    rw [restartLoop, hb] at hrun
    simp at hrun
  · intro x s a hb hc ih hrun
    have hc2 : x.iterations + 1 < N + 1 ∧ a.tmpInterpolationError > errorAccept :=
      ⟨by omega, hc.2⟩
    have e1 : restartLoop body (N + 1) errorAccept x =
        restartLoop body (N + 1) errorAccept (recordAttempt x s a) := by
      rw [restartLoop, hb]; simp only [hc2, and_self, if_true]
    have e2 : restartLoop body N errorAccept x =
        restartLoop body N errorAccept (recordAttempt x s a) := by
      rw [restartLoop, hb]; simp only [hc, and_self, if_true]
    rw [e1] at hrun ⊢
    rw [e2]
    exact ih hrun
  · intro x s a hb hc hrun
    have e2 : restartLoop body N errorAccept x = (none, recordAttempt x s a) := by
      rw [restartLoop, hb]; simp only [hc, if_false]
    rw [e2]
    by_cases hc2 : x.iterations + 1 < N + 1 ∧ a.tmpInterpolationError > errorAccept
    · have e1 : restartLoop body (N + 1) errorAccept x =
          restartLoop body (N + 1) errorAccept (recordAttempt x s a) := by
        rw [restartLoop, hb]; simp only [hc2, and_self, if_true]
      rw [e1] at hrun ⊢
      obtain ⟨as, _, h1, _, _, hbe, _⟩ :=
        restartLoop_trace body (N + 1) errorAccept (recordAttempt x s a) _
          (Prod.ext hrun rfl)
      refine ⟨rfl, ?_, ?_⟩
      · simp only at hbe
        rw [hbe]
        exact Best.over_bestError_le as _
      · rw [h1]; exact List.prefix_append _ _
    · have e1 : restartLoop body (N + 1) errorAccept x = (none, recordAttempt x s a) := by
        rw [restartLoop, hb]; simp only [hc2, if_false]
      rw [e1]
      exact ⟨rfl, le_rfl, List.prefix_refl _⟩

/-- C8 at a concrete input: with errors 3, 2, 2, 5 and threshold 1 the loop with
`maxGuesses = 2` returns when the loop with `maxGuesses = 3` does, with a best
error that is not smaller. -/
theorem more_restarts_not_worse_witness :
    (restartLoop (tableBody
        [⟨⟨1, 1, 1, 0, 1⟩, .MaxIterations, 3⟩, ⟨⟨2, 1, 1, 0, 1⟩, .Converged, 2⟩,
         ⟨⟨3, 1, 1, 0, 1⟩, .MaxIterations, 2⟩, ⟨⟨4, 1, 1, 0, 1⟩, .Converged, 5⟩])
      (2 + 1) (1 : ℚ) sampleLoopVars).1 = none ∧
    (restartLoop (tableBody
        [⟨⟨1, 1, 1, 0, 1⟩, .MaxIterations, 3⟩, ⟨⟨2, 1, 1, 0, 1⟩, .Converged, 2⟩,
         ⟨⟨3, 1, 1, 0, 1⟩, .MaxIterations, 2⟩, ⟨⟨4, 1, 1, 0, 1⟩, .Converged, 5⟩])
      (2 + 1) (1 : ℚ) sampleLoopVars).2.bestError ≤
    (restartLoop (tableBody
        [⟨⟨1, 1, 1, 0, 1⟩, .MaxIterations, 3⟩, ⟨⟨2, 1, 1, 0, 1⟩, .Converged, 2⟩,
         ⟨⟨3, 1, 1, 0, 1⟩, .MaxIterations, 2⟩, ⟨⟨4, 1, 1, 0, 1⟩, .Converged, 5⟩])
      2 (1 : ℚ) sampleLoopVars).2.bestError :=
  have h : (restartLoop (tableBody
        [⟨⟨1, 1, 1, 0, 1⟩, .MaxIterations, 3⟩, ⟨⟨2, 1, 1, 0, 1⟩, .Converged, 2⟩,
         ⟨⟨3, 1, 1, 0, 1⟩, .MaxIterations, 2⟩, ⟨⟨4, 1, 1, 0, 1⟩, .Converged, 5⟩])
      (2 + 1) (1 : ℚ) sampleLoopVars).1 = none := by
    rw [restartLoop]; norm_num [tableBody, sampleLoopVars, recordAttempt]
    rw [restartLoop]; norm_num [tableBody, recordAttempt]
    rw [restartLoop]; norm_num [tableBody, recordAttempt]
  ⟨h, (more_restarts_not_worse _ 2 1 sampleLoopVars h).2.1⟩

end RestartLoop

section Errors

variable {R : Type} [LinearOrderedField R]

open ZABRInterpolationImpl

theorem squaredErrorLoop_congr (E E' : Collaborators R) (z z' : ZABRInterpolationImpl R)
    (h : ∀ x, value E' z' x = value E z x) (xs : List R) :
    ∀ (ys ws : List R) (t : R),
      squaredErrorLoop E' z' xs ys ws t = squaredErrorLoop E z xs ys ws t := by
  induction xs with
  | nil => intro ys ws t; rfl
  | cons x rest ih =>
    intro ys ws t
    cases ys with
    | nil => rfl
    | cons y ys2 =>
      cases ws with
      | nil => rfl
      | cons w ws2 =>
        simp only [squaredErrorLoop, h x]
        cases value E z x with
        | error e => rfl
        | ok v => exact ih ys2 ws2 _

theorem maxErrorLoop_congr (E E' : Collaborators R) (z z' : ZABRInterpolationImpl R)
    (h : ∀ x, value E' z' x = value E z x) (xs : List R) :
    ∀ (ys : List R) (m : R),
      maxErrorLoop E' z' xs ys m = maxErrorLoop E z xs ys m := by
  induction xs with
  | nil => intro ys m; rfl
  | cons x rest ih =>
    intro ys m
    cases ys with
    | nil => rfl
    | cons y ys2 =>
      simp only [maxErrorLoop, h x]
      cases value E z x with
      | error e => rfl
      | ok v => exact ih ys2 _

theorem errorsLoop_congr (E E' : Collaborators R) (z z' : ZABRInterpolationImpl R)
    (h : ∀ x, value E' z' x = value E z x) (hL : E'.libm = E.libm) (xs : List R) :
    ∀ (ys ws : List R), errorsLoop E' z' xs ys ws = errorsLoop E z xs ys ws := by
  induction xs with
  | nil => intro ys ws; rfl
  | cons x rest ih =>
    intro ys ws
    cases ys with
    | nil => rfl
    | cons y ys2 =>
      cases ws with
      | nil => rfl
      | cons w ws2 =>
        simp only [errorsLoop, h x, ih ys2 ws2, hL]

/-- The value of `ZABRError::value` is the weighted squared error against the
section held in `section_`; the argument `x` only reaches the parameters of the
object, which `value` does not read. -/
theorem ZABRError_value_eq (E : Collaborators R) (zabr_ : ZABRInterpolationImpl R)
    (x : Array5 R) : (ZABRError.value E zabr_ x).1 = zabr_.interpolationSquaredError E := by
  show squaredErrorLoop E (ZABRError.assign E zabr_ x) zabr_.xs zabr_.ys zabr_.weights_ 0 =
    squaredErrorLoop E zabr_ zabr_.xs zabr_.ys zabr_.weights_ 0
  exact squaredErrorLoop_congr E E zabr_ (ZABRError.assign E zabr_ x) (fun _ => rfl) _ _ _ _

/-- C4, the code at concrete inputs, for every `<cmath>`: on `sampleImpl`
(section with alpha = 0.2, market volatilities 0.22, 0.20, 0.19, weights 1/3,
smile flat at the level alpha) `ZABRError::value` at `x = (1, 0, 1, 0, 0)`
returns 1/6000, the weighted squared error of the section in place, and so does
it at `x = (2, 0, 1, 0, 0)`; the weighted squared error of the parameters
`direct x`, whose alpha is `1 + 10^-7`, is another number. On `freshImpl`, the
object as constructed, `ZABRError::value` returns no value: `section_` is empty. -/
theorem ZABRError_value_ignores_x (L : Libm R) :
    (ZABRError.value (sampleCollaborators L) sampleImpl ⟨1, 0, 1, 0, 0⟩).1 = .ok (1 / 6000) ∧
    (ZABRError.value (sampleCollaborators L) sampleImpl ⟨2, 0, 1, 0, 0⟩).1 = .ok (1 / 6000) ∧
    (ZabrParametersTransformation.direct L ⟨1, 0, 1, 0, 0⟩).a0 = 1 + 1 / 10000000 ∧
    modelSquaredError (sampleCollaborators L) sampleImpl
      (ZabrParametersTransformation.direct L ⟨1, 0, 1, 0, 0⟩) ≠ 1 / 6000 ∧
    (ZABRError.value (sampleCollaborators L) freshImpl ⟨1, 0, 1, 0, 0⟩).1 =
      .error .nullSection := by
  have hval : (sampleImpl : ZABRInterpolationImpl R).interpolationSquaredError
      (sampleCollaborators L) = .ok (1 / 6000) := by
    norm_num [interpolationSquaredError, squaredErrorLoop, value, sampleImpl,
      sampleCollaborators]
  have hfresh : (freshImpl : ZABRInterpolationImpl R).interpolationSquaredError
      (sampleCollaborators L) = .error .nullSection := by
    norm_num [interpolationSquaredError, squaredErrorLoop, value, freshImpl, sampleImpl,
      sampleCollaborators]
  have ha : (ZabrParametersTransformation.direct L ⟨1, 0, 1, 0, 0⟩).a0 =
      1 + 1 / 10000000 := by
    norm_num [ZabrParametersTransformation.direct, ZabrParametersTransformation.eps1_]
  refine ⟨by rw [ZABRError_value_eq, hval], by rw [ZABRError_value_eq, hval], ha, ?_,
    by rw [ZABRError_value_eq, hfresh]⟩
  simp only [modelSquaredError, sampleCollaborators, ha]
  norm_num [sampleImpl]

end Errors

section Update

variable {R : Type} [LinearOrderedField R]

open ZABRInterpolationImpl

theorem value_of_frame (E : Collaborators R) {z z' : ZABRInterpolationImpl R}
    (h : z'.frame = z.frame) (x : R) : value E z' x = value E z x := by
  have hs : z'.section_ = z.section_ := congrArg (fun y => y.section_) h
  unfold value
  rw [hs]

theorem interpolationSquaredError_of_frame (E : Collaborators R)
    {z z' : ZABRInterpolationImpl R} (h : z'.frame = z.frame) :
    z'.interpolationSquaredError E = z.interpolationSquaredError E := by
  have h1 : z'.xs = z.xs := congrArg (fun y => y.xs) h
  have h2 : z'.ys = z.ys := congrArg (fun y => y.ys) h
  have h3 : z'.weights_ = z.weights_ := congrArg (fun y => y.weights_) h
  unfold interpolationSquaredError
  rw [h1, h2, h3]
  exact squaredErrorLoop_congr E E z z' (value_of_frame E h) _ _ _ _

theorem interpolationError_of_frame (E : Collaborators R)
    {z z' : ZABRInterpolationImpl R} (h : z'.frame = z.frame) :
    z'.interpolationError E = z.interpolationError E := by
  have h1 : z'.xs = z.xs := congrArg (fun y => y.xs) h
  unfold interpolationError
  rw [interpolationSquaredError_of_frame E h, h1]

theorem interpolationMaxError_of_frame (E : Collaborators R)
    {z z' : ZABRInterpolationImpl R} (h : z'.frame = z.frame) :
    z'.interpolationMaxError E = z.interpolationMaxError E := by
  have h1 : z'.xs = z.xs := congrArg (fun y => y.xs) h
  have h2 : z'.ys = z.ys := congrArg (fun y => y.ys) h
  unfold interpolationMaxError
  rw [h1, h2]
  exact maxErrorLoop_congr E E z z' (value_of_frame E h) _ _ _

theorem acceptanceError_of_frame (E : Collaborators R)
    {z z' : ZABRInterpolationImpl R} (h : z'.frame = z.frame) :
    acceptanceError E z' = acceptanceError E z := by
  have hu : z'.useMaxError_ = z.useMaxError_ := congrArg (fun y => y.useMaxError_) h
  unfold acceptanceError
  rw [hu, interpolationMaxError_of_frame E h, interpolationError_of_frame E h]

theorem evaluateAll_frame (E : Collaborators R) (fixedParameters : Array5 R)
    (fixed : Array5 Bool) (xs : List (List R)) :
    ∀ z : ZABRInterpolationImpl R,
      (evaluateAll E fixedParameters fixed xs z).2.frame = z.frame := by
  induction xs with
  | nil => intro z; rfl
  | cons x rest ih =>
    intro z
    unfold evaluateAll
    have hz : (ZABRError.value E z
        (ProjectedCostFunction.include fixedParameters fixed x)).2.frame = z.frame := rfl
    rcases hv : ZABRError.value E z
        (ProjectedCostFunction.include fixedParameters fixed x) with ⟨r, z1⟩
    rw [hv] at hz
    cases r with
    | error e => exact hz
    | ok c => exact (ih z1).trans hz

/-- After an evaluation of the cost function gamma equals nu: `direct` computes
its entry 4 from `x[2]`. -/
theorem evaluateAll_gamma (E : Collaborators R) (fixedParameters : Array5 R)
    (fixed : Array5 Bool) (xs : List (List R)) :
    ∀ z : ZABRInterpolationImpl R, xs ≠ [] →
      (evaluateAll E fixedParameters fixed xs z).2.gamma_ =
        (evaluateAll E fixedParameters fixed xs z).2.nu_ := by
  induction xs with
  | nil => intro z h; exact absurd rfl h
  | cons x rest ih =>
    intro z _
    unfold evaluateAll
    have hz : (ZABRError.value E z
        (ProjectedCostFunction.include fixedParameters fixed x)).2.gamma_ =
        (ZABRError.value E z
        (ProjectedCostFunction.include fixedParameters fixed x)).2.nu_ := rfl
    rcases hv : ZABRError.value E z
        (ProjectedCostFunction.include fixedParameters fixed x) with ⟨r, z1⟩
    rw [hv] at hz
    cases r with
    | error e => exact hz
    | ok c =>
      cases rest with
      | nil => exact hz
      | cons y rest2 => exact ih z1 (by simp)

theorem evaluateAll_status (E : Collaborators R) (fixedParameters : Array5 R)
    (fixed : Array5 Bool) (xs : List (List R)) :
    ∀ z : ZABRInterpolationImpl R,
      (evaluateAll E fixedParameters fixed xs z).2.ZABREndCriteria_ = z.ZABREndCriteria_ := by
  induction xs with
  | nil => intro z; rfl
  | cons x rest ih =>
    intro z
    unfold evaluateAll
    have hz : (ZABRError.value E z
        (ProjectedCostFunction.include fixedParameters fixed x)).2.ZABREndCriteria_ =
        z.ZABREndCriteria_ := rfl
    rcases hv : ZABRError.value E z
        (ProjectedCostFunction.include fixedParameters fixed x) with ⟨r, z1⟩
    rw [hv] at hz
    cases r with
    | error e => exact hz
    | ok c => exact (ih z1).trans hz

theorem startOfPass_zabr (E : Collaborators R) (fixed : Array5 Bool) (n i : Nat)
    (s : RestartState R) : (startOfPass E fixed n i s).zabr = s.zabr := by
  unfold startOfPass; split_ifs <;> rfl

theorem startOfPass_minimizeStarts (E : Collaborators R) (fixed : Array5 Bool) (n i : Nat)
    (s : RestartState R) :
    (startOfPass E fixed n i s).minimizeStarts = s.minimizeStarts := by
  unfold startOfPass; split_ifs <;> rfl

theorem startOfPass_sequencesDrawn (E : Collaborators R) (fixed : Array5 Bool) (n i : Nat)
    (s : RestartState R) :
    (startOfPass E fixed n i s).sequencesDrawn =
      s.sequencesDrawn + (if i > 0 then 1 else 0) := by
  unfold startOfPass; split_ifs <;> rfl

/-- What a pass of the restart loop that completes leaves: the object is changed
in its five parameters only, the error of the pass is the error computed from
the object as the pass found it, the status of the pass is the one returned by
the optimizer, entry 4 of `result` repeats entry 2, and one starting point is
handed to the optimizer. -/
theorem restartBody_ok (E : Collaborators R) (fixed : Array5 Bool) (n i : Nat)
    (s t : RestartState R) (a : Attempt R)
    (h : restartBody E fixed n i s = .ok (t, a)) :
    t.zabr.frame = s.zabr.frame ∧
    t.zabr.ZABREndCriteria_ = s.zabr.ZABREndCriteria_ ∧
    acceptanceError E s.zabr = .ok a.tmpInterpolationError ∧
    a.tmpEndCriteria = (minimizeCall E fixed i (startOfPass E fixed n i s)).endCriteria ∧
    a.result.a4 = a.result.a2 ∧
    t.minimizeStarts.length = s.minimizeStarts.length + 1 ∧
    t.sequencesDrawn = s.sequencesDrawn + (if i > 0 then 1 else 0) := by
  unfold restartBody at h
  simp only at h
  split at h
  · simp at h
  · rename_i z hev
    split at h
    · simp at h
    · rename_i err herr
      have hz := congrArg Prod.snd hev
      simp only at hz
      have hfr : z.frame = s.zabr.frame := by
        rw [← hz, evaluateAll_frame, startOfPass_zabr]
      have hst : z.ZABREndCriteria_ = s.zabr.ZABREndCriteria_ := by
        rw [← hz, evaluateAll_status, startOfPass_zabr]
      rw [acceptanceError_of_frame E hfr] at herr
      simp only [Except.ok.injEq, Prod.mk.injEq] at h
      obtain ⟨ht, ha⟩ := h
      subst ht ha
      refine ⟨hfr, hst, herr, rfl, rfl, ?_, ?_⟩
      · simp [startOfPass_minimizeStarts]
      · exact startOfPass_sequencesDrawn E fixed n i s

/-- A pass of the restart loop that throws has changed the five parameters of
the object only. -/
theorem restartBody_error (E : Collaborators R) (fixed : Array5 Bool) (n i : Nat)
    (s t : RestartState R) (e : Failure)
    (h : restartBody E fixed n i s = .error (e, t)) :
    t.zabr.frame = s.zabr.frame ∧ t.zabr.ZABREndCriteria_ = s.zabr.ZABREndCriteria_ := by
  unfold restartBody at h
  simp only at h
  have key : ∀ z : ZABRInterpolationImpl R,
      z = (evaluateAll E
        (ZabrParametersTransformation.inverse E.libm (startOfPass E fixed n i s).guess) fixed
        (minimizeCall E fixed i (startOfPass E fixed n i s)).evaluated
        (startOfPass E fixed n i s).zabr).2 →
      z.frame = s.zabr.frame ∧ z.ZABREndCriteria_ = s.zabr.ZABREndCriteria_ := by
    intro z hz
    rw [hz, evaluateAll_frame, evaluateAll_status, startOfPass_zabr]
    exact ⟨rfl, rfl⟩
  split at h
  · rename_i e1 z hev
    simp only [Except.error.injEq, Prod.mk.injEq] at h
    obtain ⟨_, ht⟩ := h
    subst ht
    exact key z (congrArg Prod.snd hev).symm
  · rename_i z hev
    split at h
    · rename_i e1 herr
      simp only [Except.error.injEq, Prod.mk.injEq] at h
      obtain ⟨_, ht⟩ := h
      subst ht
      exact key z (congrArg Prod.snd hev).symm
    · simp at h

theorem recordAttempt_frame (v : LoopVars R) (s : RestartState R) (a : Attempt R) :
    (recordAttempt v s a).st.zabr.frame = s.zabr.frame := by
  unfold recordAttempt; split_ifs <;> rfl

theorem recordAttempt_st (v : LoopVars R) (s : RestartState R) (a : Attempt R) :
    ∃ c, (recordAttempt v s a).st =
      { s with zabr := { s.zabr with ZABREndCriteria_ := c } } := by
  unfold recordAttempt
  split_ifs
  · exact ⟨a.tmpEndCriteria, rfl⟩
  · exact ⟨s.zabr.ZABREndCriteria_, rfl⟩

/-- An invariant of the variables of a pass that does not depend on the status
kept in the object holds when the restart loop stops, and a property that every
completed pass has holds of all recorded passes. -/
theorem restartLoop_invariant
    (body : Nat → RestartState R → Except (Failure × RestartState R) (RestartState R × Attempt R))
    (maxGuesses : Nat) (errorAccept : R)
    (Inv : RestartState R → Prop) (Q : Attempt R → Prop)
    (hstatus : ∀ s c, Inv s → Inv { s with zabr := { s.zabr with ZABREndCriteria_ := c } })
    (hok : ∀ i s t a, Inv s → body i s = .ok (t, a) → Inv t ∧ Q a)
    (herr : ∀ i s t e, Inv s → body i s = .error (e, t) → Inv t)
    (v : LoopVars R) :
    Inv v.st → (∀ a ∈ v.attempts, Q a) →
      Inv (restartLoop body maxGuesses errorAccept v).2.st ∧
        ∀ a ∈ (restartLoop body maxGuesses errorAccept v).2.attempts, Q a := by
  refine restartLoop.induct body maxGuesses errorAccept
    (fun v => Inv v.st → (∀ a ∈ v.attempts, Q a) →
      Inv (restartLoop body maxGuesses errorAccept v).2.st ∧
        ∀ a ∈ (restartLoop body maxGuesses errorAccept v).2.attempts, Q a)
    ?_ ?_ ?_ v
  · intro x e s hb hI hQ
    rw [restartLoop, hb]
    exact ⟨herr _ _ _ _ hI hb, hQ⟩
  · intro x s a hb hc ih hI hQ
    have e1 : restartLoop body maxGuesses errorAccept x =
        restartLoop body maxGuesses errorAccept (recordAttempt x s a) := by
      rw [restartLoop, hb]; simp only [hc, and_self, if_true]
    rw [e1]
    obtain ⟨hIt, hQa⟩ := hok _ _ _ _ hI hb
    obtain ⟨c, hcst⟩ := recordAttempt_st x s a
    refine ih (by rw [hcst]; exact hstatus _ _ hIt) ?_
    intro b hbm
    rw [recordAttempt_attempts, List.mem_append, List.mem_singleton] at hbm
    rcases hbm with hbm | hbm
    · exact hQ b hbm
    · rw [hbm]; exact hQa
  · intro x s a hb hc hI hQ
    have e1 : restartLoop body maxGuesses errorAccept x = (none, recordAttempt x s a) := by
      rw [restartLoop, hb]; simp only [hc, if_false]
    rw [e1]
    obtain ⟨hIt, hQa⟩ := hok _ _ _ _ hI hb
    obtain ⟨c, hcst⟩ := recordAttempt_st x s a
    refine ⟨by rw [hcst]; exact hstatus _ _ hIt, ?_⟩
    intro b hbm
    simp only [recordAttempt_attempts, List.mem_append, List.mem_singleton] at hbm
    rcases hbm with hbm | hbm
    · exact hQ b hbm
    · rw [hbm]; exact hQa

/-- When the passes leave the status of the object alone, the status kept in the
object after the loop is the status of the pass whose parameters are kept. -/
theorem restartLoop_best
    (body : Nat → RestartState R → Except (Failure × RestartState R) (RestartState R × Attempt R))
    (maxGuesses : Nat) (errorAccept : R)
    (hpres : ∀ i s t a, body i s = .ok (t, a) →
      t.zabr.ZABREndCriteria_ = s.zabr.ZABREndCriteria_)
    (v : LoopVars R) :
    ∀ w, restartLoop body maxGuesses errorAccept v = (none, w) →
      ∃ as : List (Attempt R), w.attempts = v.attempts ++ as ∧
        (⟨w.bestError, w.bestParameters, w.st.zabr.ZABREndCriteria_⟩ : Best R) =
          Best.over ⟨v.bestError, v.bestParameters, v.st.zabr.ZABREndCriteria_⟩ as := by
  refine restartLoop.induct body maxGuesses errorAccept
    (fun v => ∀ w, restartLoop body maxGuesses errorAccept v = (none, w) →
      ∃ as : List (Attempt R), w.attempts = v.attempts ++ as ∧
        (⟨w.bestError, w.bestParameters, w.st.zabr.ZABREndCriteria_⟩ : Best R) =
          Best.over ⟨v.bestError, v.bestParameters, v.st.zabr.ZABREndCriteria_⟩ as)
    ?_ ?_ ?_ v
  · intro x e s hb w hw
    rw [restartLoop, hb] at hw
    simp at hw
  · intro x s a hb hc ih w hw
    rw [restartLoop, hb] at hw
    simp only [hc, and_self, if_true] at hw
    obtain ⟨as, h1, h2⟩ := ih w hw
    refine ⟨a :: as, by rw [h1, recordAttempt_attempts]; simp, ?_⟩
    rw [h2, recordAttempt_best, hpres _ _ _ _ hb, Best.over_cons]
  · intro x s a hb hc w hw
    rw [restartLoop, hb] at hw
    simp only [hc, if_false] at hw
    have hw2 : recordAttempt x s a = w := (Prod.mk.inj hw).2
    subst hw2
    refine ⟨[a], recordAttempt_attempts x s a, ?_⟩
    rw [recordAttempt_best, hpres _ _ _ _ hb]
    rfl

theorem evaluateAll_returns (E : Collaborators R) (fixedParameters : Array5 R)
    (fixed : Array5 Bool) (xs : List (List R)) :
    ∀ (z : ZABRInterpolationImpl R) (c : R), z.interpolationSquaredError E = .ok c →
      (evaluateAll E fixedParameters fixed xs z).1 = none := by
  induction xs with
  | nil => intro z c _; rfl
  | cons x rest ih =>
    intro z c hc
    unfold evaluateAll
    have h1 : (ZABRError.value E z
        (ProjectedCostFunction.include fixedParameters fixed x)).1 = .ok c := by
      rw [ZABRError_value_eq, hc]
    have h2 : (ZABRError.value E z
        (ProjectedCostFunction.include fixedParameters fixed x)).2.frame = z.frame := rfl
    rcases hv : ZABRError.value E z
        (ProjectedCostFunction.include fixedParameters fixed x) with ⟨r, z1⟩
    rw [hv] at h1 h2
    simp only at h1 h2
    subst h1
    exact ih z1 c ((interpolationSquaredError_of_frame E h2).trans hc)

/-- A pass of the restart loop completes when the squared error and the error of
line 260 are computed on the object as the pass finds it. -/
theorem restartBody_returns (E : Collaborators R) (fixed : Array5 Bool) (n i : Nat)
    (s : RestartState R) (c err : R)
    (hS : s.zabr.interpolationSquaredError E = .ok c)
    (hA : acceptanceError E s.zabr = .ok err) :
    ∃ t, restartBody E fixed n i s = .ok (t,
      ⟨ZabrParametersTransformation.direct E.libm
        (ProjectedCostFunction.include
          (ZabrParametersTransformation.inverse E.libm (startOfPass E fixed n i s).guess) fixed
          (minimizeCall E fixed i (startOfPass E fixed n i s)).currentValue),
        (minimizeCall E fixed i (startOfPass E fixed n i s)).endCriteria, err⟩) := by
  have hev := evaluateAll_returns E
    (ZabrParametersTransformation.inverse E.libm (startOfPass E fixed n i s).guess) fixed
    (minimizeCall E fixed i (startOfPass E fixed n i s)).evaluated
    (startOfPass E fixed n i s).zabr c (by rw [startOfPass_zabr]; exact hS)
  have hfr := evaluateAll_frame E
    (ZabrParametersTransformation.inverse E.libm (startOfPass E fixed n i s).guess) fixed
    (minimizeCall E fixed i (startOfPass E fixed n i s)).evaluated
    (startOfPass E fixed n i s).zabr
  rcases hv : evaluateAll E
    (ZabrParametersTransformation.inverse E.libm (startOfPass E fixed n i s).guess) fixed
    (minimizeCall E fixed i (startOfPass E fixed n i s)).evaluated
    (startOfPass E fixed n i s).zabr with ⟨o, z⟩
  rw [hv] at hev hfr
  simp only at hev hfr
  rw [startOfPass_zabr] at hfr
  subst hev
  have hA2 : acceptanceError E z = .ok err := (acceptanceError_of_frame E hfr).trans hA
  unfold restartBody
  simp only [hv, hA2]
  exact ⟨_, rfl⟩

/-- The restart loop returns when every pass entered under an invariant, which
does not depend on the status kept in the object, completes and keeps it. -/
theorem restartLoop_returns
    (body : Nat → RestartState R → Except (Failure × RestartState R) (RestartState R × Attempt R))
    (maxGuesses : Nat) (errorAccept : R) (Inv : RestartState R → Prop)
    (hstatus : ∀ s c, Inv s → Inv { s with zabr := { s.zabr with ZABREndCriteria_ := c } })
    (hok : ∀ i s, Inv s → ∃ t a, body i s = .ok (t, a) ∧ Inv t)
    (v : LoopVars R) :
    Inv v.st → (restartLoop body maxGuesses errorAccept v).1 = none := by
  refine restartLoop.induct body maxGuesses errorAccept
    (fun v => Inv v.st → (restartLoop body maxGuesses errorAccept v).1 = none) ?_ ?_ ?_ v
  · intro x e s hb hI
    obtain ⟨t, a, hta, _⟩ := hok x.iterations x.st hI
    rw [hb] at hta
    simp at hta
  · intro x s a hb hc ih hI
    rw [restartLoop, hb]
    simp only [hc, and_self, if_true]
    obtain ⟨t, a2, hta, hIt⟩ := hok x.iterations x.st hI
    rw [hb] at hta
    simp only [Except.ok.injEq, Prod.mk.injEq] at hta
    obtain ⟨c, hcst⟩ := recordAttempt_st x s a
    apply ih
    rw [hcst, hta.1]
    exact hstatus _ _ hIt
  · intro x s a hb hc _
    rw [restartLoop, hb]
    simp only [hc, if_false]

/-- The first pass recorded by a run of the restart loop is the pass made on the
entry state. -/
theorem restartLoop_first
    (body : Nat → RestartState R → Except (Failure × RestartState R) (RestartState R × Attempt R))
    (maxGuesses : Nat) (errorAccept : R) (v w : LoopVars R) (s : RestartState R)
    (a : Attempt R) (hb : body v.iterations v.st = .ok (s, a))
    (hw : restartLoop body maxGuesses errorAccept v = (none, w)) :
    ∃ rest, w.attempts = v.attempts ++ a :: rest := by
  rw [restartLoop, hb] at hw
  simp only at hw
  split_ifs at hw with hc
  · obtain ⟨as, _, h1, _⟩ := restartLoop_trace body maxGuesses errorAccept _ w hw
    exact ⟨as, by rw [h1, recordAttempt_attempts]; simp⟩
  · have hw2 : recordAttempt v s a = w := (Prod.mk.inj hw).2
    exact ⟨[], by rw [← hw2, recordAttempt_attempts]⟩

/-- When all passes have the same error, below the initial best error, the
triple kept is that of the first pass. -/
theorem Best.over_constant (b : Best R) (a : Attempt R) (rest : List (Attempt R))
    (hlt : a.tmpInterpolationError < b.bestError)
    (hall : ∀ c ∈ rest, c.tmpInterpolationError = a.tmpInterpolationError) :
    Best.over b (a :: rest) = ⟨a.tmpInterpolationError, some a.result, a.tmpEndCriteria⟩ := by
  rw [Best.over_cons]
  have hrec : Best.record b a = ⟨a.tmpInterpolationError, some a.result, a.tmpEndCriteria⟩ := by
    unfold Best.record; rw [if_pos hlt]
  rw [hrec]
  rcases Best.over_spec rest ⟨a.tmpInterpolationError, some a.result, a.tmpEndCriteria⟩ with
    ⟨heq, _⟩ | ⟨i, c, hi, _, hlt2, _, _⟩
  · exact heq
  · have hc : c ∈ rest := List.getElem?_mem hi
    rw [hall c hc] at hlt2
    exact absurd hlt2 (lt_irrefl _)

theorem updateWeights_eq (E : Collaborators R) (z : ZABRInterpolationImpl R) :
    (updateWeights E z).2 = { z with weights_ := (updateWeights E z).2.weights_ } := by
  unfold updateWeights
  split_ifs
  · split
    · rfl
    · split_ifs <;> rfl
  · rfl

theorem updateAllFixed_spec (E : Collaborators R) (z : ZABRInterpolationImpl R) :
    (updateAllFixed E z).2.alpha_ = z.alpha_ ∧ (updateAllFixed E z).2.beta_ = z.beta_ ∧
    (updateAllFixed E z).2.nu_ = z.nu_ ∧ (updateAllFixed E z).2.rho_ = z.rho_ ∧
    (updateAllFixed E z).2.gamma_ = z.gamma_ ∧
    ((updateAllFixed E z).1 = none → (updateAllFixed E z).2.ZABREndCriteria_ = .None) ∧
    (z.ZABREndCriteria_ = .None → (updateAllFixed E z).2.ZABREndCriteria_ = .None) := by
  unfold updateAllFixed
  split
  · exact ⟨rfl, rfl, rfl, rfl, rfl, fun h => by simp at h, fun h => h⟩
  · simp only
    split
    · exact ⟨rfl, rfl, rfl, rfl, rfl, fun h => by simp at h, fun h => h⟩
    · exact ⟨rfl, rfl, rfl, rfl, rfl, fun _ => rfl, fun _ => rfl⟩

theorem update_eq_forward (E : Collaborators R) (z : ZABRInterpolationImpl R)
    (hf : ¬ z.forward_ > 0) : update E z = ⟨some .forwardNotPositive, z, [], [], 0⟩ := by
  unfold update; rw [if_neg hf]

theorem update_eq_weights (E : Collaborators R) (z z1 : ZABRInterpolationImpl R)
    (hf : z.forward_ > 0) (e : Failure) (hw : updateWeights E z = (some e, z1)) :
    update E z = ⟨some e, z1, [], [], 0⟩ := by
  unfold update; rw [if_pos hf, hw]

theorem update_eq_allFixed (E : Collaborators R) (z z1 : ZABRInterpolationImpl R)
    (hf : z.forward_ > 0) (hw : updateWeights E z = (none, z1))
    (hall : allParametersFixed z1 = true) :
    update E z = ⟨(updateAllFixed E z1).1, (updateAllFixed E z1).2, [], [], 0⟩ := by
  unfold update; rw [if_pos hf, hw]; simp only [hall, if_true]

theorem update_eq_restart_error (E : Collaborators R) (z z1 : ZABRInterpolationImpl R)
    (hf : z.forward_ > 0) (hw : updateWeights E z = (none, z1))
    (hall : allParametersFixed z1 = false) (e : Failure) (v : LoopVars R)
    (hrun : runRestarts E z1 = (some e, v)) :
    update E z =
      ⟨some e, v.st.zabr, v.attempts, v.st.minimizeStarts, v.st.sequencesDrawn⟩ := by
  unfold update; rw [if_pos hf, hw]; simp only [hall, hrun]; rfl

theorem update_eq_restart (E : Collaborators R) (z z1 : ZABRInterpolationImpl R)
    (hf : z.forward_ > 0) (hw : updateWeights E z = (none, z1))
    (hall : allParametersFixed z1 = false) (v : LoopVars R)
    (hrun : runRestarts E z1 = (none, v)) :
    update E z =
      ⟨(readBack E v.st.zabr v.bestParameters).1, (readBack E v.st.zabr v.bestParameters).2,
        v.attempts, v.st.minimizeStarts, v.st.sequencesDrawn⟩ := by
  unfold update; rw [if_pos hf, hw]; simp only [hall, hrun]; rfl

theorem interpolationError_of_data (E : Collaborators R) {z z' : ZABRInterpolationImpl R}
    (hs : z'.section_ = z.section_) (hx : z'.xs = z.xs) (hy : z'.ys = z.ys)
    (hw : z'.weights_ = z.weights_) : z'.interpolationError E = z.interpolationError E := by
  have hv : ∀ x, value E z' x = value E z x := by
    intro x; unfold value; rw [hs]
  unfold interpolationError interpolationSquaredError
  rw [hx, hy, hw, squaredErrorLoop_congr E E z z' hv]

theorem interpolationMaxError_of_data (E : Collaborators R) {z z' : ZABRInterpolationImpl R}
    (hs : z'.section_ = z.section_) (hx : z'.xs = z.xs) (hy : z'.ys = z.ys) :
    z'.interpolationMaxError E = z.interpolationMaxError E := by
  have hv : ∀ x, value E z' x = value E z x := by
    intro x; unfold value; rw [hs]
  unfold interpolationMaxError
  rw [hx, hy, maxErrorLoop_congr E E z z' hv]

/-- The statements after the restart loop, with the two errors computed on the
object as the loop left it: the parameters read back from `bestParameters` and
the errors stored do not enter `value`, which reads `section_`, and `section_`
is replaced last. -/
theorem readBack_eq (E : Collaborators R) (z : ZABRInterpolationImpl R) (p : Array5 R) :
    readBack E z (some p) =
      match z.interpolationError E with
      | .error e => (some e,
          { z with alpha_ := p.a0, beta_ := p.a1, nu_ := p.a2, rho_ := p.a3, gamma_ := p.a4 })
      | .ok e1 =>
        match z.interpolationMaxError E with
        | .error e => (some e,
            { z with alpha_ := p.a0, beta_ := p.a1, nu_ := p.a2, rho_ := p.a3, gamma_ := p.a4,
                     error_ := e1 })
        | .ok e2 => (none,
            { z with alpha_ := p.a0, beta_ := p.a1, nu_ := p.a2, rho_ := p.a3, gamma_ := p.a4,
                     error_ := e1, maxError_ := e2,
                     section_ := some ⟨z.t_, z.forward_, p, z.evaluation_⟩ }) := by
  have h1 : ({ z with
      alpha_ := p.a0, beta_ := p.a1, nu_ := p.a2, rho_ := p.a3,
      gamma_ := p.a4 } : ZABRInterpolationImpl R).interpolationError E =
      z.interpolationError E := interpolationError_of_data E rfl rfl rfl rfl
  have h2 : ∀ e1, ({ z with
      alpha_ := p.a0, beta_ := p.a1, nu_ := p.a2, rho_ := p.a3,
      gamma_ := p.a4, error_ := e1 } : ZABRInterpolationImpl R).interpolationMaxError E =
      z.interpolationMaxError E := fun e1 => interpolationMaxError_of_data E rfl rfl rfl
  unfold readBack
  simp only [h1]
  cases z.interpolationError E with
  | error e => rfl
  | ok e1 =>
    simp only [h2]

/-- What the restart loop of `update` leaves, whether it returns or throws: the
object is changed in its five parameters and its status only, and every pass
recorded has the error of line 260 computed on the object as `update` entered
the loop, and a `result` whose entry 4 repeats entry 2. -/
theorem runRestarts_invariant (E : Collaborators R) (z1 : ZABRInterpolationImpl R) :
    (runRestarts E z1).2.st.zabr.frame = z1.frame ∧
    ∀ a ∈ (runRestarts E z1).2.attempts,
      acceptanceError E z1 = .ok a.tmpInterpolationError ∧ a.result.a4 = a.result.a2 := by
  unfold runRestarts
  refine restartLoop_invariant _ _ _ (fun s => s.zabr.frame = z1.frame)
    (fun a => acceptanceError E z1 = .ok a.tmpInterpolationError ∧ a.result.a4 = a.result.a2)
    ?_ ?_ ?_ _ rfl ?_
  · intro s c hs; exact hs
  · intro i s t a hs hb
    obtain ⟨h1, _, h3, _, h5, _⟩ := restartBody_ok E _ _ i s t a hb
    exact ⟨h1.trans hs, by rw [← acceptanceError_of_frame E hs]; exact h3, h5⟩
  · intro i s t e hs hb
    exact (restartBody_error E _ _ i s t e hb).1.trans hs
  · intro a ha
    simp [initialLoopVars] at ha

/-- A call of `update` that runs the restart loop and returns: the object after
the weighting, the variables of the loop at its end and the parameters kept. -/
theorem update_restart_inversion (E : Collaborators R) (z : ZABRInterpolationImpl R)
    (hfree : allParametersFixed z = false) (hout : (update E z).outcome = none) :
    ∃ (z1 : ZABRInterpolationImpl R) (v : LoopVars R) (p : Array5 R) (e1 e2 : R),
      z.forward_ > 0 ∧ updateWeights E z = (none, z1) ∧
      allParametersFixed z1 = false ∧
      runRestarts E z1 = (none, v) ∧ v.bestParameters = some p ∧
      v.st.zabr.interpolationError E = .ok e1 ∧ v.st.zabr.interpolationMaxError E = .ok e2 ∧
      update E z = ⟨none,
        { v.st.zabr with
            alpha_ := p.a0, beta_ := p.a1, nu_ := p.a2, rho_ := p.a3,
            gamma_ := p.a4, error_ := e1, maxError_ := e2,
            section_ := some ⟨v.st.zabr.t_, v.st.zabr.forward_, p, v.st.zabr.evaluation_⟩ },
        v.attempts, v.st.minimizeStarts, v.st.sequencesDrawn⟩ := by
  by_cases hf : z.forward_ > 0
  · have hz := updateWeights_eq E z
    rcases hw : updateWeights E z with ⟨o, z1⟩
    rw [hw] at hz
    simp only at hz
    have hall : allParametersFixed z1 = false := by
      rw [hz]; exact hfree
    cases o with
    | some e =>
      rw [update_eq_weights E z z1 hf e hw] at hout
      simp at hout
    | none =>
      rcases hrun : runRestarts E z1 with ⟨o2, v⟩
      cases o2 with
      | some e =>
        rw [update_eq_restart_error E z z1 hf hw hall e v hrun] at hout
        simp at hout
      | none =>
        have hu := update_eq_restart E z z1 hf hw hall v hrun
        rw [hu] at hout
        simp only at hout
        cases hbp : v.bestParameters with
        | none =>
          rw [hbp] at hout
          simp [readBack] at hout
        | some p =>
          rw [hbp] at hout hu
          rw [readBack_eq] at hout hu
          cases he1 : v.st.zabr.interpolationError E with
          | error e => rw [he1] at hout; simp at hout
          | ok e1 =>
            rw [he1] at hout hu
            simp only at hout hu
            cases he2 : v.st.zabr.interpolationMaxError E with
            | error e => rw [he2] at hout; simp at hout
            | ok e2 =>
              rw [he2] at hu
              exact ⟨z1, v, p, e1, e2, hf, rfl, hall, hrun, hbp, he1, he2, hu⟩
  · rw [update_eq_forward E z hf] at hout
    simp at hout

theorem interpolationSquaredError_of_error (E : Collaborators R)
    (z : ZABRInterpolationImpl R) (e1 : R) (h : z.interpolationError E = .ok e1) :
    ∃ c, z.interpolationSquaredError E = .ok c := by
  unfold interpolationError at h
  cases hS : z.interpolationSquaredError E with
  | error e => rw [hS] at h; simp at h
  | ok c => exact ⟨c, rfl⟩

/-- A call of `update` that runs the restart loop returns when the forward is
positive, the weighting succeeds, the two errors are computed on the object as
it enters the loop, and the error of line 260 is below `QL_MAX_REAL`. Every pass
has that same error, so the first pass is the one kept: the parameters reported
are `result` of the pass with `iterations = 0`, the status is the status of that
pass, and the errors reported are those computed on entry. -/
theorem update_restart_returns (E : Collaborators R) (z z1 : ZABRInterpolationImpl R)
    (hf : z.forward_ > 0) (hw : updateWeights E z = (none, z1))
    (hfree : allParametersFixed z = false) (e1 e2 : R)
    (hE : z1.interpolationError E = .ok e1) (hM : z1.interpolationMaxError E = .ok e2)
    (hlt : (if z1.useMaxError_ then e2 else e1) < E.QL_MAX_REAL) :
    (update E z).outcome = none ∧
    (update E z).state.error_ = e1 ∧ (update E z).state.maxError_ = e2 ∧
    (update E z).state.alpha_ = (firstResult E z1).a0 ∧
    (update E z).state.beta_ = (firstResult E z1).a1 ∧
    (update E z).state.nu_ = (firstResult E z1).a2 ∧
    (update E z).state.rho_ = (firstResult E z1).a3 ∧
    (update E z).state.gamma_ = (firstResult E z1).a4 ∧
    (update E z).state.ZABREndCriteria_ =
      (minimizeCall E (parameterAreFixed z1) 0 (initialLoopVars E z1).st).endCriteria ∧
    (update E z).state.section_ =
      some ⟨z1.t_, z1.forward_, firstResult E z1, z1.evaluation_⟩ := by
  have hz := updateWeights_eq E z
  rw [hw] at hz
  simp only at hz
  have hall : allParametersFixed z1 = false := by rw [hz]; exact hfree
  obtain ⟨c, hS⟩ := interpolationSquaredError_of_error E z1 e1 hE
  have hA : acceptanceError E z1 = .ok (if z1.useMaxError_ then e2 else e1) := by
    unfold acceptanceError
    split_ifs
    · exact hM
    · exact hE
  have hbody : ∀ i s, s.zabr.frame = z1.frame →
      ∃ t a, restartBody E (parameterAreFixed z1) (freeParameters z1) i s = .ok (t, a) ∧
        t.zabr.frame = z1.frame := by
    intro i s hs
    obtain ⟨t, ht⟩ := restartBody_returns E (parameterAreFixed z1) (freeParameters z1) i s c
      (if z1.useMaxError_ then e2 else e1)
      ((interpolationSquaredError_of_frame E hs).trans hS)
      ((acceptanceError_of_frame E hs).trans hA)
    exact ⟨t, _, ht, (restartBody_ok E _ _ i s t _ ht).1.trans hs⟩
  have hret : (runRestarts E z1).1 = none := by
    unfold runRestarts
    exact restartLoop_returns _ _ _ (fun s => s.zabr.frame = z1.frame)
      (fun s c hs => hs) hbody _ rfl
  rcases hrun : runRestarts E z1 with ⟨o, v⟩
  rw [hrun] at hret
  simp only at hret
  subst hret
  have hinv := runRestarts_invariant E z1
  rw [hrun] at hinv
  obtain ⟨hfr, hatt⟩ := hinv
  simp only at hfr hatt
  obtain ⟨t0, ht0⟩ := restartBody_returns E (parameterAreFixed z1) (freeParameters z1) 0
    (initialLoopVars E z1).st c (if z1.useMaxError_ then e2 else e1) hS hA
  have hrun2 := hrun
  unfold runRestarts at hrun2
  obtain ⟨rest, hrest⟩ := restartLoop_first _ _ _ (initialLoopVars E z1) v t0 _ ht0 hrun2
  obtain ⟨as, has, hbest⟩ := restartLoop_best _ z1.maxGuesses_ z1.errorAccept_
    (fun i s t a hb => (restartBody_ok E (parameterAreFixed z1) (freeParameters z1)
      i s t a hb).2.1) (initialLoopVars E z1) v hrun2
  rw [hrest] at has
  have has2 : as = _ :: rest := (List.append_cancel_left has).symm
  rw [has2, Best.over_constant _ _ rest hlt] at hbest
  · simp only [Best.mk.injEq] at hbest
    obtain ⟨_, hbp, hst⟩ := hbest
    have hu := update_eq_restart E z z1 hf hw hall v hrun
    rw [hbp, readBack_eq, (interpolationError_of_frame E hfr).trans hE,
      (interpolationMaxError_of_frame E hfr).trans hM] at hu
    simp only at hu
    have ht : v.st.zabr.t_ = z1.t_ := congrArg (fun y => y.t_) hfr
    have hfw : v.st.zabr.forward_ = z1.forward_ := congrArg (fun y => y.forward_) hfr
    have hev : v.st.zabr.evaluation_ = z1.evaluation_ :=
      congrArg (fun y => y.evaluation_) hfr
    rw [hu]
    refine ⟨rfl, rfl, rfl, rfl, rfl, rfl, rfl, rfl, hst, ?_⟩
    show some _ = some _
    rw [ht, hfw, hev]
    rfl
  · intro a ha
    have hmem : a ∈ v.attempts := by rw [hrest]; simp [ha]
    have h1 := (hatt a hmem).1
    rw [hA] at h1
    simp only [Except.ok.injEq] at h1
    exact h1.symm

theorem restartLoop_error
    (body : Nat → RestartState R → Except (Failure × RestartState R) (RestartState R × Attempt R))
    (maxGuesses : Nat) (errorAccept : R) (v : LoopVars R) (e : Failure) (s : RestartState R)
    (hb : body v.iterations v.st = .error (e, s)) :
    restartLoop body maxGuesses errorAccept v = (some e, { v with st := s }) := by
  rw [restartLoop, hb]

theorem abs_half : |(1 / 2 : R)| = 1 / 2 := abs_of_pos (by norm_num)

theorem sample_interpolationError (L : Libm R) :
    (sampleImpl : ZABRInterpolationImpl R).interpolationError (sampleCollaborators L) =
      .ok (L.sqrt (1 / 4000)) := by
  norm_num [interpolationError, interpolationSquaredError, squaredErrorLoop, value,
    sampleImpl, sampleCollaborators]

theorem sample_interpolationMaxError (L : Libm R) :
    (sampleImpl : ZABRInterpolationImpl R).interpolationMaxError (sampleCollaborators L) =
      .ok (1 / 50) := by
  norm_num [interpolationMaxError, maxErrorLoop, value, sampleImpl, sampleCollaborators,
    abs_of_nonneg, max_def]

theorem sample_firstResult (L : Libm R) :
    firstResult (sampleCollaborators L) (sampleImpl : ZABRInterpolationImpl R) =
      ⟨1 / 4 + 1 / 10000000, L.exp (-(1 / 4)), 1 / 4 + 1 / 10000000,
        9999 / 10000 * L.sin (1 / 2), 1 / 4 + 1 / 10000000⟩ := by
  norm_num [firstResult, minimizeCall, sampleCollaborators, initialLoopVars, parameterAreFixed,
    sampleImpl, ProjectedCostFunction.include, ProjectedCostFunction.project,
    ProjectedCostFunction.freeBefore, ZabrParametersTransformation.direct,
    ZabrParametersTransformation.eps1_, ZabrParametersTransformation.eps2_, abs_half]

/-- The run of `update` on `sampleImpl` with the sample collaborators, for every
`<cmath>`: it returns after one pass; the optimizer has moved the four free
coordinates to 1/2, so alpha = nu = 1/4 + 10^-7, and gamma, which is fixed at 1,
is reported as 1/4 + 10^-7 too; the errors reported are those of the section that
was in place on entry. -/
theorem sample_update (L : Libm R) :
    (update (sampleCollaborators L) sampleImpl).outcome = none ∧
    (update (sampleCollaborators L) sampleImpl).state.error_ = L.sqrt (1 / 4000) ∧
    (update (sampleCollaborators L) sampleImpl).state.maxError_ = 1 / 50 ∧
    (update (sampleCollaborators L) sampleImpl).state.alpha_ = 1 / 4 + 1 / 10000000 ∧
    (update (sampleCollaborators L) sampleImpl).state.nu_ = 1 / 4 + 1 / 10000000 ∧
    (update (sampleCollaborators L) sampleImpl).state.gamma_ = 1 / 4 + 1 / 10000000 ∧
    (update (sampleCollaborators L) sampleImpl).state.ZABREndCriteria_ = .MaxIterations ∧
    (update (sampleCollaborators L) sampleImpl).state.section_ =
      some ⟨5, 4 / 100, ⟨1 / 4 + 1 / 10000000, L.exp (-(1 / 4)), 1 / 4 + 1 / 10000000,
        9999 / 10000 * L.sin (1 / 2), 1 / 4 + 1 / 10000000⟩, 0⟩ := by
  have hw : updateWeights (sampleCollaborators L) (sampleImpl : ZABRInterpolationImpl R) =
      (none, sampleImpl) := rfl
  obtain ⟨h1, h2, h3, h4, _, h6, _, h8, h9, h10⟩ :=
    update_restart_returns (sampleCollaborators L) sampleImpl sampleImpl
      (by norm_num [sampleImpl]) hw rfl _ _ (sample_interpolationError L)
      (sample_interpolationMaxError L) (by norm_num [sampleImpl, sampleCollaborators])
  rw [sample_firstResult] at h4 h6 h8 h10
  exact ⟨h1, h2, h3, h4, h6, h8, h9, h10⟩

/-- The first call of `update` on `freshImpl`, the object as constructed, with the
sample collaborators: the first evaluation of the cost function assigns the
parameters and then calls `value`, which finds `section_` empty. -/
theorem fresh_update (L : Libm R) :
    (update (sampleCollaborators L) freshImpl).outcome = some .nullSection ∧
    (update (sampleCollaborators L) freshImpl).state.gamma_ = 1 / 4 + 1 / 10000000 ∧
    (update (sampleCollaborators L) freshImpl).state.error_ = 0 ∧
    (update (sampleCollaborators L) freshImpl).state.section_ = none := by
  have hw : updateWeights (sampleCollaborators L) (freshImpl : ZABRInterpolationImpl R) =
      (none, freshImpl) := rfl
  have hb : ∃ t, restartBody (sampleCollaborators L)
      (parameterAreFixed (freshImpl : ZABRInterpolationImpl R))
      (freeParameters (freshImpl : ZABRInterpolationImpl R)) 0
      (initialLoopVars (sampleCollaborators L) freshImpl).st = .error (.nullSection, t) ∧
      t.zabr.gamma_ = 1 / 4 + 1 / 10000000 ∧ t.zabr.error_ = 0 ∧ t.zabr.section_ = none := by
    unfold restartBody
    norm_num [startOfPass, minimizeCall, sampleCollaborators, initialLoopVars,
      parameterAreFixed, freshImpl, sampleImpl, ProjectedCostFunction.include,
      ProjectedCostFunction.project, ProjectedCostFunction.freeBefore,
      ZabrParametersTransformation.direct, ZabrParametersTransformation.eps1_, evaluateAll,
      ZABRError.value, ZABRError.assign, interpolationSquaredError, squaredErrorLoop, value,
      abs_half]
  obtain ⟨t, ht, hg, he, hs⟩ := hb
  have hrun : runRestarts (sampleCollaborators L) (freshImpl : ZABRInterpolationImpl R) =
      (some .nullSection, { initialLoopVars (sampleCollaborators L) freshImpl with st := t }) :=
    restartLoop_error _ _ _ _ _ _ ht
  rw [update_eq_restart_error _ _ _ (by norm_num [freshImpl, sampleImpl]) hw rfl _ _ hrun]
  exact ⟨rfl, hg, he, hs⟩

theorem no_error_without_section (E : Collaborators R) (z : ZABRInterpolationImpl R)
    (hsec : z.section_ = none) (hne : z.xs ≠ []) :
    (∀ r, z.interpolationSquaredError E ≠ .ok r) ∧ (∀ r, z.interpolationError E ≠ .ok r) ∧
      (∀ r, z.interpolationMaxError E ≠ .ok r) := by
  have hv : ∀ x, ∃ e, value E z x = .error e := by
    intro x
    unfold value
    rw [hsec]
    split_ifs
    · exact ⟨_, rfl⟩
    · exact ⟨_, rfl⟩
  have hS : ∀ r, z.interpolationSquaredError E ≠ .ok r := by
    intro r
    unfold interpolationSquaredError
    cases hx : z.xs with
    | nil => exact absurd hx hne
    | cons x rest =>
      obtain ⟨e, he⟩ := hv x
      cases z.ys with
      | nil => simp [squaredErrorLoop]
      | cons y ys2 =>
        cases z.weights_ with
        | nil => simp [squaredErrorLoop]
        | cons w ws2 => simp [squaredErrorLoop, he]
  refine ⟨hS, ?_, ?_⟩
  · intro r hr
    obtain ⟨c, hc⟩ := interpolationSquaredError_of_error E z r hr
    exact hS c hc
  · intro r
    unfold interpolationMaxError
    cases hx : z.xs with
    | nil => exact absurd hx hne
    | cons x rest =>
      obtain ⟨e, he⟩ := hv x
      cases z.ys with
      | nil => simp [maxErrorLoop]
      | cons y ys2 => simp [maxErrorLoop, he]

/-- On an object whose `section_` is empty, as the constructor leaves it, and
which has at least one point, `update` never returns: both branches evaluate
`value` before line 278 builds the section. -/
theorem update_without_section (E : Collaborators R) (z : ZABRInterpolationImpl R)
    (hsec : z.section_ = none) (hne : z.xs ≠ []) : (update E z).outcome ≠ none := by
  intro hout
  have hz := updateWeights_eq E z
  cases hall : allParametersFixed z with
  | false =>
    obtain ⟨z1, v, p, e1, e2, _, hw, _, hrun, _, he1, _⟩ :=
      update_restart_inversion E z hall hout
    rw [hw] at hz
    simp only at hz
    have hfr := (runRestarts_invariant E z1).1
    rw [hrun] at hfr
    simp only at hfr
    have h1 : z1.interpolationError E = .ok e1 :=
      (interpolationError_of_frame E hfr).symm.trans he1
    exact (no_error_without_section E z1 (by rw [hz]; exact hsec)
      (by rw [hz]; exact hne)).2.1 e1 h1
  | true =>
    by_cases hf : z.forward_ > 0
    · rcases hw : updateWeights E z with ⟨o, z1⟩
      rw [hw] at hz
      simp only at hz
      cases o with
      | some e =>
        rw [update_eq_weights E z z1 hf e hw] at hout
        simp at hout
      | none =>
        rw [update_eq_allFixed E z z1 hf hw (by rw [hz]; exact hall)] at hout
        simp only at hout
        unfold updateAllFixed at hout
        have hno := (no_error_without_section E z1 (by rw [hz]; exact hsec)
          (by rw [hz]; exact hne)).2.1
        cases he : z1.interpolationError E with
        | error e => rw [he] at hout; simp at hout
        | ok r => exact hno r he
    · rw [update_eq_forward E z hf] at hout
      simp at hout

theorem configuration_of_frame {z z' : ZABRInterpolationImpl R} (h : z'.frame = z.frame) :
    z'.configuration = z.configuration :=
  congrArg (fun y => y.configuration) h

/-- The frame of `update`: expiry, forward, fixed flags, points and settings are
never assigned, whether `update` returns or throws. -/
theorem update_configuration (E : Collaborators R) (z : ZABRInterpolationImpl R) :
    (update E z).state.configuration = z.configuration := by
  by_cases hf : z.forward_ > 0
  · have hz := updateWeights_eq E z
    rcases hw : updateWeights E z with ⟨o, z1⟩
    rw [hw] at hz
    simp only at hz
    have hc1 : z1.configuration = z.configuration := by rw [hz]; rfl
    cases o with
    | some e => rw [update_eq_weights E z z1 hf e hw]; exact hc1
    | none =>
      cases hall : allParametersFixed z1 with
      | true =>
        rw [update_eq_allFixed E z z1 hf hw hall]
        refine Eq.trans ?_ hc1
        show (updateAllFixed E z1).2.configuration = z1.configuration
        unfold updateAllFixed
        split
        · rfl
        · simp only
          split <;> rfl
      | false =>
        have hfr := (runRestarts_invariant E z1).1
        rcases hrun : runRestarts E z1 with ⟨o2, v⟩
        rw [hrun] at hfr
        simp only at hfr
        have hcv : v.st.zabr.configuration = z.configuration :=
          (configuration_of_frame hfr).trans hc1
        cases o2 with
        | some e => rw [update_eq_restart_error E z z1 hf hw hall e v hrun]; exact hcv
        | none =>
          rw [update_eq_restart E z z1 hf hw hall v hrun]
          refine Eq.trans ?_ hcv
          show (readBack E v.st.zabr v.bestParameters).2.configuration =
            v.st.zabr.configuration
          cases v.bestParameters with
          | none => rfl
          | some p =>
            rw [readBack_eq]
            cases v.st.zabr.interpolationError E with
            | error e => rfl
            | ok e1 =>
              simp only
              cases v.st.zabr.interpolationMaxError E with
              | error e => rfl
              | ok e2 => rfl
  · rw [update_eq_forward E z hf]

/-- C1, the code at two concrete inputs, for every `<cmath>`. On `sampleImpl`,
where gamma is supplied as 1 and marked fixed, `update` returns and reports
gamma = nu = 1/4 + 10^-7: `direct` computes its entry 4 from `x[2]`, the slot
of nu. On `freshImpl`, the same object as the constructor leaves it, `update`
throws on the empty `section_` after the first evaluation of the cost function
has already overwritten gamma with 1/4 + 10^-7. -/
theorem update_overwrites_fixed_gamma (L : Libm R) :
    (sampleImpl : ZABRInterpolationImpl R).gammaIsFixed_ = true ∧
    (sampleImpl : ZABRInterpolationImpl R).gamma_ = 1 ∧
    (update (sampleCollaborators L) sampleImpl).outcome = none ∧
    (update (sampleCollaborators L) sampleImpl).state.gamma_ = 1 / 4 + 1 / 10000000 ∧
    (update (sampleCollaborators L) sampleImpl).state.nu_ = 1 / 4 + 1 / 10000000 ∧
    (update (sampleCollaborators L) sampleImpl).state.gamma_ ≠ 1 ∧
    (freshImpl : ZABRInterpolationImpl R).gammaIsFixed_ = true ∧
    (freshImpl : ZABRInterpolationImpl R).gamma_ = 1 ∧
    (update (sampleCollaborators L) freshImpl).outcome = some .nullSection ∧
    (update (sampleCollaborators L) freshImpl).state.gamma_ = 1 / 4 + 1 / 10000000 := by
  obtain ⟨h1, _, _, _, h5, h6, _, _⟩ := sample_update L
  obtain ⟨f1, f2, _, _⟩ := fresh_update L
  refine ⟨rfl, rfl, h1, h6, h5, ?_, rfl, rfl, f1, f2⟩
  rw [h6]
  norm_num

/-- C3, the code at concrete inputs, for every `<cmath>`. On `sampleImpl`
`update` returns with alpha = 1/4 + 10^-7 and reports `maxError_ = 1/50`, the
maximum error of the section in place on entry (alpha = 1/5); the maximum
absolute error of the smile model at the reported parameters against the market
points is 3/50 + 10^-7, and this is what `interpolationMaxError` returns on the
object as `update` leaves it. On `freshImpl`, and on `freshImpl` with all five
parameters fixed, `update` throws on the empty `section_` and reports no error. -/
theorem update_reports_stale_errors (L : Libm R) :
    (update (sampleCollaborators L) sampleImpl).outcome = none ∧
    (update (sampleCollaborators L) sampleImpl).state.alpha_ = 1 / 4 + 1 / 10000000 ∧
    (update (sampleCollaborators L) sampleImpl).state.maxError_ = 1 / 50 ∧
    modelMaxError (sampleCollaborators L) sampleImpl
      ⟨(update (sampleCollaborators L) sampleImpl).state.alpha_,
       (update (sampleCollaborators L) sampleImpl).state.beta_,
       (update (sampleCollaborators L) sampleImpl).state.nu_,
       (update (sampleCollaborators L) sampleImpl).state.rho_,
       (update (sampleCollaborators L) sampleImpl).state.gamma_⟩ = 3 / 50 + 1 / 10000000 ∧
    (update (sampleCollaborators L) sampleImpl).state.interpolationMaxError
      (sampleCollaborators L) = .ok (3 / 50 + 1 / 10000000) ∧
    (update (sampleCollaborators L) freshImpl).outcome = some .nullSection ∧
    (update (sampleCollaborators L)
      { (freshImpl : ZABRInterpolationImpl R) with
        alphaIsFixed_ := true, betaIsFixed_ := true, nuIsFixed_ := true,
        rhoIsFixed_ := true }).outcome = some .nullSection := by
  obtain ⟨h1, _, h3, h4, _, _, _, h8⟩ := sample_update L
  obtain ⟨f1, _, _, _⟩ := fresh_update L
  refine ⟨h1, h4, h3, ?_, ?_, f1, ?_⟩
  · rw [h4]
    norm_num [modelMaxError, sampleCollaborators, sampleImpl, abs_of_nonneg, max_def]
  · have hc := update_configuration (sampleCollaborators L)
      (sampleImpl : ZABRInterpolationImpl R)
    have hx : (update (sampleCollaborators L) sampleImpl).state.xs =
        (sampleImpl : ZABRInterpolationImpl R).xs := congrArg (fun y => y.xs) hc
    have hy : (update (sampleCollaborators L) sampleImpl).state.ys =
        (sampleImpl : ZABRInterpolationImpl R).ys := congrArg (fun y => y.ys) hc
    rw [@interpolationMaxError_of_data R _ (sampleCollaborators L)
      { (sampleImpl : ZABRInterpolationImpl R) with
        section_ := some ⟨5, 4 / 100, ⟨1 / 4 + 1 / 10000000, L.exp (-(1 / 4)),
          1 / 4 + 1 / 10000000, 9999 / 10000 * L.sin (1 / 2), 1 / 4 + 1 / 10000000⟩, 0⟩ }
      _ h8 hx hy]
    norm_num [interpolationMaxError, maxErrorLoop, value, sampleImpl, sampleCollaborators,
      abs_of_nonneg, max_def]
  · norm_num [update, updateWeights, allParametersFixed, updateAllFixed, interpolationError,
      interpolationSquaredError, squaredErrorLoop, value, freshImpl, sampleImpl,
      sampleCollaborators]

/-- C7. All-fixed short cut: when all five parameters are fixed, `update` hands
no starting point to the optimizer, draws no sequence from the generator and
runs no pass of the restart loop, whether it returns or throws; it leaves alpha,
beta, nu, rho and gamma as supplied; when it returns the termination status is
`EndCriteria::None`, and so it is after a throw on an object whose status was
`EndCriteria::None`, as the constructor sets it. -/
theorem update_all_fixed (E : Collaborators R) (z : ZABRInterpolationImpl R)
    (hfix : z.alphaIsFixed_ = true ∧ z.betaIsFixed_ = true ∧ z.nuIsFixed_ = true ∧
      z.rhoIsFixed_ = true ∧ z.gammaIsFixed_ = true) :
    (update E z).minimizeStarts = [] ∧ (update E z).sequencesDrawn = 0 ∧
    (update E z).attempts = [] ∧
    (update E z).state.alpha_ = z.alpha_ ∧ (update E z).state.beta_ = z.beta_ ∧
    (update E z).state.nu_ = z.nu_ ∧ (update E z).state.rho_ = z.rho_ ∧
    (update E z).state.gamma_ = z.gamma_ ∧
    ((update E z).outcome = none → (update E z).state.ZABREndCriteria_ = .None) ∧
    (z.ZABREndCriteria_ = .None → (update E z).state.ZABREndCriteria_ = .None) := by
  obtain ⟨h0, h1, h2, h3, h4⟩ := hfix
  by_cases hf : z.forward_ > 0
  · have hz := updateWeights_eq E z
    rcases hw : updateWeights E z with ⟨o, z1⟩
    rw [hw] at hz
    simp only at hz
    have hall : allParametersFixed z1 = true := by
      rw [hz]; simp [allParametersFixed, h0, h1, h2, h3, h4]
    have p0 : z1.alpha_ = z.alpha_ := by rw [hz]
    have p1 : z1.beta_ = z.beta_ := by rw [hz]
    have p2 : z1.nu_ = z.nu_ := by rw [hz]
    have p3 : z1.rho_ = z.rho_ := by rw [hz]
    have p4 : z1.gamma_ = z.gamma_ := by rw [hz]
    have p5 : z1.ZABREndCriteria_ = z.ZABREndCriteria_ := by rw [hz]
    cases o with
    | some e =>
      rw [update_eq_weights E z z1 hf e hw]
      exact ⟨rfl, rfl, rfl, p0, p1, p2, p3, p4, fun h => by simp at h,
        fun h => p5.trans h⟩
    | none =>
      obtain ⟨a0, a1, a2, a3, a4, a5, a6⟩ := updateAllFixed_spec E z1
      rw [update_eq_allFixed E z z1 hf hw hall]
      exact ⟨rfl, rfl, rfl, a0.trans p0, a1.trans p1, a2.trans p2, a3.trans p3,
        a4.trans p4, a5, fun h => a6 (p5.trans h)⟩
  · rw [update_eq_forward E z hf]
    exact ⟨rfl, rfl, rfl, rfl, rfl, rfl, rfl, rfl, fun h => by simp at h, fun h => h⟩

/-- C7 at a concrete input over the real numbers: `sampleImpl` with all five
parameters fixed; `update` returns, and the conclusions of C7 hold. -/
theorem update_all_fixed_witness :
    (update (sampleCollaborators ⟨Real.sqrt, Real.exp, Real.log, Real.sin, Real.arcsin⟩)
      { (sampleImpl : ZABRInterpolationImpl ℝ) with
        alphaIsFixed_ := true, betaIsFixed_ := true, nuIsFixed_ := true,
        rhoIsFixed_ := true }).outcome = none ∧
    (update (sampleCollaborators ⟨Real.sqrt, Real.exp, Real.log, Real.sin, Real.arcsin⟩)
      { (sampleImpl : ZABRInterpolationImpl ℝ) with
        alphaIsFixed_ := true, betaIsFixed_ := true, nuIsFixed_ := true,
        rhoIsFixed_ := true }).minimizeStarts = [] ∧
    (update (sampleCollaborators ⟨Real.sqrt, Real.exp, Real.log, Real.sin, Real.arcsin⟩)
      { (sampleImpl : ZABRInterpolationImpl ℝ) with
        alphaIsFixed_ := true, betaIsFixed_ := true, nuIsFixed_ := true,
        rhoIsFixed_ := true }).state.gamma_ = 1 ∧
    (update (sampleCollaborators ⟨Real.sqrt, Real.exp, Real.log, Real.sin, Real.arcsin⟩)
      { (sampleImpl : ZABRInterpolationImpl ℝ) with
        alphaIsFixed_ := true, betaIsFixed_ := true, nuIsFixed_ := true,
        rhoIsFixed_ := true }).state.ZABREndCriteria_ = .None :=
  have hout : (update
      (sampleCollaborators ⟨Real.sqrt, Real.exp, Real.log, Real.sin, Real.arcsin⟩)
      { (sampleImpl : ZABRInterpolationImpl ℝ) with
        alphaIsFixed_ := true, betaIsFixed_ := true, nuIsFixed_ := true,
        rhoIsFixed_ := true }).outcome = none := by
    norm_num [update, updateWeights, allParametersFixed, updateAllFixed, interpolationError,
      interpolationSquaredError, squaredErrorLoop, interpolationMaxError, maxErrorLoop, value,
      sampleImpl, sampleCollaborators]
  have h := update_all_fixed
    (sampleCollaborators ⟨Real.sqrt, Real.exp, Real.log, Real.sin, Real.arcsin⟩)
    { (sampleImpl : ZABRInterpolationImpl ℝ) with
      alphaIsFixed_ := true, betaIsFixed_ := true, nuIsFixed_ := true,
      rhoIsFixed_ := true } ⟨rfl, rfl, rfl, rfl, rfl⟩
  ⟨hout, h.1, h.2.2.2.2.2.2.2.1, h.2.2.2.2.2.2.2.2.1 hout⟩

end Update

section Statuses

variable {R : Type} [LinearOrderedField R]

open ZABRInterpolationImpl

theorem withStatuses_libm (E : Collaborators R) (f : Nat → EndCriteriaType) :
    (E.withStatuses f).libm = E.libm := rfl

theorem setStatus_guess (c : EndCriteriaType) (s : RestartState R) :
    (s.setStatus c).guess = s.guess := rfl

theorem setStatus_zabr (c : EndCriteriaType) (s : RestartState R) :
    (s.setStatus c).zabr = s.zabr.setStatus c := rfl

theorem setStatus_sequencesDrawn (c : EndCriteriaType) (s : RestartState R) :
    (s.setStatus c).sequencesDrawn = s.sequencesDrawn := rfl

theorem setStatus_minimizeStarts (c : EndCriteriaType) (s : RestartState R) :
    (s.setStatus c).minimizeStarts = s.minimizeStarts := rfl

theorem interpolationSquaredError_withStatuses (E : Collaborators R)
    (f : Nat → EndCriteriaType) (c : EndCriteriaType) (z : ZABRInterpolationImpl R) :
    (z.setStatus c).interpolationSquaredError (E.withStatuses f) =
      z.interpolationSquaredError E :=
  squaredErrorLoop_congr E (E.withStatuses f) z (z.setStatus c) (fun _ => rfl) _ _ _ _

theorem interpolationErrors_withStatuses (E : Collaborators R)
    (f : Nat → EndCriteriaType) (c : EndCriteriaType) (z : ZABRInterpolationImpl R) :
    (z.setStatus c).interpolationErrors (E.withStatuses f) = z.interpolationErrors E :=
  errorsLoop_congr E (E.withStatuses f) z (z.setStatus c) (fun _ => rfl) rfl _ _ _

theorem interpolationError_withStatuses (E : Collaborators R)
    (f : Nat → EndCriteriaType) (c : EndCriteriaType) (z : ZABRInterpolationImpl R) :
    (z.setStatus c).interpolationError (E.withStatuses f) = z.interpolationError E := by
  unfold interpolationError
  rw [interpolationSquaredError_withStatuses]
  rfl

theorem interpolationMaxError_withStatuses (E : Collaborators R)
    (f : Nat → EndCriteriaType) (c : EndCriteriaType) (z : ZABRInterpolationImpl R) :
    (z.setStatus c).interpolationMaxError (E.withStatuses f) = z.interpolationMaxError E :=
  maxErrorLoop_congr E (E.withStatuses f) z (z.setStatus c) (fun _ => rfl) _ _ _

theorem acceptanceError_withStatuses (E : Collaborators R)
    (f : Nat → EndCriteriaType) (c : EndCriteriaType) (z : ZABRInterpolationImpl R) :
    acceptanceError (E.withStatuses f) (z.setStatus c) = acceptanceError E z := by
  unfold acceptanceError
  rw [interpolationError_withStatuses, interpolationMaxError_withStatuses]
  rfl

theorem ZABRError_value_withStatuses (E : Collaborators R)
    (f : Nat → EndCriteriaType) (c : EndCriteriaType) (z : ZABRInterpolationImpl R)
    (x : Array5 R) :
    ZABRError.value (E.withStatuses f) (z.setStatus c) x =
      ((ZABRError.value E z x).1, (ZABRError.value E z x).2.setStatus c) := by
  unfold ZABRError.value
  simp only
  rw [show ZABRError.assign (E.withStatuses f) (z.setStatus c) x =
    (ZABRError.assign E z x).setStatus c from rfl, interpolationSquaredError_withStatuses]

theorem ZABRError_values_withStatuses (E : Collaborators R)
    (f : Nat → EndCriteriaType) (c : EndCriteriaType) (z : ZABRInterpolationImpl R)
    (x : Array5 R) :
    (ZABRError.values (E.withStatuses f) (z.setStatus c) x).1 =
      (ZABRError.values E z x).1 := by
  unfold ZABRError.values
  simp only
  rw [show ZABRError.assign (E.withStatuses f) (z.setStatus c) x =
    (ZABRError.assign E z x).setStatus c from rfl, interpolationErrors_withStatuses]

theorem evaluateAll_withStatuses (E : Collaborators R) (f : Nat → EndCriteriaType)
    (c : EndCriteriaType) (fixedParameters : Array5 R) (fixed : Array5 Bool)
    (xs : List (List R)) :
    ∀ z : ZABRInterpolationImpl R,
      evaluateAll (E.withStatuses f) fixedParameters fixed xs (z.setStatus c) =
        ((evaluateAll E fixedParameters fixed xs z).1,
          (evaluateAll E fixedParameters fixed xs z).2.setStatus c) := by
  induction xs with
  | nil => intro z; rfl
  | cons x rest ih =>
    intro z
    unfold evaluateAll
    rw [ZABRError_value_withStatuses]
    rcases ZABRError.value E z (ProjectedCostFunction.include fixedParameters fixed x) with
      ⟨r, z1⟩
    cases r with
    | error e => rfl
    | ok r => exact ih z1

theorem startOfPass_withStatuses (E : Collaborators R) (f : Nat → EndCriteriaType)
    (c : EndCriteriaType) (fixed : Array5 Bool) (n i : Nat) (s : RestartState R) :
    startOfPass (E.withStatuses f) fixed n i (s.setStatus c) =
      (startOfPass E fixed n i s).setStatus c := by
  unfold startOfPass
  split_ifs <;> rfl

theorem minimizeCall_withStatuses (E : Collaborators R) (f : Nat → EndCriteriaType)
    (c : EndCriteriaType) (fixed : Array5 Bool) (i : Nat) (s : RestartState R) :
    minimizeCall (E.withStatuses f) fixed i (s.setStatus c) =
      { minimizeCall E fixed i s with endCriteria := f i } := by
  unfold minimizeCall
  have h1 : (fun x => (ZABRError.value (E.withStatuses f) (s.setStatus c).zabr
      (ProjectedCostFunction.include
        (ZabrParametersTransformation.inverse (E.withStatuses f).libm (s.setStatus c).guess)
        fixed x)).1) =
      (fun x => (ZABRError.value E s.zabr
      (ProjectedCostFunction.include
        (ZabrParametersTransformation.inverse E.libm s.guess) fixed x)).1) := by
    funext x
    rw [setStatus_zabr, ZABRError_value_withStatuses]
    rfl
  have h2 : (fun x => (ZABRError.values (E.withStatuses f) (s.setStatus c).zabr
      (ProjectedCostFunction.include
        (ZabrParametersTransformation.inverse (E.withStatuses f).libm (s.setStatus c).guess)
        fixed x)).1) =
      (fun x => (ZABRError.values E s.zabr
      (ProjectedCostFunction.include
        (ZabrParametersTransformation.inverse E.libm s.guess) fixed x)).1) := by
    funext x
    rw [setStatus_zabr, ZABRError_values_withStatuses]
    rfl
  simp only [h1, h2]
  rfl

/-- A pass with the other statuses does the same on an object with another status
and yields the same attempt but for its status, which is `f i`. -/
theorem restartBody_withStatuses (E : Collaborators R) (f : Nat → EndCriteriaType)
    (c : EndCriteriaType) (fixed : Array5 Bool) (n i : Nat) (s : RestartState R) :
    restartBody (E.withStatuses f) fixed n i (s.setStatus c) =
      match restartBody E fixed n i s with
      | .error (e, t) => .error (e, t.setStatus c)
      | .ok (t, a) => .ok (t.setStatus c, { a with tmpEndCriteria := f i }) := by
  unfold restartBody
  simp only [startOfPass_withStatuses, minimizeCall_withStatuses, setStatus_zabr,
    setStatus_guess, setStatus_sequencesDrawn, setStatus_minimizeStarts, withStatuses_libm,
    evaluateAll_withStatuses]
  rcases evaluateAll E
    (ZabrParametersTransformation.inverse E.libm (startOfPass E fixed n i s).guess) fixed
    (minimizeCall E fixed i (startOfPass E fixed n i s)).evaluated
    (startOfPass E fixed n i s).zabr with ⟨o, z⟩
  cases o with
  | some e => rfl
  | none =>
    simp only [acceptanceError_withStatuses]
    cases acceptanceError E z with
    | error e => rfl
    | ok err => rfl

theorem recordAttempt_sameButStatus (v w : LoopVars R) (h : v.SameButStatus w)
    (s : RestartState R) (a : Attempt R) (c d : EndCriteriaType) :
    (recordAttempt v s a).SameButStatus
      (recordAttempt w (s.setStatus c) { a with tmpEndCriteria := d }) := by
  obtain ⟨_, h2, h3, h4⟩ := h
  unfold recordAttempt
  simp only [h2, h3, h4]
  split_ifs
  · exact ⟨⟨d, rfl⟩, rfl, rfl, rfl⟩
  · exact ⟨⟨c, rfl⟩, rfl, rfl, rfl⟩

/-- Two runs of the restart loop whose passes differ in the statuses only end
alike: the same failure or none, and the same variables but for the statuses. -/
theorem restartLoop_withStatuses
    (body body' : Nat → RestartState R →
      Except (Failure × RestartState R) (RestartState R × Attempt R))
    (g : Nat → EndCriteriaType)
    (hsim : ∀ i s c, body' i (RestartState.setStatus c s) =
      match body i s with
      | .error (e, t) => .error (e, t.setStatus c)
      | .ok (t, a) => .ok (t.setStatus c, { a with tmpEndCriteria := g i }))
    (maxGuesses : Nat) (errorAccept : R) (v : LoopVars R) :
    ∀ w, v.SameButStatus w →
      (restartLoop body' maxGuesses errorAccept w).1 =
          (restartLoop body maxGuesses errorAccept v).1 ∧
        (restartLoop body maxGuesses errorAccept v).2.SameButStatus
          (restartLoop body' maxGuesses errorAccept w).2 := by
  refine restartLoop.induct body maxGuesses errorAccept
    (fun v => ∀ w, v.SameButStatus w →
      (restartLoop body' maxGuesses errorAccept w).1 =
          (restartLoop body maxGuesses errorAccept v).1 ∧
        (restartLoop body maxGuesses errorAccept v).2.SameButStatus
          (restartLoop body' maxGuesses errorAccept w).2)
    ?_ ?_ ?_ v
  · intro x e s hb w hw
    obtain ⟨⟨c, h1⟩, h2, h3, h4⟩ := hw
    have hb' : body' w.iterations w.st = .error (e, s.setStatus c) := by
      rw [h1, h2, hsim, hb]
    rw [restartLoop_error body' _ _ w e _ hb', restartLoop_error body _ _ x e s hb]
    exact ⟨rfl, ⟨c, rfl⟩, h2, h3, h4⟩
  · intro x s a hb hc ih w hw
    have hw0 := hw
    obtain ⟨⟨c, h1⟩, h2, h3, h4⟩ := hw
    have hb' : body' w.iterations w.st =
        .ok (s.setStatus c, { a with tmpEndCriteria := g x.iterations }) := by
      rw [h1, h2, hsim, hb]
    have e1 : restartLoop body maxGuesses errorAccept x =
        restartLoop body maxGuesses errorAccept (recordAttempt x s a) := by
      rw [restartLoop, hb]; simp only [hc, and_self, if_true]
    have e2 : restartLoop body' maxGuesses errorAccept w =
        restartLoop body' maxGuesses errorAccept
          (recordAttempt w (s.setStatus c) { a with tmpEndCriteria := g x.iterations }) := by
      rw [restartLoop, hb']; simp only [h2, hc, and_self, if_true]
    rw [e1, e2]
    exact ih _ (recordAttempt_sameButStatus x w hw0 s a c _)
  · intro x s a hb hc w hw
    have hw0 := hw
    obtain ⟨⟨c, h1⟩, h2, h3, h4⟩ := hw
    have hb' : body' w.iterations w.st =
        .ok (s.setStatus c, { a with tmpEndCriteria := g x.iterations }) := by
      rw [h1, h2, hsim, hb]
    have e1 : restartLoop body maxGuesses errorAccept x = (none, recordAttempt x s a) := by
      rw [restartLoop, hb]; simp only [hc, if_false]
    have e2 : restartLoop body' maxGuesses errorAccept w =
        (none, recordAttempt w (s.setStatus c)
          { a with tmpEndCriteria := g x.iterations }) := by
      rw [restartLoop, hb']; simp only [h2, hc, if_false]
    rw [e1, e2]
    exact ⟨rfl, recordAttempt_sameButStatus x w hw0 s a c _⟩

/-- A property of the pass with index `i` that every completed pass has holds of
entry `i` of the list of passes, when the loop is entered with as many passes
recorded as `iterations` counts. -/
theorem restartLoop_indexed
    (body : Nat → RestartState R → Except (Failure × RestartState R) (RestartState R × Attempt R))
    (maxGuesses : Nat) (errorAccept : R) (Q : Nat → Attempt R → Prop)
    (hQ : ∀ i s t a, body i s = .ok (t, a) → Q i a) (v : LoopVars R) :
    v.iterations = v.attempts.length →
      (∀ (i : Nat) (a : Attempt R), v.attempts[i]? = some a → Q i a) →
      ∀ (i : Nat) (a : Attempt R),
        (restartLoop body maxGuesses errorAccept v).2.attempts[i]? = some a → Q i a := by
  refine restartLoop.induct body maxGuesses errorAccept
    (fun v => v.iterations = v.attempts.length →
      (∀ (i : Nat) (a : Attempt R), v.attempts[i]? = some a → Q i a) →
      ∀ (i : Nat) (a : Attempt R),
        (restartLoop body maxGuesses errorAccept v).2.attempts[i]? = some a → Q i a)
    ?_ ?_ ?_ v
  · intro x e s hb _ hall i a hia
    rw [restartLoop_error body _ _ x e s hb] at hia
    exact hall i a hia
  · intro x s a hb hc ih hlen hall
    have e1 : restartLoop body maxGuesses errorAccept x =
        restartLoop body maxGuesses errorAccept (recordAttempt x s a) := by
      rw [restartLoop, hb]; simp only [hc, and_self, if_true]
    rw [e1]
    refine ih ?_ ?_
    · rw [recordAttempt_iterations, recordAttempt_attempts, hlen]; simp
    · intro i b hib
      rw [recordAttempt_attempts] at hib
      rcases Nat.lt_or_ge i x.attempts.length with hlt | hge
      · rw [List.getElem?_append_left hlt] at hib
        exact hall i b hib
      · rw [List.getElem?_append_right hge] at hib
        have hi0 : i - x.attempts.length = 0 := by
          by_contra hne
          rw [List.getElem?_eq_none (by simp; omega)] at hib
          simp at hib
        rw [hi0] at hib
        simp only [List.getElem?_cons_zero, Option.some.injEq] at hib
        have hi : i = x.iterations := by omega
        rw [hi, ← hib]
        exact hQ _ _ _ _ hb
  · intro x s a hb hc hlen hall i b hib
    have e1 : restartLoop body maxGuesses errorAccept x = (none, recordAttempt x s a) := by
      rw [restartLoop, hb]; simp only [hc, if_false]
    rw [e1] at hib
    simp only [recordAttempt_attempts] at hib
    rcases Nat.lt_or_ge i x.attempts.length with hlt | hge
    · rw [List.getElem?_append_left hlt] at hib
      exact hall i b hib
    · rw [List.getElem?_append_right hge] at hib
      have hi0 : i - x.attempts.length = 0 := by
        by_contra hne
        rw [List.getElem?_eq_none (by simp; omega)] at hib
        simp at hib
      rw [hi0] at hib
      simp only [List.getElem?_cons_zero, Option.some.injEq] at hib
      have hi : i = x.iterations := by omega
      rw [hi, ← hib]
      exact hQ _ _ _ _ hb

theorem vegaWeightsLoop_withStatuses (E : Collaborators R) (f : Nat → EndCriteriaType)
    (z : ZABRInterpolationImpl R) (xs : List R) :
    ∀ (ys ws : List R) (t : R),
      vegaWeightsLoop (E.withStatuses f) z xs ys ws t = vegaWeightsLoop E z xs ys ws t := by
  induction xs with
  | nil => intro ys ws t; rfl
  | cons x rest ih =>
    intro ys ws t
    cases ys with
    | nil => rfl
    | cons y ys2 => exact ih ys2 _ _

theorem updateWeights_withStatuses (E : Collaborators R) (f : Nat → EndCriteriaType)
    (z : ZABRInterpolationImpl R) :
    updateWeights (E.withStatuses f) z = updateWeights E z := by
  unfold updateWeights
  rw [vegaWeightsLoop_withStatuses]

theorem updateAllFixed_withStatuses (E : Collaborators R) (f : Nat → EndCriteriaType)
    (z : ZABRInterpolationImpl R) :
    updateAllFixed (E.withStatuses f) z = updateAllFixed E z := by
  have h1 : z.interpolationError (E.withStatuses f) = z.interpolationError E :=
    interpolationError_withStatuses E f z.ZABREndCriteria_ z
  have h2 : ∀ e, ({ z with error_ := e } : ZABRInterpolationImpl R).interpolationMaxError
      (E.withStatuses f) =
      ({ z with error_ := e } : ZABRInterpolationImpl R).interpolationMaxError E :=
    fun e => interpolationMaxError_withStatuses E f z.ZABREndCriteria_ { z with error_ := e }
  unfold updateAllFixed
  simp only [h1, h2]

theorem readBack_withStatuses (E : Collaborators R) (f : Nat → EndCriteriaType)
    (c : EndCriteriaType) (z : ZABRInterpolationImpl R) (bp : Option (Array5 R)) :
    readBack (E.withStatuses f) (z.setStatus c) bp =
      ((readBack E z bp).1, (readBack E z bp).2.setStatus c) := by
  cases bp with
  | none => rfl
  | some p =>
    rw [readBack_eq, readBack_eq, interpolationError_withStatuses,
      interpolationMaxError_withStatuses]
    cases z.interpolationError E with
    | error e => rfl
    | ok e1 =>
      simp only
      cases z.interpolationMaxError E with
      | error e => rfl
      | ok e2 => rfl

theorem runRestarts_withStatuses (E : Collaborators R) (f : Nat → EndCriteriaType)
    (z : ZABRInterpolationImpl R) :
    (runRestarts (E.withStatuses f) z).1 = (runRestarts E z).1 ∧
      (runRestarts E z).2.SameButStatus (runRestarts (E.withStatuses f) z).2 := by
  unfold runRestarts
  exact restartLoop_withStatuses _ _ f
    (fun i s c => restartBody_withStatuses E f c _ _ i s) _ _ _ _
    ⟨⟨z.ZABREndCriteria_, rfl⟩, rfl, rfl, rfl⟩

/-- The statuses returned by the optimizer do not decide whether `update` returns
or throws, nor with which failure. -/
theorem update_withStatuses (E : Collaborators R) (f : Nat → EndCriteriaType)
    (z : ZABRInterpolationImpl R) :
    (update (E.withStatuses f) z).outcome = (update E z).outcome := by
  by_cases hf : z.forward_ > 0
  · have hwe := updateWeights_withStatuses E f z
    rcases hw : updateWeights E z with ⟨o, z1⟩
    rw [hw] at hwe
    cases o with
    | some e =>
      rw [update_eq_weights E z z1 hf e hw, update_eq_weights _ z z1 hf e hwe]
    | none =>
      cases hall : allParametersFixed z1 with
      | true =>
        rw [update_eq_allFixed E z z1 hf hw hall, update_eq_allFixed _ z z1 hf hwe hall,
          updateAllFixed_withStatuses]
      | false =>
        obtain ⟨h1, ⟨c, h2⟩, _, _, h5⟩ := runRestarts_withStatuses E f z1
        rcases hrun : runRestarts E z1 with ⟨o2, v⟩
        rcases hrun' : runRestarts (E.withStatuses f) z1 with ⟨o3, w⟩
        rw [hrun, hrun'] at h1
        rw [hrun, hrun'] at h2 h5
        simp only at h1 h2 h5
        subst h1
        cases o3 with
        | some e =>
          rw [update_eq_restart_error E z z1 hf hw hall e v hrun,
            update_eq_restart_error _ z z1 hf hwe hall e w hrun']
        | none =>
          rw [update_eq_restart E z z1 hf hw hall v hrun,
            update_eq_restart _ z z1 hf hwe hall w hrun', h5, h2, setStatus_zabr,
            readBack_withStatuses]
  · rw [update_eq_forward E z hf, update_eq_forward _ z hf]

/-- C9. Non-convergence is data: let the optimizer return any sequence of
statuses `f 0, f 1, ..` in its calls (none of them need be `Converged`). Whether
`update` returns or throws, and with which failure, does not depend on `f`; and
when `update` runs the restart loop and returns, the parameters it reports are
`result` of the recorded restart `i` that is kept as best (the first whose error
is the least of all) and the termination status it reports is `f i`, the status
the optimizer returned on that restart. -/
theorem status_is_data (E : Collaborators R) (f : Nat → EndCriteriaType)
    (z : ZABRInterpolationImpl R) :
    (update (E.withStatuses f) z).outcome = (update E z).outcome ∧
    (allParametersFixed z = false → (update (E.withStatuses f) z).outcome = none →
      ∃ (i : Nat) (a : Attempt R), (update (E.withStatuses f) z).attempts[i]? = some a ∧
        a.tmpEndCriteria = f i ∧
        (update (E.withStatuses f) z).state.alpha_ = a.result.a0 ∧
        (update (E.withStatuses f) z).state.beta_ = a.result.a1 ∧
        (update (E.withStatuses f) z).state.nu_ = a.result.a2 ∧
        (update (E.withStatuses f) z).state.rho_ = a.result.a3 ∧
        (update (E.withStatuses f) z).state.gamma_ = a.result.a4 ∧
        (update (E.withStatuses f) z).state.ZABREndCriteria_ = f i ∧
        (∀ c ∈ (update (E.withStatuses f) z).attempts,
          a.tmpInterpolationError ≤ c.tmpInterpolationError) ∧
        (∀ (j : Nat) (c : Attempt R), j < i →
          (update (E.withStatuses f) z).attempts[j]? = some c →
          a.tmpInterpolationError < c.tmpInterpolationError)) := by
  refine ⟨update_withStatuses E f z, ?_⟩
  intro hfree hout
  obtain ⟨z1, v, p, e1, e2, _, _, _, hrun, hbp, _, _, hu⟩ :=
    update_restart_inversion (E.withStatuses f) z hfree hout
  have hrun2 := hrun
  unfold runRestarts at hrun2
  obtain ⟨as, has, hbest⟩ := restartLoop_best _ z1.maxGuesses_ z1.errorAccept_
    (fun i s t a hb => (restartBody_ok (E.withStatuses f) (parameterAreFixed z1)
      (freeParameters z1) i s t a hb).2.1) (initialLoopVars (E.withStatuses f) z1) v hrun2
  have has2 : v.attempts = as := has
  have hidx := restartLoop_indexed (restartBody (E.withStatuses f) (parameterAreFixed z1)
      (freeParameters z1)) z1.maxGuesses_ z1.errorAccept_
    (fun i a => a.tmpEndCriteria = f i)
    (fun i s t a hb => (restartBody_ok (E.withStatuses f) (parameterAreFixed z1)
      (freeParameters z1) i s t a hb).2.2.2.1)
    (initialLoopVars (E.withStatuses f) z1) rfl (fun i a h => by simp [initialLoopVars] at h)
  rw [hrun2] at hidx
  simp only at hidx
  rcases Best.over_spec as ⟨(initialLoopVars (E.withStatuses f) z1).bestError,
      (initialLoopVars (E.withStatuses f) z1).bestParameters,
      (initialLoopVars (E.withStatuses f) z1).st.zabr.ZABREndCriteria_⟩ with
    ⟨heq, _⟩ | ⟨i, a, hi, heq, _, hmin, hfirst⟩
  · rw [heq] at hbest
    simp only [Best.mk.injEq] at hbest
    rw [hbp] at hbest
    exact absurd hbest.2.1 (by simp [initialLoopVars])
  · rw [heq] at hbest
    simp only [Best.mk.injEq] at hbest
    obtain ⟨_, hp, hst⟩ := hbest
    rw [hbp] at hp
    simp only [Option.some.injEq] at hp
    rw [← has2] at hi hmin hfirst
    have hfi := hidx i a hi
    rw [hu]
    refine ⟨i, a, hi, hfi, ?_, ?_, ?_, ?_, ?_, ?_, hmin, hfirst⟩
    · show p.a0 = _; rw [hp]
    · show p.a1 = _; rw [hp]
    · show p.a2 = _; rw [hp]
    · show p.a3 = _; rw [hp]
    · show p.a4 = _; rw [hp]
    · show v.st.zabr.ZABREndCriteria_ = _; rw [hst, hfi]

/-- C9 at a concrete input over the real numbers: the optimizer of the sample
collaborators made to return `StationaryPoint` in every call, none of them
`Converged`; `update` on `sampleImpl` returns as it does with the other statuses,
and the status reported is `StationaryPoint`. -/
theorem status_is_data_witness :
    (update ((sampleCollaborators
        ⟨Real.sqrt, Real.exp, Real.log, Real.sin, Real.arcsin⟩).withStatuses
        (fun _ => .StationaryPoint)) (sampleImpl : ZABRInterpolationImpl ℝ)).outcome = none ∧
    (update ((sampleCollaborators
        ⟨Real.sqrt, Real.exp, Real.log, Real.sin, Real.arcsin⟩).withStatuses
        (fun _ => .StationaryPoint))
        (sampleImpl : ZABRInterpolationImpl ℝ)).state.ZABREndCriteria_ = .StationaryPoint :=
  have h := status_is_data
    (sampleCollaborators ⟨Real.sqrt, Real.exp, Real.log, Real.sin, Real.arcsin⟩)
    (fun _ => .StationaryPoint) (sampleImpl : ZABRInterpolationImpl ℝ)
  have hout := h.1.trans (sample_update _).1
  ⟨hout, by
    obtain ⟨i, a, _, _, _, _, _, _, _, hst, _⟩ := h.2 rfl hout
    exact hst⟩

end Statuses

section Queries

variable {R : Type} [LinearOrderedField R]

open ZABRInterpolationImpl

/-- C13. Query agrees with diagnostics: after an `update` with at least one free
parameter that returns, for every strike `x > 0`, `value x` returns the
volatility at `x` of the smile section with expiry `t_`, forward `forward_` and
exactly the parameters reported by the object (`alpha_ .. gamma_`). `value` is a
`const` member: it returns a value or a failure and no object. -/
theorem value_after_update (E : Collaborators R) (z : ZABRInterpolationImpl R)
    (hfree : allParametersFixed z = false) (hout : (update E z).outcome = none)
    (x : R) (hx : x > 0) :
    (update E z).state.value E x =
      .ok (E.volatility
        ⟨z.t_, z.forward_,
          ⟨(update E z).state.alpha_, (update E z).state.beta_, (update E z).state.nu_,
            (update E z).state.rho_, (update E z).state.gamma_⟩,
          z.evaluation_⟩ x) := by
  have hc := update_configuration E z
  have ht : (update E z).state.t_ = z.t_ := congrArg (fun y => y.t_) hc
  have hfw : (update E z).state.forward_ = z.forward_ := congrArg (fun y => y.forward_) hc
  have hev : (update E z).state.evaluation_ = z.evaluation_ :=
    congrArg (fun y => y.evaluation_) hc
  obtain ⟨z1, v, p, e1, e2, _, _, _, _, _, _, _, hu⟩ := update_restart_inversion E z hfree hout
  rw [hu] at ht hfw hev ⊢
  simp only at ht hfw hev
  unfold value
  rw [if_pos hx]
  simp only [ht, hfw, hev]

/-- C13 at a concrete input over the real numbers: after `update` on `sampleImpl`
the volatility returned at the strike 0.04 is that of the section with the
reported alpha = 1/4 + 10^-7 (the sample smile is flat at alpha). -/
theorem value_after_update_witness :
    (update (sampleCollaborators ⟨Real.sqrt, Real.exp, Real.log, Real.sin, Real.arcsin⟩)
      (sampleImpl : ZABRInterpolationImpl ℝ)).state.alpha_ = 1 / 4 + 1 / 10000000 ∧
    (update (sampleCollaborators ⟨Real.sqrt, Real.exp, Real.log, Real.sin, Real.arcsin⟩)
      (sampleImpl : ZABRInterpolationImpl ℝ)).state.value
      (sampleCollaborators ⟨Real.sqrt, Real.exp, Real.log, Real.sin, Real.arcsin⟩) (4 / 100) =
      .ok (1 / 4 + 1 / 10000000) :=
  have hs := sample_update (⟨Real.sqrt, Real.exp, Real.log, Real.sin, Real.arcsin⟩ : Libm ℝ)
  ⟨hs.2.2.2.1, by
    rw [value_after_update
      (sampleCollaborators ⟨Real.sqrt, Real.exp, Real.log, Real.sin, Real.arcsin⟩)
      (sampleImpl : ZABRInterpolationImpl ℝ) rfl hs.1 (4 / 100) (by norm_num), hs.2.2.2.1]
    rfl⟩

/-- C14. Strike domain: on an object that holds a section, `value x` fails if and
only if `x <= 0`, with the failure of the strike check; for every `x > 0` it
returns the volatility of the section at `x`. -/
theorem value_strike_domain (E : Collaborators R) (z : ZABRInterpolationImpl R)
    (sec : ZabrSmileSection R) (hsec : z.section_ = some sec) (x : R) :
    ((∃ e, z.value E x = .error e) ↔ x ≤ 0) ∧
    (x > 0 → z.value E x = .ok (E.volatility sec x)) ∧
    (x ≤ 0 → z.value E x = .error .strikeNotPositive) := by
  have hpos : x > 0 → z.value E x = .ok (E.volatility sec x) := by
    intro hx; unfold value; rw [if_pos hx, hsec]
  have hneg : x ≤ 0 → z.value E x = .error .strikeNotPositive := by
    intro hx; unfold value; rw [if_neg (not_lt.mpr hx)]
  refine ⟨⟨?_, fun hx => ⟨_, hneg hx⟩⟩, hpos, hneg⟩
  rintro ⟨e, he⟩
  by_contra hx
  rw [hpos (not_le.mp hx)] at he
  simp at he

/-- C14 at a concrete input: on `sampleImpl`, whose section has alpha = 0.2,
`value` returns 0.2 at the strike 0.04 and fails at the strikes 0 and -0.01. -/
theorem value_strike_domain_witness :
    (sampleImpl : ZABRInterpolationImpl ℝ).value (sampleCollaborators ⟨Real.sqrt, Real.exp, Real.log, Real.sin, Real.arcsin⟩)
      (4 / 100) = .ok (1 / 5) ∧
    (sampleImpl : ZABRInterpolationImpl ℝ).value (sampleCollaborators ⟨Real.sqrt, Real.exp, Real.log, Real.sin, Real.arcsin⟩)
      0 = .error .strikeNotPositive ∧
    (sampleImpl : ZABRInterpolationImpl ℝ).value (sampleCollaborators ⟨Real.sqrt, Real.exp, Real.log, Real.sin, Real.arcsin⟩)
      (-1 / 100) = .error .strikeNotPositive :=
  ⟨(value_strike_domain _ sampleImpl _ rfl (4 / 100)).2.1 (by norm_num),
    (value_strike_domain _ sampleImpl _ rfl 0).2.2 (by norm_num),
    (value_strike_domain _ sampleImpl _ rfl (-1 / 100)).2.2 (by norm_num)⟩

/-- C15. Unsupported operations: `primitive`, `derivative` and `secondDerivative`
fail for every argument and every state of the object, and return no value. -/
theorem unsupported_operations (z : ZABRInterpolationImpl R) (x : R) :
    (primitive z x = .error .notImplemented ∧ derivative z x = .error .notImplemented ∧
      secondDerivative z x = .error .notImplemented) ∧
    ∀ r, primitive z x ≠ .ok r ∧ derivative z x ≠ .ok r ∧ secondDerivative z x ≠ .ok r := by
  refine ⟨⟨rfl, rfl, rfl⟩, fun r => ⟨?_, ?_, ?_⟩⟩ <;> simp [primitive, derivative,
    secondDerivative]

/-- C17. The forward is checked first: `update` on an object whose forward is not
positive throws `forwardNotPositive` and leaves the whole object, in particular
the parameters, the weights, the errors and the termination status, as it was;
no starting point is handed to the optimizer, no sequence is drawn and no pass of
the restart loop is made. -/
theorem update_forward_not_positive (E : Collaborators R) (z : ZABRInterpolationImpl R)
    (hf : z.forward_ ≤ 0) :
    (update E z).outcome = some .forwardNotPositive ∧ (update E z).state = z ∧
    (update E z).minimizeStarts = [] ∧ (update E z).sequencesDrawn = 0 ∧
    (update E z).attempts = [] := by
  rw [update_eq_forward E z (not_lt.mpr hf)]
  exact ⟨rfl, rfl, rfl, rfl, rfl⟩

/-- C17 at a concrete input: `sampleImpl` with the forward set to 0, with vega
weighting switched on. -/
theorem update_forward_not_positive_witness :
    (update (sampleCollaborators ⟨Real.sqrt, Real.exp, Real.log, Real.sin, Real.arcsin⟩)
      { (sampleImpl : ZABRInterpolationImpl ℝ) with
        forward_ := 0, vegaWeighted_ := true }).outcome = some .forwardNotPositive ∧
    (update (sampleCollaborators ⟨Real.sqrt, Real.exp, Real.log, Real.sin, Real.arcsin⟩)
      { (sampleImpl : ZABRInterpolationImpl ℝ) with
        forward_ := 0, vegaWeighted_ := true }).state.weights_ = [1 / 3, 1 / 3, 1 / 3] :=
  have h := update_forward_not_positive (sampleCollaborators ⟨Real.sqrt, Real.exp, Real.log, Real.sin, Real.arcsin⟩)
    { (sampleImpl : ZABRInterpolationImpl ℝ) with
      forward_ := 0, vegaWeighted_ := true } (le_refl (0 : ℝ))
  ⟨h.1, by rw [h.2.1]; rfl⟩

end Queries

section ErrorFormulas

variable {R : Type} [LinearOrderedField R]

open ZABRInterpolationImpl

theorem squaredErrorLoop_eq (E : Collaborators R) (z : ZABRInterpolationImpl R)
    (sec : ZabrSmileSection R) (hsec : z.section_ = some sec) (xs : List R) :
    ∀ (ys ws : List R) (t : R), (∀ x ∈ xs, x > 0) → xs.length ≤ ys.length →
      xs.length ≤ ws.length →
      squaredErrorLoop E z xs ys ws t =
        .ok (t + (List.zipWith (fun r w => r * r * w) (sectionResiduals E sec xs ys) ws).sum) := by
  induction xs with
  | nil => intro ys ws t _ _ _; simp [squaredErrorLoop, sectionResiduals]
  | cons x rest ih =>
    intro ys ws t hpos hy hw
    cases ys with
    | nil => simp at hy
    | cons y ys2 =>
      cases ws with
      | nil => simp at hw
      | cons w ws2 =>
        have hx : x > 0 := hpos x (by simp)
        have hv : value E z x = .ok (E.volatility sec x) := by
          unfold value; rw [if_pos hx, hsec]
        simp only [squaredErrorLoop, hv]
        rw [ih ys2 ws2 _ (fun a ha => hpos a (List.mem_cons_of_mem _ ha))
          (by simpa using hy) (by simpa using hw)]
        simp only [sectionResiduals, List.zipWith_cons_cons, List.sum_cons]
        rw [add_assoc]

theorem maxErrorLoop_eq (E : Collaborators R) (z : ZABRInterpolationImpl R)
    (sec : ZabrSmileSection R) (hsec : z.section_ = some sec) (xs : List R) :
    ∀ (ys : List R) (m : R), (∀ x ∈ xs, x > 0) → xs.length ≤ ys.length →
      maxErrorLoop E z xs ys m =
        .ok (((sectionResiduals E sec xs ys).map (fun r => |r|)).foldl max m) := by
  induction xs with
  | nil => intro ys m _ _; simp [maxErrorLoop, sectionResiduals]
  | cons x rest ih =>
    intro ys m hpos hy
    cases ys with
    | nil => simp at hy
    | cons y ys2 =>
      have hx : x > 0 := hpos x (by simp)
      have hv : value E z x = .ok (E.volatility sec x) := by
        unfold value; rw [if_pos hx, hsec]
      simp only [maxErrorLoop, hv]
      rw [ih ys2 _ (fun a ha => hpos a (List.mem_cons_of_mem _ ha)) (by simpa using hy)]
      simp [sectionResiduals]

theorem zipWith_replicate_sum (c : R) (rs : List R) :
    ∀ n, rs.length ≤ n →
      (List.zipWith (fun r w => r * r * w) rs (List.replicate n c)).sum =
        c * (rs.map (fun r => r ^ 2)).sum := by
  induction rs with
  | nil => intro n _; simp
  | cons r rest ih =>
    intro n hn
    cases n with
    | zero => simp at hn
    | succ k =>
      simp only [List.replicate_succ, List.zipWith_cons_cons, List.sum_cons, List.map_cons]
      rw [ih k (by simpa using hn)]
      ring

theorem foldl_max_ge (l : List R) :
    ∀ m : R, m ≤ l.foldl max m ∧ ∀ a ∈ l, a ≤ l.foldl max m := by
  induction l with
  | nil => intro m; exact ⟨le_rfl, by simp⟩
  | cons b rest ih =>
    intro m
    obtain ⟨h1, h2⟩ := ih (max m b)
    refine ⟨(le_max_left m b).trans h1, ?_⟩
    intro a ha
    rcases List.mem_cons.mp ha with ha | ha
    · rw [ha]; exact (le_max_right m b).trans h1
    · exact h2 a ha

theorem foldl_max_mem (l : List R) :
    ∀ m : R, l.foldl max m = m ∨ l.foldl max m ∈ l := by
  induction l with
  | nil => intro m; exact Or.inl rfl
  | cons b rest ih =>
    intro m
    rcases ih (max m b) with h | h
    · rcases max_choice m b with hm | hm
      · left; rw [List.foldl_cons, h, hm]
      · right; rw [List.foldl_cons, h, hm]; exact List.mem_cons_self _ _
    · right; exact List.mem_cons_of_mem _ h

theorem size_minus_one (n : Nat) (h1 : 1 ≤ n) (h2 : n < 2 ^ 64) :
    (n + 2 ^ 64 - 1) % 2 ^ 64 = n - 1 := by
  have h : n + 2 ^ 64 - 1 = (n - 1) + 2 ^ 64 := by omega
  rw [h, Nat.add_mod_right, Nat.mod_eq_of_lt (by omega)]

/-- C11. RMS formula: on an object with `n >= 2` points (`n` a `Size`, below
`2^64`), whenever the squared error `S` is computed `interpolationError` returns
`sqrt(n * S / (n - 1))`; and when the object holds a section, the strikes are
positive and the weights are the `n` uniform weights `1/n`, this is
`sqrt(sum_i (model_i - vol_i)^2 / (n - 1))` (in exact arithmetic). -/
theorem interpolationError_rms (E : Collaborators R) (z : ZABRInterpolationImpl R)
    (hn : 2 ≤ z.xs.length) (hsize : z.xs.length < 2 ^ 64) :
    (∀ S, z.interpolationSquaredError E = .ok S →
      z.interpolationError E =
        .ok (E.libm.sqrt ((z.xs.length : R) * S / ((z.xs.length : R) - 1)))) ∧
    (∀ sec, z.section_ = some sec → (∀ x ∈ z.xs, x > 0) → z.ys.length = z.xs.length →
      z.weights_ = List.replicate z.xs.length (1 / (z.xs.length : R)) →
      z.interpolationError E =
        .ok (E.libm.sqrt (((sectionResiduals E sec z.xs z.ys).map (fun r => r ^ 2)).sum /
          ((z.xs.length : R) - 1)))) := by
  have hd := size_minus_one z.xs.length (by omega) hsize
  have hd0 : z.xs.length - 1 ≠ 0 := by omega
  have hcast : ((z.xs.length - 1 : Nat) : R) = (z.xs.length : R) - 1 := by
    rw [Nat.cast_sub (by omega : 1 ≤ z.xs.length), Nat.cast_one]
  have first : ∀ S, z.interpolationSquaredError E = .ok S →
      z.interpolationError E =
        .ok (E.libm.sqrt ((z.xs.length : R) * S / ((z.xs.length : R) - 1))) := by
    intro S hS
    unfold interpolationError
    rw [hS]
    simp only [hd, hd0, if_false, hcast]
  refine ⟨first, ?_⟩
  intro sec hsec hpos hy hw
  have hS : z.interpolationSquaredError E =
      .ok (0 + (List.zipWith (fun r w => r * r * w) (sectionResiduals E sec z.xs z.ys)
        z.weights_).sum) := by
    unfold interpolationSquaredError
    exact squaredErrorLoop_eq E z sec hsec z.xs z.ys z.weights_ 0 hpos (by rw [hy])
      (by rw [hw]; simp)
  rw [first _ hS, hw, zipWith_replicate_sum _ _ _ (by simp [sectionResiduals, hy])]
  have hne : (z.xs.length : R) ≠ 0 := by
    have : (0 : R) < (z.xs.length : R) := by exact_mod_cast (by omega : 0 < z.xs.length)
    exact ne_of_gt this
  have harg : ∀ T : R, (z.xs.length : R) * (0 + 1 / (z.xs.length : R) * T) /
      ((z.xs.length : R) - 1) = T / ((z.xs.length : R) - 1) := by
    intro T
    rw [zero_add, ← mul_assoc, mul_one_div_cancel hne, one_mul]
  rw [harg]

/-- C11 at a concrete input over the real numbers: `sampleImpl` has three points
and the weights 1/3; the section (alpha = 0.2, flat smile) has residuals -0.02,
0, 0.01, and the error is `sqrt(sum of their squares / 2)`. -/
theorem interpolationError_rms_witness :
    (sampleImpl : ZABRInterpolationImpl ℝ).interpolationError
      (sampleCollaborators ⟨Real.sqrt, Real.exp, Real.log, Real.sin, Real.arcsin⟩) =
      .ok (Real.sqrt (((sectionResiduals
        (sampleCollaborators ⟨Real.sqrt, Real.exp, Real.log, Real.sin, Real.arcsin⟩)
        ⟨5, 4 / 100, ⟨1 / 5, 1 / 2, 2 / 5, 0, 1⟩, 0⟩
        [3 / 100, 4 / 100, 5 / 100] [22 / 100, 20 / 100, 19 / 100]).map
          (fun r => r ^ 2)).sum / (((3 : Nat) : ℝ) - 1))) :=
  (interpolationError_rms
    (sampleCollaborators ⟨Real.sqrt, Real.exp, Real.log, Real.sin, Real.arcsin⟩)
    (sampleImpl : ZABRInterpolationImpl ℝ) (by simp [sampleImpl])
    (by simp [sampleImpl])).2 _ rfl
    (by intro x hx; simp [sampleImpl] at hx; rcases hx with h | h | h <;> rw [h] <;> norm_num)
    rfl (by simp [sampleImpl, List.replicate])

/-- C12. Max error: on an object that holds a section, with positive strikes, a
volatility for every strike and at least one point, and for `QL_MIN_REAL <= 0`
(the library defines it as the most negative `double`), `interpolationMaxError`
returns the maximum over the points of `|model_i - vol_i|`; when every residual
is zero the result is 0. -/
theorem interpolationMaxError_is_max (E : Collaborators R) (z : ZABRInterpolationImpl R)
    (sec : ZabrSmileSection R) (hsec : z.section_ = some sec)
    (hpos : ∀ x ∈ z.xs, x > 0) (hlen : z.ys.length = z.xs.length) (hne : z.xs ≠ [])
    (hmin : E.QL_MIN_REAL ≤ 0) :
    ∃ m, z.interpolationMaxError E = .ok m ∧
      ((sectionResiduals E sec z.xs z.ys).map (fun r => |r|)).maximum = (m : WithBot R) ∧
      ((∀ r ∈ sectionResiduals E sec z.xs z.ys, r = 0) → m = 0) := by
  have hM : z.interpolationMaxError E =
      .ok (((sectionResiduals E sec z.xs z.ys).map (fun r => |r|)).foldl max
        E.QL_MIN_REAL) := by
    unfold interpolationMaxError
    exact maxErrorLoop_eq E z sec hsec z.xs z.ys _ hpos (by rw [hlen])
  have hlne : (sectionResiduals E sec z.xs z.ys).map (fun r => |r|) ≠ [] := by
    intro h
    have hl := congrArg List.length h
    simp [sectionResiduals, hlen] at hl
    exact hne hl
  obtain ⟨hge0, hge⟩ := foldl_max_ge ((sectionResiduals E sec z.xs z.ys).map (fun r => |r|))
    E.QL_MIN_REAL
  have hnonneg : ∀ a ∈ (sectionResiduals E sec z.xs z.ys).map (fun r => |r|), 0 ≤ a := by
    intro a ha
    obtain ⟨r, _, rfl⟩ := List.mem_map.mp ha
    exact abs_nonneg r
  have hmem : ((sectionResiduals E sec z.xs z.ys).map (fun r => |r|)).foldl max
      E.QL_MIN_REAL ∈ (sectionResiduals E sec z.xs z.ys).map (fun r => |r|) := by
    rcases foldl_max_mem ((sectionResiduals E sec z.xs z.ys).map (fun r => |r|))
      E.QL_MIN_REAL with h | h
    · obtain ⟨a, ha⟩ := List.exists_mem_of_ne_nil _ hlne
      have h1 := hge a ha
      have h2 := hnonneg a ha
      rw [h] at h1 ⊢
      have : a = E.QL_MIN_REAL := le_antisymm h1 (hmin.trans h2)
      rw [← this]; exact ha
    · exact h
  refine ⟨_, hM, List.maximum_eq_coe_iff.mpr ⟨hmem, hge⟩, ?_⟩
  intro hzero
  obtain ⟨r, hr, hrm⟩ := List.mem_map.mp hmem
  rw [← hrm, hzero r hr, abs_zero]

/-- C12 at a concrete input over the real numbers: on `sampleImpl` the residuals
are -0.02, 0, 0.01 and `interpolationMaxError` returns their largest absolute
value. -/
theorem interpolationMaxError_is_max_witness :
    ∃ m, (sampleImpl : ZABRInterpolationImpl ℝ).interpolationMaxError
      (sampleCollaborators ⟨Real.sqrt, Real.exp, Real.log, Real.sin, Real.arcsin⟩) = .ok m ∧
      ((sectionResiduals
        (sampleCollaborators ⟨Real.sqrt, Real.exp, Real.log, Real.sin, Real.arcsin⟩)
        ⟨5, 4 / 100, ⟨1 / 5, 1 / 2, 2 / 5, 0, 1⟩, 0⟩
        [3 / 100, 4 / 100, 5 / 100] [22 / 100, 20 / 100, 19 / 100]).map
          (fun r => |r|)).maximum = (m : WithBot ℝ) :=
  have h := interpolationMaxError_is_max
    (sampleCollaborators ⟨Real.sqrt, Real.exp, Real.log, Real.sin, Real.arcsin⟩)
    (sampleImpl : ZABRInterpolationImpl ℝ) _ rfl
    (by intro x hx; simp [sampleImpl] at hx; rcases hx with h | h | h <;> rw [h] <;> norm_num)
    rfl (by simp [sampleImpl]) (by norm_num [sampleCollaborators])
  h.elim fun m hm => ⟨m, hm.1, hm.2.1⟩

end ErrorFormulas

section Construction

variable {R : Type} [LinearOrderedField R]

/-- The constructor of `ZABRCoeffHolder` returns when every check passes. -/
theorem holder_returns (L : Libm R) (Lib : Library R)
    (t forward alpha beta nu rho gamma : R)
    (alphaIsFixed betaIsFixed nuIsFixed rhoIsFixed gammaIsFixed : Bool) (ht : t > 0)
    (hvalid : Lib.validateSabrParameters (if alpha ≠ Lib.Null then alpha else L.sqrt (2 / 10))
        (if beta ≠ Lib.Null then beta else 5 / 10)
        (if nu ≠ Lib.Null then nu else L.sqrt (4 / 10))
        (if rho ≠ Lib.Null then rho else 0) = true)
    (hgamma : gamma = Lib.Null ∨ gamma ≥ 0) :
    ∃ h, ZABRCoeffHolder.ZABRCoeffHolder L Lib t forward alpha beta nu rho gamma
      alphaIsFixed betaIsFixed nuIsFixed rhoIsFixed gammaIsFixed = .ok h := by
  unfold ZABRCoeffHolder.ZABRCoeffHolder
  simp only [if_pos ht, hvalid, if_true]
  have hg : (if gamma ≠ Lib.Null then gamma else 1) ≥ 0 := by
    rcases hgamma with h | h
    · rw [if_neg (not_not.mpr h)]; exact zero_le_one
    · split_ifs
      · exact h
      · exact zero_le_one
  rw [if_pos hg]
  exact ⟨_, rfl⟩

/-- The parameters that `sampleLibrary` is asked to validate when alpha and nu
are left to their defaults, over the real numbers. -/
theorem sampleLibrary_defaults (beta rho : ℝ) (hb : 0 ≤ beta ∧ beta ≤ 1)
    (hr : rho * rho < 1) :
    (sampleLibrary : Library ℝ).validateSabrParameters (Real.sqrt (2 / 10)) beta
      (Real.sqrt (4 / 10)) rho = true := by
  have h1 : (0 : ℝ) < Real.sqrt (2 / 10) := Real.sqrt_pos.mpr (by norm_num)
  have h2 : (0 : ℝ) ≤ Real.sqrt (4 / 10) := Real.sqrt_nonneg _
  simp only [sampleLibrary, h1, h2, hb, hr, gt_iff_lt, ge_iff_le, decide_True, Bool.and_true,
    and_self]

/-- C16. Validation of expiry and gamma: the constructor of `ZABRCoeffHolder`
throws (the expiry check) whenever `t <= 0`, and throws whenever the gamma passed
is not `Null` and is negative; with `t > 0`, parameters (after the defaults are
filled in) that `validateSabrParameters` accepts, and a gamma that is `Null` or
non-negative, it returns an object. -/
theorem holder_construction_validation (L : Libm R) (Lib : Library R)
    (t forward alpha beta nu rho gamma : R)
    (alphaIsFixed betaIsFixed nuIsFixed rhoIsFixed gammaIsFixed : Bool) :
    (t ≤ 0 → ZABRCoeffHolder.ZABRCoeffHolder L Lib t forward alpha beta nu rho gamma
        alphaIsFixed betaIsFixed nuIsFixed rhoIsFixed gammaIsFixed =
      .error .expiryNotPositive) ∧
    (gamma ≠ Lib.Null → gamma < 0 →
      ∃ e, ZABRCoeffHolder.ZABRCoeffHolder L Lib t forward alpha beta nu rho gamma
        alphaIsFixed betaIsFixed nuIsFixed rhoIsFixed gammaIsFixed = .error e) ∧
    (t > 0 →
      Lib.validateSabrParameters (if alpha ≠ Lib.Null then alpha else L.sqrt (2 / 10))
        (if beta ≠ Lib.Null then beta else 5 / 10)
        (if nu ≠ Lib.Null then nu else L.sqrt (4 / 10))
        (if rho ≠ Lib.Null then rho else 0) = true →
      (gamma = Lib.Null ∨ gamma ≥ 0) →
      ∃ h, ZABRCoeffHolder.ZABRCoeffHolder L Lib t forward alpha beta nu rho gamma
        alphaIsFixed betaIsFixed nuIsFixed rhoIsFixed gammaIsFixed = .ok h) := by
  refine ⟨?_, ?_, ?_⟩
  · intro ht
    unfold ZABRCoeffHolder.ZABRCoeffHolder
    rw [if_neg (not_lt.mpr ht)]
  · intro hg hneg
    unfold ZABRCoeffHolder.ZABRCoeffHolder
    simp only [if_pos hg]
    have hng : ¬ gamma ≥ 0 := not_le.mpr hneg
    split_ifs <;> exact ⟨_, rfl⟩
  · intro ht hvalid hgamma
    exact holder_returns L Lib t forward alpha beta nu rho gamma alphaIsFixed betaIsFixed
      nuIsFixed rhoIsFixed gammaIsFixed ht hvalid hgamma

/-- C16 at concrete inputs over the real numbers, with `sampleLibrary`: expiry 0
is rejected, gamma = -1 is rejected, and with expiry 5, every SABR parameter
unsupplied and gamma = 0 the constructor returns. -/
theorem holder_construction_validation_witness :
    ZABRCoeffHolder.ZABRCoeffHolder ⟨Real.sqrt, Real.exp, Real.log, Real.sin, Real.arcsin⟩
        (sampleLibrary : Library ℝ) 0 (4 / 100) (1 / 5) (1 / 2) (2 / 5) 0 1
        false false false false false = .error .expiryNotPositive ∧
    (∃ e, ZABRCoeffHolder.ZABRCoeffHolder
        ⟨Real.sqrt, Real.exp, Real.log, Real.sin, Real.arcsin⟩
        (sampleLibrary : Library ℝ) 5 (4 / 100) (1 / 5) (1 / 2) (2 / 5) 0 (-1)
        false false false false false = .error e) ∧
    (∃ h, ZABRCoeffHolder.ZABRCoeffHolder
        ⟨Real.sqrt, Real.exp, Real.log, Real.sin, Real.arcsin⟩
        (sampleLibrary : Library ℝ) 5 (4 / 100) (2 ^ 128 - 2 ^ 104) (2 ^ 128 - 2 ^ 104)
        (2 ^ 128 - 2 ^ 104) (2 ^ 128 - 2 ^ 104) 0
        false false false false false = .ok h) :=
  ⟨(holder_construction_validation _ _ _ _ _ _ _ _ _ _ _ _ _ _).1 le_rfl,
   (holder_construction_validation ⟨Real.sqrt, Real.exp, Real.log, Real.sin, Real.arcsin⟩
      (sampleLibrary : Library ℝ) 5 (4 / 100) (1 / 5) (1 / 2) (2 / 5) 0 (-1)
      false false false false false).2.1 (by norm_num [sampleLibrary]) (by norm_num),
   (holder_construction_validation ⟨Real.sqrt, Real.exp, Real.log, Real.sin, Real.arcsin⟩
      (sampleLibrary : Library ℝ) 5 (4 / 100) (2 ^ 128 - 2 ^ 104) (2 ^ 128 - 2 ^ 104)
      (2 ^ 128 - 2 ^ 104) (2 ^ 128 - 2 ^ 104) 0
      false false false false false).2.2 (by norm_num)
      (by
        have h := sampleLibrary_defaults (5 / 10) 0 (by norm_num) (by norm_num)
        simpa [sampleLibrary] using h)
      (Or.inr le_rfl)⟩

/-- C19. Unsupplied parameters: when the constructor of `ZABRCoeffHolder` returns,
then for each of alpha, beta, nu, rho, gamma: if `Null` was passed the object
holds the default (`sqrt(0.2)`, 0.5, `sqrt(0.4)`, 0, 1) and its flag is false
whatever flag was passed; if a value was passed the object holds that value and
the flag passed. -/
theorem holder_defaults (L : Libm R) (Lib : Library R)
    (t forward alpha beta nu rho gamma : R)
    (alphaIsFixed betaIsFixed nuIsFixed rhoIsFixed gammaIsFixed : Bool)
    (h : ZABRCoeffHolder R)
    (hc : ZABRCoeffHolder.ZABRCoeffHolder L Lib t forward alpha beta nu rho gamma
      alphaIsFixed betaIsFixed nuIsFixed rhoIsFixed gammaIsFixed = .ok h) :
    ((alpha = Lib.Null → h.alpha_ = L.sqrt (2 / 10) ∧ h.alphaIsFixed_ = false) ∧
      (alpha ≠ Lib.Null → h.alpha_ = alpha ∧ h.alphaIsFixed_ = alphaIsFixed)) ∧
    ((beta = Lib.Null → h.beta_ = 5 / 10 ∧ h.betaIsFixed_ = false) ∧
      (beta ≠ Lib.Null → h.beta_ = beta ∧ h.betaIsFixed_ = betaIsFixed)) ∧
    ((nu = Lib.Null → h.nu_ = L.sqrt (4 / 10) ∧ h.nuIsFixed_ = false) ∧
      (nu ≠ Lib.Null → h.nu_ = nu ∧ h.nuIsFixed_ = nuIsFixed)) ∧
    ((rho = Lib.Null → h.rho_ = 0 ∧ h.rhoIsFixed_ = false) ∧
      (rho ≠ Lib.Null → h.rho_ = rho ∧ h.rhoIsFixed_ = rhoIsFixed)) ∧
    ((gamma = Lib.Null → h.gamma_ = 1 ∧ h.gammaIsFixed_ = false) ∧
      (gamma ≠ Lib.Null → h.gamma_ = gamma ∧ h.gammaIsFixed_ = gammaIsFixed)) := by
  unfold ZABRCoeffHolder.ZABRCoeffHolder at hc
  by_cases ht : t > 0
  · rw [if_pos ht] at hc
    simp only at hc
    by_cases hv : Lib.validateSabrParameters (if alpha ≠ Lib.Null then alpha else L.sqrt (2 / 10))
        (if beta ≠ Lib.Null then beta else 5 / 10)
        (if nu ≠ Lib.Null then nu else L.sqrt (4 / 10))
        (if rho ≠ Lib.Null then rho else 0) = true
    · rw [if_pos hv] at hc
      by_cases hg : (if gamma ≠ Lib.Null then gamma else 1) ≥ 0
      · rw [if_pos hg] at hc
        have hh := (Except.ok.inj hc).symm
        subst hh
        refine ⟨⟨?_, ?_⟩, ⟨?_, ?_⟩, ⟨?_, ?_⟩, ⟨?_, ?_⟩, ⟨?_, ?_⟩⟩ <;> intro hN <;>
          simp [hN]
      · rw [if_neg hg] at hc
        exact absurd hc (by simp)
    · rw [if_neg hv] at hc
      exact absurd hc (by simp)
  · rw [if_neg ht] at hc
    exact absurd hc (by simp)

/-- C19 at a concrete input over the real numbers, with `sampleLibrary`: alpha, nu
and gamma are passed as `Null` with the flag set, beta = 0.3 flagged fixed and
rho = 0.1 not flagged. -/
theorem holder_defaults_witness :
    ∃ h, ZABRCoeffHolder.ZABRCoeffHolder
        ⟨Real.sqrt, Real.exp, Real.log, Real.sin, Real.arcsin⟩
        (sampleLibrary : Library ℝ) 5 (4 / 100) (2 ^ 128 - 2 ^ 104) (3 / 10)
        (2 ^ 128 - 2 ^ 104) (1 / 10) (2 ^ 128 - 2 ^ 104)
        true true true false true = .ok h ∧
      (h.alpha_ = Real.sqrt (2 / 10) ∧ h.alphaIsFixed_ = false) ∧
      (h.beta_ = 3 / 10 ∧ h.betaIsFixed_ = true) ∧
      (h.nu_ = Real.sqrt (4 / 10) ∧ h.nuIsFixed_ = false) ∧
      (h.rho_ = 1 / 10 ∧ h.rhoIsFixed_ = false) ∧
      (h.gamma_ = 1 ∧ h.gammaIsFixed_ = false) :=
  (holder_returns ⟨Real.sqrt, Real.exp, Real.log, Real.sin, Real.arcsin⟩
      (sampleLibrary : Library ℝ) 5 (4 / 100) (2 ^ 128 - 2 ^ 104) (3 / 10)
      (2 ^ 128 - 2 ^ 104) (1 / 10) (2 ^ 128 - 2 ^ 104)
      true true true false true (by norm_num)
      (by
        have h := sampleLibrary_defaults (3 / 10) (1 / 10) (by norm_num) (by norm_num)
        have h3 : ((3 / 10 : ℝ) ≠ 2 ^ 128 - 2 ^ 104) := by norm_num
        have h4 : ((1 / 10 : ℝ) ≠ 2 ^ 128 - 2 ^ 104) := by norm_num
        have hN : (sampleLibrary : Library ℝ).Null = 2 ^ 128 - 2 ^ 104 := rfl
        rw [hN, if_neg (not_not.mpr rfl), if_pos h3, if_neg (not_not.mpr rfl), if_pos h4]
        exact h)
      (Or.inl rfl)).elim fun h hc =>
    have hd := holder_defaults _ _ _ _ _ _ _ _ _ _ _ _ _ _ h hc
    ⟨h, hc, hd.1.1 rfl, hd.2.1.2 (by norm_num [sampleLibrary]), hd.2.2.1.1 rfl,
      hd.2.2.2.1.2 (by norm_num [sampleLibrary]), hd.2.2.2.2.1 rfl⟩

end Construction

section MarketData

variable {R : Type} [LinearOrderedField R]

open ZABRInterpolationImpl

theorem squaredErrorLoop_strikes (E : Collaborators R) (z : ZABRInterpolationImpl R)
    (xs : List R) :
    ∀ (ys ws : List R) (t S : R), squaredErrorLoop E z xs ys ws t = .ok S →
      ∀ x ∈ xs, x > 0 := by
  induction xs with
  | nil => intro _ _ _ _ _ x hx; simp at hx
  | cons a rest ih =>
    intro ys ws t S h
    cases ys with
    | nil => simp [squaredErrorLoop] at h
    | cons y ys2 =>
      cases ws with
      | nil => simp [squaredErrorLoop] at h
      | cons w ws2 =>
        cases hv : value E z a with
        | error e => simp [squaredErrorLoop, hv] at h
        | ok v =>
          have ha : a > 0 := by
            by_contra hna
            unfold value at hv
            rw [if_neg hna] at hv
            simp at hv
          simp only [squaredErrorLoop, hv] at h
          intro x hx
          rcases List.mem_cons.mp hx with hx | hx
          · rw [hx]; exact ha
          · exact ih ys2 ws2 _ S h x hx

theorem interpolationError_strikes (E : Collaborators R) (z : ZABRInterpolationImpl R)
    (r : R) (h : z.interpolationError E = .ok r) : ∀ x ∈ z.xs, x > 0 := by
  obtain ⟨c, hc⟩ := interpolationSquaredError_of_error E z r h
  unfold interpolationSquaredError at hc
  exact squaredErrorLoop_strikes E z z.xs z.ys z.weights_ 0 c hc

/-- A call of `update` that returns: the forward is positive, the weighting
returned, the weights of the object are those the weighting left, and the error
of line 189 or 273 was computed on points and weights as the weighting left them. -/
theorem update_returns_inversion (E : Collaborators R) (z : ZABRInterpolationImpl R)
    (hout : (update E z).outcome = none) :
    z.forward_ > 0 ∧ ∃ (z1 : ZABRInterpolationImpl R) (r : R),
      updateWeights E z = (none, z1) ∧ (update E z).state.weights_ = z1.weights_ ∧
      z1.interpolationError E = .ok r := by
  by_cases hf : z.forward_ > 0
  · refine ⟨hf, ?_⟩
    have hz := updateWeights_eq E z
    rcases hw : updateWeights E z with ⟨o, z1⟩
    rw [hw] at hz
    simp only at hz
    cases o with
    | some e =>
      rw [update_eq_weights E z z1 hf e hw] at hout
      simp at hout
    | none =>
      cases hall : allParametersFixed z1 with
      | true =>
        have hu := update_eq_allFixed E z z1 hf hw hall
        rw [hu] at hout
        simp only at hout
        have hwt : (update E z).state.weights_ = z1.weights_ := by
          rw [hu]
          show (updateAllFixed E z1).2.weights_ = z1.weights_
          unfold updateAllFixed
          split
          · rfl
          · simp only
            split <;> rfl
        unfold updateAllFixed at hout
        cases he : z1.interpolationError E with
        | error e => rw [he] at hout; simp at hout
        | ok r => exact ⟨z1, r, rfl, hwt, he⟩
      | false =>
        have hall0 : allParametersFixed z = false := by
          rw [hz] at hall; exact hall
        obtain ⟨z2, v, p, e1, e2, _, hw2, _, hrun, _, he1, _, hu⟩ :=
          update_restart_inversion E z hall0 hout
        rw [hw] at hw2
        have h12 : z1 = z2 := (Prod.mk.inj hw2).2
        subst h12
        have hfr := (runRestarts_invariant E z1).1
        rw [hrun] at hfr
        simp only at hfr
        refine ⟨z1, e1, rfl, ?_, (interpolationError_of_frame E hfr).symm.trans he1⟩
        rw [hu]
        exact congrArg (fun y => y.weights_) hfr
  · rw [update_eq_forward E z hf] at hout
    simp at hout

theorem vegaWeightsLoop_eq (E : Collaborators R) (z : ZABRInterpolationImpl R)
    (xs : List R) :
    ∀ (ys acc : List R) (s : R) (ws : List R) (total : R),
      vegaWeightsLoop E z xs ys acc s = .ok (ws, total) →
      ws = acc ++ List.zipWith (fun x y => E.blackFormulaStdDevDerivative x z.forward_
        (E.libm.sqrt (y * y * z.t_))) xs ys ∧
      total = s + (List.zipWith (fun x y => E.blackFormulaStdDevDerivative x z.forward_
        (E.libm.sqrt (y * y * z.t_))) xs ys).sum ∧
      xs.length ≤ ys.length := by
  induction xs with
  | nil =>
    intro ys acc s ws total h
    simp [vegaWeightsLoop] at h
    simp [h.1, h.2]
  | cons x rest ih =>
    intro ys acc s ws total h
    cases ys with
    | nil => simp [vegaWeightsLoop] at h
    | cons y ys2 =>
      simp only [vegaWeightsLoop] at h
      obtain ⟨h1, h2, h3⟩ := ih ys2 _ _ ws total h
      refine ⟨?_, ?_, ?_⟩
      · rw [h1]; simp
      · rw [h2]; simp [add_assoc]
      · simpa using h3

theorem sum_map_div (l : List R) (s : R) : (l.map (fun w => w / s)).sum = l.sum / s := by
  induction l with
  | nil => simp
  | cons a rest ih => simp [ih, add_div]

/-- The weighting of lines 168-185 when it returns with vega weighting on. -/
theorem updateWeights_vega (E : Collaborators R) (z z1 : ZABRInterpolationImpl R)
    (hvega : z.vegaWeighted_ = true) (hw : updateWeights E z = (none, z1)) :
    z1.weights_ = (vegaWeights E z).map (fun w => w / (vegaWeights E z).sum) ∧
      z.xs.length ≤ z.ys.length := by
  unfold updateWeights at hw
  rw [if_pos hvega] at hw
  cases hl : vegaWeightsLoop E z z.xs z.ys [] 0 with
  | error e => rw [hl] at hw; simp at hw
  | ok r =>
    obtain ⟨ws, total⟩ := r
    obtain ⟨h1, h2, h3⟩ := vegaWeightsLoop_eq E z z.xs z.ys [] 0 ws total hl
    rw [hl] at hw
    simp only at hw
    split_ifs at hw
    · simp at hw
    · have hz := (Prod.mk.inj hw).2
      rw [← hz]
      simp only [List.nil_append, zero_add] at h1 h2
      refine ⟨?_, h3⟩
      show ws.map (fun w => w / total) = _
      rw [h1, h2]
      rfl

/-- C18, the claim as stated fails at a concrete input over the real numbers:
the point set holds the strike -0.01, and the constructor returns an object that
holds it (expiry, forward and parameters are valid, `sampleLibrary`). -/
theorem construction_accepts_nonpositive_strike :
    (∃ x ∈ ([-1 / 100, 4 / 100, 5 / 100] : List ℝ), x ≤ 0) ∧
    ∃ z, ZABRInterpolationImpl.ZABRInterpolationImpl
        ⟨Real.sqrt, Real.exp, Real.log, Real.sin, Real.arcsin⟩ (sampleLibrary : Library ℝ)
        [-1 / 100, 4 / 100, 5 / 100] [22 / 100, 20 / 100, 19 / 100] 5 (4 / 100)
        (1 / 5) (1 / 2) (2 / 5) 0 1 false false false false true 0 false (1 / 1000) true 1 =
        .ok z ∧ z.xs = [-1 / 100, 4 / 100, 5 / 100] := by
  refine ⟨⟨-1 / 100, by simp, by norm_num⟩, ?_⟩
  norm_num [ZABRInterpolationImpl.ZABRInterpolationImpl, Interpolation.templateImpl,
    ZABRCoeffHolder.ZABRCoeffHolder, sampleLibrary]

/-- C18 (amended). Construction fails when the point set is empty; an object that
the constructor returns holds the strikes and volatilities as passed; and a strike
`<= 0` held by an object is rejected when `value` is evaluated at it, so that no
call of `update` on that object returns. -/
theorem market_data_validation (L : Libm R) (Lib : Library R) (E : Collaborators R)
    (xs ys : List R) (t forward alpha beta nu rho gamma : R)
    (alphaIsFixed betaIsFixed nuIsFixed rhoIsFixed gammaIsFixed : Bool)
    (evaluation : Nat) (vegaWeighted : Bool) (errorAccept : R) (useMaxError : Bool)
    (maxGuesses : Nat) (w : ZABRInterpolationImpl R) :
    (xs = [] → ZABRInterpolationImpl.ZABRInterpolationImpl L Lib xs ys t forward alpha beta
        nu rho gamma alphaIsFixed betaIsFixed nuIsFixed rhoIsFixed gammaIsFixed evaluation
        vegaWeighted errorAccept useMaxError maxGuesses = .error .notEnoughPoints) ∧
    (∀ z, ZABRInterpolationImpl.ZABRInterpolationImpl L Lib xs ys t forward alpha beta
        nu rho gamma alphaIsFixed betaIsFixed nuIsFixed rhoIsFixed gammaIsFixed evaluation
        vegaWeighted errorAccept useMaxError maxGuesses = .ok z → z.xs = xs ∧ z.ys = ys) ∧
    (∀ x ∈ w.xs, x ≤ 0 →
      w.value E x = .error .strikeNotPositive ∧ (update E w).outcome ≠ none) := by
  refine ⟨?_, ?_, ?_⟩
  · intro hx
    subst hx
    rfl
  · intro z hz
    unfold ZABRInterpolationImpl.ZABRInterpolationImpl at hz
    cases hb : Interpolation.templateImpl xs ys with
    | some e => rw [hb] at hz; simp at hz
    | none =>
      rw [hb] at hz
      simp only at hz
      cases hh : ZABRCoeffHolder.ZABRCoeffHolder L Lib t forward alpha beta nu rho gamma
          alphaIsFixed betaIsFixed nuIsFixed rhoIsFixed gammaIsFixed with
      | error e => rw [hh] at hz; simp at hz
      | ok holder =>
        rw [hh] at hz
        have hzz := (Except.ok.inj hz).symm
        subst hzz
        exact ⟨rfl, rfl⟩
  · intro x hx hle
    refine ⟨?_, ?_⟩
    · unfold value
      rw [if_neg (not_lt.mpr hle)]
    · intro hout
      obtain ⟨_, z1, r, hw, _, he⟩ := update_returns_inversion E w hout
      have hz := updateWeights_eq E w
      rw [hw] at hz
      simp only at hz
      have hxs : z1.xs = w.xs := by rw [hz]
      have hpos := interpolationError_strikes E z1 r he x (by rw [hxs]; exact hx)
      exact absurd hpos (not_lt.mpr hle)

/-- C18 (amended) at concrete inputs over the real numbers: the constructor
rejects the empty point set, and on `sampleImpl` with the strikes -0.01, 0.04,
0.05, which holds a section, `value` rejects the strike -0.01 and `update` does
not return. -/
theorem market_data_validation_witness :
    ZABRInterpolationImpl.ZABRInterpolationImpl
        ⟨Real.sqrt, Real.exp, Real.log, Real.sin, Real.arcsin⟩ (sampleLibrary : Library ℝ)
        [] [] 5 (4 / 100) (1 / 5) (1 / 2) (2 / 5) 0 1 false false false false true
        0 false (1 / 1000) true 1 = .error .notEnoughPoints ∧
    ZABRInterpolationImpl.value
        (sampleCollaborators ⟨Real.sqrt, Real.exp, Real.log, Real.sin, Real.arcsin⟩)
        { (sampleImpl : ZABRInterpolationImpl ℝ) with xs := [-1 / 100, 4 / 100, 5 / 100] }
        (-1 / 100) = .error .strikeNotPositive ∧
    (update (sampleCollaborators ⟨Real.sqrt, Real.exp, Real.log, Real.sin, Real.arcsin⟩)
        { (sampleImpl : ZABRInterpolationImpl ℝ) with
          xs := [-1 / 100, 4 / 100, 5 / 100] }).outcome ≠ none :=
  have h := market_data_validation
    ⟨Real.sqrt, Real.exp, Real.log, Real.sin, Real.arcsin⟩ (sampleLibrary : Library ℝ)
    (sampleCollaborators ⟨Real.sqrt, Real.exp, Real.log, Real.sin, Real.arcsin⟩)
    [] [] 5 (4 / 100) (1 / 5) (1 / 2) (2 / 5) 0 1 false false false false true
    0 false (1 / 1000) true 1
    { (sampleImpl : ZABRInterpolationImpl ℝ) with xs := [-1 / 100, 4 / 100, 5 / 100] }
  have hs := h.2.2 (-1 / 100) (List.mem_cons_self _ _) (by norm_num)
  ⟨h.1 rfl, hs.1, hs.2⟩

/-- C20. Weights are a normalised vector (in exact arithmetic). An object that
the constructor returns for `n` points has `n >= 1` and holds `n` copies of `1/n`,
which sum to 1. After a call of `update` that returns: without vega weighting the
weights are untouched, so weights that were `n` copies of `1/n` still have length
`n` and sum 1; with vega weighting each weight is the derivative of the Black
formula at the point divided by the sum of all of them, there are `n` of them,
and they sum to 1 when that sum is not zero. -/
theorem weights_normalised (L : Libm R) (Lib : Library R) (E : Collaborators R)
    (w : ZABRInterpolationImpl R) :
    (∀ (xs ys : List R) (t forward alpha beta nu rho gamma : R)
      (alphaIsFixed betaIsFixed nuIsFixed rhoIsFixed gammaIsFixed : Bool)
      (evaluation : Nat) (vegaWeighted : Bool) (errorAccept : R) (useMaxError : Bool)
      (maxGuesses : Nat) (z : ZABRInterpolationImpl R),
      ZABRInterpolationImpl.ZABRInterpolationImpl L Lib xs ys t forward alpha beta
        nu rho gamma alphaIsFixed betaIsFixed nuIsFixed rhoIsFixed gammaIsFixed evaluation
        vegaWeighted errorAccept useMaxError maxGuesses = .ok z →
      1 ≤ xs.length ∧ z.weights_ = List.replicate xs.length (1 / (xs.length : R)) ∧
        z.weights_.length = z.xs.length ∧ z.weights_.sum = 1) ∧
    ((update E w).outcome = none →
      (w.vegaWeighted_ = false →
        (update E w).state.weights_ = w.weights_ ∧
        (w.xs ≠ [] → w.weights_ = List.replicate w.xs.length (1 / (w.xs.length : R)) →
          (update E w).state.weights_.length = w.xs.length ∧
          (update E w).state.weights_.sum = 1)) ∧
      (w.vegaWeighted_ = true →
        (update E w).state.weights_ =
          (vegaWeights E w).map (fun v => v / (vegaWeights E w).sum) ∧
        (update E w).state.weights_.length = w.xs.length ∧
        ((vegaWeights E w).sum ≠ 0 → (update E w).state.weights_.sum = 1))) := by
  have hrep : ∀ n : Nat, 1 ≤ n → (List.replicate n (1 / (n : R))).sum = 1 := by
    intro n hn
    have hne : (n : R) ≠ 0 := by
      have : (0 : R) < (n : R) := by exact_mod_cast hn
      exact ne_of_gt this
    rw [List.sum_replicate, nsmul_eq_mul, mul_one_div_cancel hne]
  refine ⟨?_, ?_⟩
  · intro xs ys t forward alpha beta nu rho gamma f1 f2 f3 f4 f5 ev vw ea um mg z hz
    unfold ZABRInterpolationImpl.ZABRInterpolationImpl at hz
    by_cases hx : xs.length = 0
    · simp [Interpolation.templateImpl, hx] at hz
    · have hb : Interpolation.templateImpl xs ys = none := by
        unfold Interpolation.templateImpl
        rw [if_neg hx]
      rw [hb] at hz
      simp only at hz
      cases hh : ZABRCoeffHolder.ZABRCoeffHolder L Lib t forward alpha beta nu rho gamma
          f1 f2 f3 f4 f5 with
      | error e => rw [hh] at hz; simp at hz
      | ok holder =>
        rw [hh] at hz
        have hzz := (Except.ok.inj hz).symm
        subst hzz
        have h1 : 1 ≤ xs.length := Nat.one_le_iff_ne_zero.mpr hx
        refine ⟨h1, rfl, ?_, ?_⟩
        · simp
        · exact hrep xs.length h1
  · intro hout
    obtain ⟨_, z1, r, hw, hwt, _⟩ := update_returns_inversion E w hout
    refine ⟨?_, ?_⟩
    · intro hv
      have h1 : z1 = w := by
        unfold updateWeights at hw
        rw [hv] at hw
        exact (Prod.mk.inj hw).2.symm
      rw [h1] at hwt
      refine ⟨hwt, ?_⟩
      intro hne hu
      rw [hwt, hu]
      refine ⟨by simp, hrep _ ?_⟩
      exact Nat.one_le_iff_ne_zero.mpr (fun h0 => hne (List.length_eq_zero.mp h0))
    · intro hv
      obtain ⟨h1, h2⟩ := updateWeights_vega E w z1 hv hw
      rw [hwt, h1]
      refine ⟨rfl, ?_, ?_⟩
      · simp [vegaWeights, h2]
      · intro hs
        rw [sum_map_div, div_self hs]

/-- C20 at a concrete input over the real numbers: on `sampleImpl` with vega
weighting on, three points and the sample derivative 1 at each point, `update`
returns and leaves three weights whose sum is 1. -/
theorem weights_normalised_witness :
    (update (sampleCollaborators ⟨Real.sqrt, Real.exp, Real.log, Real.sin, Real.arcsin⟩)
      { (sampleImpl : ZABRInterpolationImpl ℝ) with vegaWeighted_ := true }).outcome = none ∧
    (update (sampleCollaborators ⟨Real.sqrt, Real.exp, Real.log, Real.sin, Real.arcsin⟩)
      { (sampleImpl : ZABRInterpolationImpl ℝ) with
        vegaWeighted_ := true }).state.weights_.length = 3 ∧
    (update (sampleCollaborators ⟨Real.sqrt, Real.exp, Real.log, Real.sin, Real.arcsin⟩)
      { (sampleImpl : ZABRInterpolationImpl ℝ) with
        vegaWeighted_ := true }).state.weights_.sum = 1 :=
  have hw : updateWeights
      (sampleCollaborators ⟨Real.sqrt, Real.exp, Real.log, Real.sin, Real.arcsin⟩)
      { (sampleImpl : ZABRInterpolationImpl ℝ) with vegaWeighted_ := true } =
      (none, { (sampleImpl : ZABRInterpolationImpl ℝ) with vegaWeighted_ := true }) := by
    norm_num [updateWeights, vegaWeightsLoop, sampleCollaborators, sampleImpl]
  have hE := sample_interpolationError (⟨Real.sqrt, Real.exp, Real.log, Real.sin, Real.arcsin⟩ : Libm ℝ)
  have hM := sample_interpolationMaxError
    (⟨Real.sqrt, Real.exp, Real.log, Real.sin, Real.arcsin⟩ : Libm ℝ)
  have hout := (update_restart_returns
    (sampleCollaborators ⟨Real.sqrt, Real.exp, Real.log, Real.sin, Real.arcsin⟩)
    { (sampleImpl : ZABRInterpolationImpl ℝ) with vegaWeighted_ := true }
    { (sampleImpl : ZABRInterpolationImpl ℝ) with vegaWeighted_ := true }
    (by norm_num [sampleImpl]) hw rfl _ _
    ((interpolationError_of_data _ rfl rfl rfl rfl).trans hE)
    ((interpolationMaxError_of_data _ rfl rfl rfl).trans hM)
    (by norm_num [sampleImpl, sampleCollaborators])).1
  have h := ((weights_normalised
    ⟨Real.sqrt, Real.exp, Real.log, Real.sin, Real.arcsin⟩ (sampleLibrary : Library ℝ)
    (sampleCollaborators ⟨Real.sqrt, Real.exp, Real.log, Real.sin, Real.arcsin⟩)
    { (sampleImpl : ZABRInterpolationImpl ℝ) with vegaWeighted_ := true }).2 hout).2 rfl
  ⟨hout, h.2.1, h.2.2 (by norm_num [vegaWeights, sampleImpl, sampleCollaborators])⟩

end MarketData

section TransformationExact

open ZabrParametersTransformation

end TransformationExact

section RestartRanges

variable {R : Type} [LinearOrderedField R]

open ZabrParametersTransformation ZABRInterpolationImpl

/-- The new `guess` of a pass with `iterations > 0` is `direct` of the ranged
sample, with the fixed slots restored from the object (lines 235-240). -/
theorem nextGuess_guess (E : Collaborators R) (fixed : Array5 Bool) (n : Nat)
    (s : RestartState R) :
    (nextGuess E fixed n s).guess =
      { a0 := if s.zabr.alphaIsFixed_ then s.zabr.alpha_ else (direct E.libm
          (rangedSample fixed (E.haltonNextSequence n (s.sequencesDrawn + 1)) s.guess)).a0
        a1 := if s.zabr.betaIsFixed_ then s.zabr.beta_ else (direct E.libm
          (rangedSample fixed (E.haltonNextSequence n (s.sequencesDrawn + 1)) s.guess)).a1
        a2 := if s.zabr.nuIsFixed_ then s.zabr.nu_ else (direct E.libm
          (rangedSample fixed (E.haltonNextSequence n (s.sequencesDrawn + 1)) s.guess)).a2
        a3 := if s.zabr.rhoIsFixed_ then s.zabr.rho_ else (direct E.libm
          (rangedSample fixed (E.haltonNextSequence n (s.sequencesDrawn + 1)) s.guess)).a3
        a4 := if s.zabr.gammaIsFixed_ then s.zabr.gamma_ else (direct E.libm
          (rangedSample fixed (E.haltonNextSequence n (s.sequencesDrawn + 1)) s.guess)).a4 } :=
  rfl

/-- C24, the claim as stated fails at a concrete input over the real numbers: the
driving component 4.999999999 has magnitude below 5 and the square terms alpha, nu
and gamma of `direct` exceed 25. -/
theorem direct_exceeds_ceiling :
    |(4999999999 / 1000000000 : ℝ)| < 5 ∧
    (direct ⟨Real.sqrt, Real.exp, Real.log, Real.sin, Real.arcsin⟩
      ⟨4999999999 / 1000000000, 0, 4999999999 / 1000000000, 0, 0⟩).a0 > 25 ∧
    (direct ⟨Real.sqrt, Real.exp, Real.log, Real.sin, Real.arcsin⟩
      ⟨4999999999 / 1000000000, 0, 4999999999 / 1000000000, 0, 0⟩).a2 > 25 ∧
    (direct ⟨Real.sqrt, Real.exp, Real.log, Real.sin, Real.arcsin⟩
      ⟨4999999999 / 1000000000, 0, 4999999999 / 1000000000, 0, 0⟩).a4 > 25 := by
  have h : |(4999999999 / 1000000000 : ℝ)| < 5 := by
    rw [abs_of_nonneg (by norm_num)]
    norm_num
  refine ⟨h, ?_, ?_, ?_⟩ <;> simp only [direct, if_pos h, eps1_] <;> norm_num

/-- C24 (amended). Saturation ceiling: for every input `x` the square terms of
`direct` (alpha, nu and gamma) are positive and stay strictly below
`25 + eps1_ = 25.0000001`; they equal 25 whenever the driving component (`x[0]`
for alpha, `x[2]` for nu and for gamma) has magnitude `>= 5`. -/
theorem direct_ceiling (L : Libm R) (x : Array5 R) :
    (0 < (direct L x).a0 ∧ (direct L x).a0 < 25 + eps1_) ∧
    (0 < (direct L x).a2 ∧ (direct L x).a2 < 25 + eps1_) ∧
    (0 < (direct L x).a4 ∧ (direct L x).a4 < 25 + eps1_) ∧
    (|x.a0| ≥ 5 → (direct L x).a0 = 25) ∧
    (|x.a2| ≥ 5 → (direct L x).a2 = 25 ∧ (direct L x).a4 = 25) := by
  have key : ∀ a : R, 0 < (if |a| < 5 then a * a + eps1_ else 25) ∧
      (if |a| < 5 then a * a + eps1_ else 25) < 25 + (eps1_ : R) := by
    intro a
    have he : (0 : R) < eps1_ := by unfold eps1_; norm_num
    split_ifs with h
    · have h1 : a * a < 25 := by
        have h2 := mul_self_lt_mul_self (abs_nonneg a) h
        rw [abs_mul_abs_self] at h2
        linarith
      have h3 : 0 ≤ a * a := mul_self_nonneg a
      constructor <;> linarith
    · constructor <;> linarith
  refine ⟨key x.a0, key x.a2, key x.a2, ?_, ?_⟩
  · intro h
    simp only [direct, if_neg (not_lt.mpr h)]
  · intro h
    simp only [direct, if_neg (not_lt.mpr h), and_self]

/-- C26, the claim as stated fails at a concrete input: with the sample component
0.9999999, which lies in [0,1), the raw values of a free nu and of a free gamma
are 5.0000005, above 5. -/
theorem ranged_sample_exceeds_five :
    (0 : ℚ) ≤ 9999999 / 10000000 ∧ (9999999 / 10000000 : ℚ) < 1 ∧
    (rangedSample ⟨false, false, false, false, false⟩ (fun _ => (9999999 / 10000000 : ℚ))
      ⟨0, 0, 0, 0, 0⟩).a2 > 5 ∧
    (rangedSample ⟨false, false, false, false, false⟩ (fun _ => (9999999 / 10000000 : ℚ))
      ⟨0, 0, 0, 0, 0⟩).a4 > 5 := by
  norm_num [rangedSample]

/-- C26 (amended). Restart ranges: for every sample whose components lie in [0,1),
the raw value assigned to a free parameter before `direct` is applied lies in
[0,1] for alpha and for beta, in [0, 5.000001) for nu and for gamma, and strictly
inside (-1,1) for rho. -/
theorem ranged_sample_ranges (fixed : Array5 Bool) (sample : Nat → R) (guess : Array5 R)
    (hs : ∀ j, 0 ≤ sample j ∧ sample j < 1) :
    (fixed.a0 = false →
      0 ≤ (rangedSample fixed sample guess).a0 ∧ (rangedSample fixed sample guess).a0 ≤ 1) ∧
    (fixed.a1 = false →
      0 ≤ (rangedSample fixed sample guess).a1 ∧ (rangedSample fixed sample guess).a1 ≤ 1) ∧
    (fixed.a2 = false →
      0 ≤ (rangedSample fixed sample guess).a2 ∧
        (rangedSample fixed sample guess).a2 < 5 + 1 / 1000000) ∧
    (fixed.a3 = false →
      -1 < (rangedSample fixed sample guess).a3 ∧ (rangedSample fixed sample guess).a3 < 1) ∧
    (fixed.a4 = false →
      0 ≤ (rangedSample fixed sample guess).a4 ∧
        (rangedSample fixed sample guess).a4 < 5 + 1 / 1000000) := by
  refine ⟨?_, ?_, ?_, ?_, ?_⟩ <;> intro hf <;> simp only [rangedSample, hf] <;>
    simp only [Bool.false_eq_true, if_false]
  · obtain ⟨h1, h2⟩ := hs (ProjectedCostFunction.freeBefore fixed 0)
    constructor <;> nlinarith
  · obtain ⟨h1, h2⟩ := hs (ProjectedCostFunction.freeBefore fixed 1)
    constructor <;> nlinarith
  · obtain ⟨h1, h2⟩ := hs (ProjectedCostFunction.freeBefore fixed 2)
    constructor <;> nlinarith
  · obtain ⟨h1, h2⟩ := hs (ProjectedCostFunction.freeBefore fixed 3)
    constructor <;> nlinarith
  · obtain ⟨h1, h2⟩ := hs (ProjectedCostFunction.freeBefore fixed 4)
    constructor <;> nlinarith

/-- C26 (amended) at a concrete input: all five parameters free and every sample
component 1/2. -/
theorem ranged_sample_ranges_witness :
    (0 ≤ (rangedSample ⟨false, false, false, false, false⟩ (fun _ => (1 / 2 : ℚ))
        ⟨0, 0, 0, 0, 0⟩).a2 ∧
      (rangedSample ⟨false, false, false, false, false⟩ (fun _ => (1 / 2 : ℚ))
        ⟨0, 0, 0, 0, 0⟩).a2 < 5 + 1 / 1000000) ∧
    (-1 < (rangedSample ⟨false, false, false, false, false⟩ (fun _ => (1 / 2 : ℚ))
        ⟨0, 0, 0, 0, 0⟩).a3 ∧
      (rangedSample ⟨false, false, false, false, false⟩ (fun _ => (1 / 2 : ℚ))
        ⟨0, 0, 0, 0, 0⟩).a3 < 1) :=
  have h := ranged_sample_ranges ⟨false, false, false, false, false⟩
    (fun _ => (1 / 2 : ℚ)) ⟨0, 0, 0, 0, 0⟩ (fun _ => ⟨by norm_num, by norm_num⟩)
  ⟨h.2.2.1 rfl, h.2.2.2.1 rfl⟩

end RestartRanges

section RestartCoverage

open ZabrParametersTransformation ZABRInterpolationImpl

theorem sin_one_lt : Real.sin 1 < 8415 / 9999 := by
  have h := @Complex.exp_bound Complex.I (by simp) 9 (by norm_num)
  have him : Real.sin 1 = (Complex.exp Complex.I).im := by
    have := Complex.exp_ofReal_mul_I_im 1
    simpa using this.symm
  have hS : (∑ m ∈ Finset.range 9, Complex.I ^ m / (m.factorial : ℂ)).im =
      1 - 1 / 6 + 1 / 120 - 1 / 5040 := by
    simp only [Finset.sum_range_succ, Finset.range_zero, Finset.sum_empty, Nat.factorial]
    simp [pow_succ, Complex.div_im, Complex.normSq]
    norm_num
  have h2 := (Complex.abs_im_le_abs _).trans h
  rw [Complex.sub_im, hS, ← him] at h2
  have h3 := (abs_le.mp h2).2
  norm_num [Nat.factorial] at h3
  linarith

/-- The sine of a number strictly between -1 and 1 is smaller in magnitude than
the sine of 1. -/
theorem abs_sin_lt_sin_one (r : ℝ) (h1 : -1 < r) (h2 : r < 1) : |Real.sin r| < Real.sin 1 := by
  have hpi := Real.one_le_pi_div_two
  rw [abs_lt]
  constructor
  · rw [← Real.sin_neg]
    exact Real.sin_lt_sin_of_lt_of_le_pi_div_two (by linarith) (by linarith) h1
  · exact Real.sin_lt_sin_of_lt_of_le_pi_div_two (by linarith) hpi h2

/-- C29. Quasi-random starts cover part of the domain only, over the real numbers
with the real `<cmath>`: in a pass with `iterations > 0`, for every sample with
components in [0,1), the new guess of a free beta lies in `(exp(-1), 1]`, that of a
free rho has `|rho| < 0.9999 * sin 1 < 0.8415`, and that of a free alpha lies in
`(0, 1 + 1e-7)`. -/
theorem restart_guess_coverage (E : Collaborators ℝ) (fixed : Array5 Bool) (n : Nat)
    (s : RestartState ℝ)
    (hlibm : E.libm = ⟨Real.sqrt, Real.exp, Real.log, Real.sin, Real.arcsin⟩)
    (hs : ∀ j, 0 ≤ E.haltonNextSequence n (s.sequencesDrawn + 1) j ∧
      E.haltonNextSequence n (s.sequencesDrawn + 1) j < 1) :
    (fixed.a1 = false → s.zabr.betaIsFixed_ = false →
      Real.exp (-1) < (nextGuess E fixed n s).guess.a1 ∧
        (nextGuess E fixed n s).guess.a1 ≤ 1) ∧
    (fixed.a3 = false → s.zabr.rhoIsFixed_ = false →
      |(nextGuess E fixed n s).guess.a3| < 9999 / 10000 * Real.sin 1 ∧
        9999 / 10000 * Real.sin 1 < 8415 / 10000) ∧
    (fixed.a0 = false → s.zabr.alphaIsFixed_ = false →
      0 < (nextGuess E fixed n s).guess.a0 ∧
        (nextGuess E fixed n s).guess.a0 < 1 + 1 / 10000000) := by
  rw [nextGuess_guess, hlibm]
  refine ⟨?_, ?_, ?_⟩
  · intro hf hz
    simp only [hz, Bool.false_eq_true, if_false, direct]
    obtain ⟨h1, h2⟩ := hs (ProjectedCostFunction.freeBefore fixed 1)
    have hb0 : 0 < (rangedSample fixed (E.haltonNextSequence n (s.sequencesDrawn + 1))
        s.guess).a1 := by
      simp only [rangedSample, hf, Bool.false_eq_true, if_false]
      nlinarith
    have hb1 : (rangedSample fixed (E.haltonNextSequence n (s.sequencesDrawn + 1))
        s.guess).a1 < 1 := by
      simp only [rangedSample, hf, Bool.false_eq_true, if_false]
      nlinarith
    have habs : |(rangedSample fixed (E.haltonNextSequence n (s.sequencesDrawn + 1))
        s.guess).a1| < 1000 := by
      rw [abs_of_pos hb0]; linarith
    rw [if_pos habs]
    constructor
    · apply Real.exp_lt_exp.mpr
      nlinarith
    · rw [← Real.exp_zero]
      apply Real.exp_le_exp.mpr
      nlinarith
  · intro hf hz
    simp only [hz, Bool.false_eq_true, if_false, direct]
    obtain ⟨g1, g2⟩ := hs (ProjectedCostFunction.freeBefore fixed 3)
    have h1 : -1 < (rangedSample fixed (E.haltonNextSequence n (s.sequencesDrawn + 1))
        s.guess).a3 := by
      simp only [rangedSample, hf, Bool.false_eq_true, if_false]
      nlinarith
    have h2 : (rangedSample fixed (E.haltonNextSequence n (s.sequencesDrawn + 1))
        s.guess).a3 < 1 := by
      simp only [rangedSample, hf, Bool.false_eq_true, if_false]
      nlinarith
    have habs : |(rangedSample fixed (E.haltonNextSequence n (s.sequencesDrawn + 1))
        s.guess).a3| < 10 := by
      rw [abs_lt]; constructor <;> linarith
    rw [if_pos habs]
    have hsin := abs_sin_lt_sin_one _ h1 h2
    constructor
    · rw [abs_mul, abs_of_pos (by unfold eps2_; norm_num : (0 : ℝ) < eps2_)]
      unfold eps2_
      nlinarith
    · have := sin_one_lt
      linarith
  · intro hf hz
    simp only [hz, Bool.false_eq_true, if_false, direct]
    obtain ⟨h1, h2⟩ := hs (ProjectedCostFunction.freeBefore fixed 0)
    have hb0 : 0 < (rangedSample fixed (E.haltonNextSequence n (s.sequencesDrawn + 1))
        s.guess).a0 := by
      simp only [rangedSample, hf, Bool.false_eq_true, if_false]
      nlinarith
    have hb1 : (rangedSample fixed (E.haltonNextSequence n (s.sequencesDrawn + 1))
        s.guess).a0 < 1 := by
      simp only [rangedSample, hf, Bool.false_eq_true, if_false]
      nlinarith
    have habs : |(rangedSample fixed (E.haltonNextSequence n (s.sequencesDrawn + 1))
        s.guess).a0| < 5 := by
      rw [abs_of_pos hb0]; linarith
    rw [if_pos habs]
    unfold eps1_
    constructor <;> nlinarith

/-- C29 at a concrete input over the real numbers: `sampleImpl` on entry to the
restart loop (alpha, beta, nu, rho free) with the sample collaborators, whose
samples are all 1/2. -/
theorem restart_guess_coverage_witness :
    Real.exp (-1) < (nextGuess
      (sampleCollaborators ⟨Real.sqrt, Real.exp, Real.log, Real.sin, Real.arcsin⟩)
      (parameterAreFixed (sampleImpl : ZABRInterpolationImpl ℝ)) 4
      (sampleLoopVars : LoopVars ℝ).st).guess.a1 ∧
    |(nextGuess
      (sampleCollaborators ⟨Real.sqrt, Real.exp, Real.log, Real.sin, Real.arcsin⟩)
      (parameterAreFixed (sampleImpl : ZABRInterpolationImpl ℝ)) 4
      (sampleLoopVars : LoopVars ℝ).st).guess.a3| < 8415 / 10000 :=
  have h := restart_guess_coverage
    (sampleCollaborators ⟨Real.sqrt, Real.exp, Real.log, Real.sin, Real.arcsin⟩)
    (parameterAreFixed (sampleImpl : ZABRInterpolationImpl ℝ)) 4
    (sampleLoopVars : LoopVars ℝ).st rfl
    (fun _ => ⟨by norm_num [sampleCollaborators], by norm_num [sampleCollaborators]⟩)
  ⟨(h.1 rfl rfl).1, lt_trans (h.2.1 rfl rfl).1 (h.2.1 rfl rfl).2⟩

end RestartCoverage

section ResidualVector

variable {R : Type} [LinearOrderedField R]

open ZABRInterpolationImpl

theorem errorsLoop_vs_squared (E : Collaborators R) (z : ZABRInterpolationImpl R)
    (hL : ∀ w : R, 0 ≤ w → E.libm.sqrt w * E.libm.sqrt w = w) (xs : List R) :
    ∀ (ys ws : List R) (t : R), (∀ w ∈ ws, 0 ≤ w) →
      (∀ rs, errorsLoop E z xs ys ws = .ok rs →
        rs.length = xs.length ∧
          squaredErrorLoop E z xs ys ws t = .ok (t + (rs.map (fun r => r ^ 2)).sum)) ∧
      (∀ e, errorsLoop E z xs ys ws = .error e →
        squaredErrorLoop E z xs ys ws t = .error e) := by
  induction xs with
  | nil =>
    intro ys ws t _
    refine ⟨?_, ?_⟩
    · intro rs h
      simp only [errorsLoop] at h
      have hrs := (Except.ok.inj h).symm
      subst hrs
      simp [squaredErrorLoop]
    · intro e h
      simp [errorsLoop] at h
  | cons x rest ih =>
    intro ys ws t hw
    cases ys with
    | nil =>
      refine ⟨?_, ?_⟩
      · intro rs h; simp [errorsLoop] at h
      · intro e h
        simp only [errorsLoop] at h
        rw [← Except.error.inj h]
        simp [squaredErrorLoop]
    | cons y ys2 =>
      cases ws with
      | nil =>
        refine ⟨?_, ?_⟩
        · intro rs h; simp [errorsLoop] at h
        · intro e h
          simp only [errorsLoop] at h
          rw [← Except.error.inj h]
          simp [squaredErrorLoop]
      | cons w ws2 =>
        have hw0 : 0 ≤ w := hw w (List.mem_cons_self _ _)
        have hw2 : ∀ u ∈ ws2, 0 ≤ u := fun u hu => hw u (List.mem_cons_of_mem _ hu)
        cases hv : value E z x with
        | error e0 =>
          refine ⟨?_, ?_⟩
          · intro rs h; simp [errorsLoop, hv] at h
          · intro e h
            simp only [errorsLoop, hv] at h
            rw [← Except.error.inj h]
            simp [squaredErrorLoop, hv]
        | ok v =>
          obtain ⟨ih1, ih2⟩ := ih ys2 ws2 (t + (v - y) * (v - y) * w) hw2
          cases hrest : errorsLoop E z rest ys2 ws2 with
          | error e0 =>
            refine ⟨?_, ?_⟩
            · intro rs h; simp [errorsLoop, hv, hrest] at h
            · intro e h
              simp only [errorsLoop, hv, hrest] at h
              rw [← Except.error.inj h]
              simp only [squaredErrorLoop, hv]
              exact ih2 e0 hrest
          | ok rs0 =>
            obtain ⟨hlen, hsq⟩ := ih1 rs0 hrest
            refine ⟨?_, ?_⟩
            · intro rs h
              simp only [errorsLoop, hv, hrest] at h
              have hrs := (Except.ok.inj h).symm
              subst hrs
              refine ⟨by simp [hlen], ?_⟩
              simp only [squaredErrorLoop, hv]
              rw [hsq]
              simp only [List.map_cons, List.sum_cons]
              have hsw : ((v - y) * E.libm.sqrt w) ^ 2 = (v - y) * (v - y) * w := by
                rw [mul_pow, sq (E.libm.sqrt w), hL w hw0]
                ring
              rw [hsw, add_assoc]
            · intro e h
              simp [errorsLoop, hv, hrest] at h

theorem errorsLoop_eq (E : Collaborators R) (z : ZABRInterpolationImpl R)
    (sec : ZabrSmileSection R) (hsec : z.section_ = some sec) (xs : List R) :
    ∀ (ys ws : List R), (∀ x ∈ xs, x > 0) → xs.length ≤ ys.length →
      xs.length ≤ ws.length →
      errorsLoop E z xs ys ws =
        .ok (List.zipWith (fun r w => r * E.libm.sqrt w) (sectionResiduals E sec xs ys) ws) := by
  induction xs with
  | nil => intro ys ws _ _ _; simp [errorsLoop, sectionResiduals]
  | cons x rest ih =>
    intro ys ws hpos hy hw
    cases ys with
    | nil => simp at hy
    | cons y ys2 =>
      cases ws with
      | nil => simp at hw
      | cons w ws2 =>
        have hx : x > 0 := hpos x (by simp)
        have hv : value E z x = .ok (E.volatility sec x) := by
          unfold value; rw [if_pos hx, hsec]
        simp only [errorsLoop, hv]
        rw [ih ys2 ws2 (fun a ha => hpos a (List.mem_cons_of_mem _ ha))
          (by simpa using hy) (by simpa using hw)]
        simp [sectionResiduals]

/-- C27. Residual vector and scalar objective agree, for a square root that
squares back on non-negative numbers and a state with non-negative weights:
`interpolationErrors` returns exactly when `interpolationSquaredError` does, with
one entry per market point, and the sum of the squares of its entries is the
squared error; when the object holds a section and the strikes are positive the
entries are `(model_i - vol_i) * sqrt(w_i)` and the squared error is
`sum_i w_i * (model_i - vol_i)^2`; `ZABRError::values` and `ZABRError::value`
stand in the same relation. -/
theorem residuals_agree (E : Collaborators R) (z : ZABRInterpolationImpl R)
    (hL : ∀ w : R, 0 ≤ w → E.libm.sqrt w * E.libm.sqrt w = w)
    (hw : ∀ w ∈ z.weights_, 0 ≤ w) :
    (∀ rs, z.interpolationErrors E = .ok rs →
      rs.length = z.xs.length ∧
        z.interpolationSquaredError E = .ok ((rs.map (fun r => r ^ 2)).sum)) ∧
    (∀ e, z.interpolationErrors E = .error e → z.interpolationSquaredError E = .error e) ∧
    (∀ sec, z.section_ = some sec → (∀ x ∈ z.xs, x > 0) → z.xs.length ≤ z.ys.length →
      z.xs.length ≤ z.weights_.length →
      z.interpolationErrors E = .ok (List.zipWith (fun r w => r * E.libm.sqrt w)
        (sectionResiduals E sec z.xs z.ys) z.weights_) ∧
      z.interpolationSquaredError E = .ok ((List.zipWith (fun r w => w * r ^ 2)
        (sectionResiduals E sec z.xs z.ys) z.weights_).sum)) ∧
    (∀ x rs, (ZABRError.values E z x).1 = .ok rs →
      (ZABRError.value E z x).1 = .ok ((rs.map (fun r => r ^ 2)).sum)) := by
  have main : ∀ y : ZABRInterpolationImpl R, (∀ w ∈ y.weights_, 0 ≤ w) →
      (∀ rs, y.interpolationErrors E = .ok rs →
        rs.length = y.xs.length ∧
          y.interpolationSquaredError E = .ok ((rs.map (fun r => r ^ 2)).sum)) ∧
      (∀ e, y.interpolationErrors E = .error e →
        y.interpolationSquaredError E = .error e) := by
    intro y hy
    obtain ⟨h1, h2⟩ := errorsLoop_vs_squared E y hL y.xs y.ys y.weights_ 0 hy
    refine ⟨?_, ?_⟩
    · intro rs hrs
      obtain ⟨h3, h4⟩ := h1 rs hrs
      refine ⟨h3, ?_⟩
      unfold interpolationSquaredError
      rw [h4, zero_add]
    · intro e he
      exact h2 e he
  refine ⟨(main z hw).1, (main z hw).2, ?_, ?_⟩
  · intro sec hsec hpos hy hwl
    refine ⟨errorsLoop_eq E z sec hsec z.xs z.ys z.weights_ hpos hy hwl, ?_⟩
    unfold interpolationSquaredError
    rw [squaredErrorLoop_eq E z sec hsec z.xs z.ys z.weights_ 0 hpos hy hwl, zero_add]
    have hf : (fun (r w : R) => r * r * w) = (fun (r w : R) => w * r ^ 2) := by
      funext r w; ring
    rw [hf]
  · intro x rs hrs
    exact ((main (ZABRError.assign E z x) hw).1 rs hrs).2

/-- C27 at a concrete input over the real numbers: on `sampleImpl` with the sample
collaborators the residual vector has three entries and the sum of their squares
is the squared error. -/
theorem residuals_agree_witness :
    ∃ rs, (sampleImpl : ZABRInterpolationImpl ℝ).interpolationErrors
        (sampleCollaborators ⟨Real.sqrt, Real.exp, Real.log, Real.sin, Real.arcsin⟩) = .ok rs ∧
      rs.length = 3 ∧
      (sampleImpl : ZABRInterpolationImpl ℝ).interpolationSquaredError
        (sampleCollaborators ⟨Real.sqrt, Real.exp, Real.log, Real.sin, Real.arcsin⟩) =
        .ok ((rs.map (fun r => r ^ 2)).sum) :=
  have h := residuals_agree
    (sampleCollaborators ⟨Real.sqrt, Real.exp, Real.log, Real.sin, Real.arcsin⟩)
    (sampleImpl : ZABRInterpolationImpl ℝ) (fun _ hw => Real.mul_self_sqrt hw)
    (by intro w hw; simp [sampleImpl] at hw; rw [hw]; norm_num)
  have he := (h.2.2.1 _ rfl
    (by intro x hx; simp [sampleImpl] at hx; rcases hx with h | h | h <;> rw [h] <;> norm_num)
    (le_refl 3) (le_refl 3)).1
  ⟨_, he, (h.1 _ he).1, (h.1 _ he).2⟩

end ResidualVector

section RestartBudget

variable {R : Type} [LinearOrderedField R]

open ZABRInterpolationImpl

/-- Every pass of the restart loop, whether it completes or throws, hands one
starting point to the optimizer, the projection of `inverse(guess)`, and draws
one sequence exactly when `iterations > 0`. -/
theorem restartBody_starts (E : Collaborators R) (fixed : Array5 Bool) (n i : Nat)
    (s t : RestartState R)
    (h : (∃ a, restartBody E fixed n i s = .ok (t, a)) ∨
      (∃ e, restartBody E fixed n i s = .error (e, t))) :
    t.minimizeStarts = s.minimizeStarts ++ [ProjectedCostFunction.project fixed
      (ZabrParametersTransformation.inverse E.libm (startOfPass E fixed n i s).guess)] ∧
    t.sequencesDrawn = s.sequencesDrawn + (if i > 0 then 1 else 0) := by
  have key : ∀ z : ZABRInterpolationImpl R,
      ({ ({ startOfPass E fixed n i s with
            minimizeStarts := (startOfPass E fixed n i s).minimizeStarts ++
              [ProjectedCostFunction.project fixed (ZabrParametersTransformation.inverse E.libm
                (startOfPass E fixed n i s).guess)] } : RestartState R) with
          zabr := z } : RestartState R) = t →
      t.minimizeStarts = s.minimizeStarts ++ [ProjectedCostFunction.project fixed
        (ZabrParametersTransformation.inverse E.libm (startOfPass E fixed n i s).guess)] ∧
      t.sequencesDrawn = s.sequencesDrawn + (if i > 0 then 1 else 0) := by
    intro z hz
    subst hz
    exact ⟨by simp [startOfPass_minimizeStarts], startOfPass_sequencesDrawn E fixed n i s⟩
  rcases h with ⟨a, h⟩ | ⟨e, h⟩
  · unfold restartBody at h
    simp only at h
    split at h
    · simp at h
    · rename_i z hev
      split at h
      · simp at h
      · simp only [Except.ok.injEq, Prod.mk.injEq] at h
        exact key z h.1
  · unfold restartBody at h
    simp only at h
    split at h
    · rename_i e1 z hev
      simp only [Except.error.injEq, Prod.mk.injEq] at h
      exact key z h.2
    · rename_i z hev
      split at h
      · simp only [Except.error.injEq, Prod.mk.injEq] at h
        exact key z h.2
      · simp at h

/-- A property of the variables of a pass, indexed by the number of passes
started, that every pass carries from `i` to `i + 1` holds when the restart loop
stops, returning or throwing, at an index that is positive and at most
`maxGuesses`, or 1 when `maxGuesses` is 0. -/
theorem restartLoop_counted
    (body : Nat → RestartState R → Except (Failure × RestartState R) (RestartState R × Attempt R))
    (maxGuesses : Nat) (errorAccept : R) (P : Nat → RestartState R → Prop)
    (hstatus : ∀ i s c, P i s → P i { s with zabr := { s.zabr with ZABREndCriteria_ := c } })
    (hstep : ∀ i s t, P i s →
      ((∃ a, body i s = .ok (t, a)) ∨ (∃ e, body i s = .error (e, t))) → P (i + 1) t)
    (v : LoopVars R) :
    P v.iterations v.st →
      ∃ k, v.iterations < k ∧ (k ≤ v.iterations + 1 ∨ k ≤ maxGuesses) ∧
        P k (restartLoop body maxGuesses errorAccept v).2.st := by
  refine restartLoop.induct body maxGuesses errorAccept
    (fun v => P v.iterations v.st →
      ∃ k, v.iterations < k ∧ (k ≤ v.iterations + 1 ∨ k ≤ maxGuesses) ∧
        P k (restartLoop body maxGuesses errorAccept v).2.st)
    ?_ ?_ ?_ v
  · intro x e s hb hP
    rw [restartLoop_error body _ _ x e s hb]
    exact ⟨x.iterations + 1, by omega, Or.inl le_rfl, hstep _ _ _ hP (Or.inr ⟨e, hb⟩)⟩
  · intro x s a hb hc ih hP
    have e1 : restartLoop body maxGuesses errorAccept x =
        restartLoop body maxGuesses errorAccept (recordAttempt x s a) := by
      rw [restartLoop, hb]; simp only [hc, and_self, if_true]
    have hs := hstep _ _ _ hP (Or.inl ⟨a, hb⟩)
    obtain ⟨c, hc2⟩ := recordAttempt_st x s a
    have hP2 : P (recordAttempt x s a).iterations (recordAttempt x s a).st := by
      rw [recordAttempt_iterations, hc2]
      exact hstatus _ _ c hs
    obtain ⟨k, hk1, hk2, hk3⟩ := ih hP2
    rw [recordAttempt_iterations] at hk1 hk2
    rw [e1]
    have hlt := hc.1
    exact ⟨k, by omega, Or.inr (by omega), hk3⟩
  · intro x s a hb hc hP
    have e1 : restartLoop body maxGuesses errorAccept x = (none, recordAttempt x s a) := by
      rw [restartLoop, hb]; simp only [hc, if_false]
    have hs := hstep _ _ _ hP (Or.inl ⟨a, hb⟩)
    obtain ⟨c, hc2⟩ := recordAttempt_st x s a
    rw [e1]
    refine ⟨x.iterations + 1, by omega, Or.inl le_rfl, ?_⟩
    show P (x.iterations + 1) (recordAttempt x s a).st
    rw [hc2]
    exact hstatus _ _ c hs

/-- The record of a call of `update` that reaches the restart loop is that of
the loop. -/
theorem update_loop_record (E : Collaborators R) (z z1 : ZABRInterpolationImpl R)
    (hf : z.forward_ > 0) (hw : updateWeights E z = (none, z1))
    (hall : allParametersFixed z1 = false) :
    (update E z).minimizeStarts = (runRestarts E z1).2.st.minimizeStarts ∧
    (update E z).sequencesDrawn = (runRestarts E z1).2.st.sequencesDrawn ∧
    (update E z).attempts = (runRestarts E z1).2.attempts := by
  rcases hrun : runRestarts E z1 with ⟨o, v⟩
  cases o with
  | some e =>
    rw [update_eq_restart_error E z z1 hf hw hall e v hrun]
    exact ⟨rfl, rfl, rfl⟩
  | none =>
    rw [update_eq_restart E z z1 hf hw hall v hrun]
    exact ⟨rfl, rfl, rfl⟩

/-- A call of `update` that does not reach the restart loop starts no optimizer. -/
theorem update_no_loop (E : Collaborators R) (z : ZABRInterpolationImpl R)
    (h : ¬ z.forward_ > 0 ∨ (updateWeights E z).1 ≠ none ∨
      allParametersFixed (updateWeights E z).2 = true) :
    (update E z).minimizeStarts = [] := by
  by_cases hf : z.forward_ > 0
  · rcases hw : updateWeights E z with ⟨o, z1⟩
    cases o with
    | some e => rw [update_eq_weights E z z1 hf e hw]
    | none =>
      rw [hw] at h
      rcases h with h | h | h
      · exact absurd hf h
      · exact absurd rfl h
      · rw [update_eq_allFixed E z z1 hf hw h]
  · rw [update_eq_forward E z hf]

/-- The number of starting points handed to the optimizer by the restart loop of
`update`: at least one, and at most `maxGuesses_`, or one when `maxGuesses_` is 0. -/
theorem runRestarts_count (E : Collaborators R) (z1 : ZABRInterpolationImpl R) :
    1 ≤ (runRestarts E z1).2.st.minimizeStarts.length ∧
    (runRestarts E z1).2.st.minimizeStarts.length ≤ max 1 z1.maxGuesses_ := by
  unfold runRestarts
  obtain ⟨k, hk1, hk2, hk3⟩ := restartLoop_counted
    (restartBody E (parameterAreFixed z1) (freeParameters z1)) z1.maxGuesses_ z1.errorAccept_
    (fun i s => s.minimizeStarts.length = i)
    (fun i s c h => h)
    (fun i s t h hb => by
      show t.minimizeStarts.length = i + 1
      have h0 : s.minimizeStarts.length = i := h
      rw [(restartBody_starts E _ _ i s t hb).1]
      simp [h0])
    (initialLoopVars E z1) rfl
  have hk4 : (restartLoop (restartBody E (parameterAreFixed z1) (freeParameters z1))
      z1.maxGuesses_ z1.errorAccept_ (initialLoopVars E z1)).2.st.minimizeStarts.length = k := hk3
  rw [hk4]
  have h0 : (initialLoopVars E z1).iterations = 0 := rfl
  rw [h0] at hk1 hk2
  refine ⟨hk1, ?_⟩
  rcases hk2 with h | h
  · exact le_trans h (le_max_left _ _)
  · exact le_trans h (le_max_right _ _)

/-- The first starting point handed to the optimizer by the restart loop of
`update` is the projection of `inverse` of the parameters the object holds on
entry, and one sequence is drawn for every later starting point. -/
theorem runRestarts_first_start (E : Collaborators R) (z1 : ZABRInterpolationImpl R) :
    ∃ rest, (runRestarts E z1).2.st.minimizeStarts =
        ProjectedCostFunction.project (parameterAreFixed z1)
          (ZabrParametersTransformation.inverse E.libm
            ⟨z1.alpha_, z1.beta_, z1.nu_, z1.rho_, z1.gamma_⟩) :: rest ∧
      (runRestarts E z1).2.st.sequencesDrawn = rest.length := by
  unfold runRestarts
  obtain ⟨k, hk1, _, hk3⟩ := restartLoop_counted
    (restartBody E (parameterAreFixed z1) (freeParameters z1)) z1.maxGuesses_ z1.errorAccept_
    (fun i s =>
      (i = 0 ∧ s.minimizeStarts = [] ∧ s.sequencesDrawn = 0 ∧
        s.guess = ⟨z1.alpha_, z1.beta_, z1.nu_, z1.rho_, z1.gamma_⟩) ∨
      (0 < i ∧ ∃ rest, s.minimizeStarts =
        ProjectedCostFunction.project (parameterAreFixed z1)
          (ZabrParametersTransformation.inverse E.libm
            ⟨z1.alpha_, z1.beta_, z1.nu_, z1.rho_, z1.gamma_⟩) :: rest ∧
        s.sequencesDrawn = rest.length))
    (fun i s c h => h)
    (fun i s t h hb => by
      obtain ⟨h1, h2⟩ := restartBody_starts E _ _ i s t hb
      rcases h with ⟨hi, hm, hd, hg⟩ | ⟨hi, rest, hm, hd⟩
      · subst hi
        refine Or.inr ⟨by omega, [], ?_, ?_⟩
        · rw [h1, hm]
          have hs : startOfPass E (parameterAreFixed z1) (freeParameters z1) 0 s = s := rfl
          rw [hs, hg]
          rfl
        · rw [h2, hd]
          rfl
      · refine Or.inr ⟨by omega, rest ++ [ProjectedCostFunction.project (parameterAreFixed z1)
          (ZabrParametersTransformation.inverse E.libm
            (startOfPass E (parameterAreFixed z1) (freeParameters z1) i s).guess)], ?_, ?_⟩
        · rw [h1, hm]
          rfl
        · rw [h2, hd, if_pos hi]
          simp)
    (initialLoopVars E z1) (Or.inl ⟨rfl, rfl, rfl, rfl⟩)
  rcases hk3 with ⟨h0, _⟩ | ⟨_, rest, h1, h2⟩
  · omega
  · exact ⟨rest, h1, h2⟩

end RestartBudget

section Recalibration

variable {R : Type} [LinearOrderedField R]

open ZABRInterpolationImpl

/-- The constructor at the arguments of the sample object returns
`constructedImpl`. -/
theorem sample_construction (L : Libm R) :
    ZABRInterpolationImpl.ZABRInterpolationImpl L (sampleLibrary : Library R)
      [3 / 100, 4 / 100, 5 / 100] [22 / 100, 20 / 100, 19 / 100] 5 (4 / 100)
      (1 / 5) (1 / 2) (2 / 5) 0 1 false false false false true 0 false (1 / 1000) true 1 =
      .ok constructedImpl := by
  norm_num [ZABRInterpolationImpl.ZABRInterpolationImpl, Interpolation.templateImpl,
    ZABRCoeffHolder.ZABRCoeffHolder, sampleLibrary, constructedImpl, freshImpl, sampleImpl,
    List.replicate]

/-- The first call of `update` on `constructedImpl` with the sample
collaborators: the first evaluation of the cost function assigns the parameters,
alpha becomes 1/4 + 10^-7, and `value` then finds `section_` empty. -/
theorem constructed_update (L : Libm R) :
    (update (sampleCollaborators L) constructedImpl).outcome = some .nullSection ∧
    (update (sampleCollaborators L) constructedImpl).state.alpha_ = 1 / 4 + 1 / 10000000 := by
  have hw : updateWeights (sampleCollaborators L) (constructedImpl : ZABRInterpolationImpl R) =
      (none, constructedImpl) := rfl
  have hb : ∃ t, restartBody (sampleCollaborators L)
      (parameterAreFixed (constructedImpl : ZABRInterpolationImpl R))
      (freeParameters (constructedImpl : ZABRInterpolationImpl R)) 0
      (initialLoopVars (sampleCollaborators L) constructedImpl).st = .error (.nullSection, t) ∧
      t.zabr.alpha_ = 1 / 4 + 1 / 10000000 := by
    unfold restartBody
    norm_num [startOfPass, minimizeCall, sampleCollaborators, initialLoopVars,
      parameterAreFixed, constructedImpl, freshImpl, sampleImpl, ProjectedCostFunction.include,
      ProjectedCostFunction.project, ProjectedCostFunction.freeBefore,
      ZabrParametersTransformation.direct, ZabrParametersTransformation.eps1_, evaluateAll,
      ZABRError.value, ZABRError.assign, interpolationSquaredError, squaredErrorLoop, value,
      abs_half]
  obtain ⟨t, ht, ha⟩ := hb
  have hrun : runRestarts (sampleCollaborators L) (constructedImpl : ZABRInterpolationImpl R) =
      (some .nullSection,
        { initialLoopVars (sampleCollaborators L) constructedImpl with st := t }) :=
    restartLoop_error _ _ _ _ _ _ ht
  rw [update_eq_restart_error _ _ _ (by norm_num [constructedImpl, freshImpl, sampleImpl]) hw
    rfl _ _ hrun]
  exact ⟨rfl, ha⟩

/-- The first starting point of a call of `update` that reaches the restart
loop is the projection of `inverse` of the parameters the object holds when
`update` is entered, and one sequence is drawn for every later starting point. -/
theorem update_first_start (E : Collaborators R) (z z1 : ZABRInterpolationImpl R)
    (hf : z.forward_ > 0) (hw : updateWeights E z = (none, z1))
    (hall : allParametersFixed z1 = false) :
    ∃ rest, (update E z).minimizeStarts =
        ProjectedCostFunction.project (parameterAreFixed z)
          (ZabrParametersTransformation.inverse E.libm
            ⟨z.alpha_, z.beta_, z.nu_, z.rho_, z.gamma_⟩) :: rest ∧
      (update E z).sequencesDrawn = rest.length := by
  have hz := updateWeights_eq E z
  rw [hw] at hz
  simp only at hz
  obtain ⟨h1, h2, _⟩ := update_loop_record E z z1 hf hw hall
  obtain ⟨rest, h3, h4⟩ := runRestarts_first_start E z1
  refine ⟨rest, ?_, ?_⟩
  · rw [h1, h3, hz]
    rfl
  · rw [h2, h4]

end Recalibration

section RestartClaims

variable {R : Type} [LinearOrderedField R]

open ZABRInterpolationImpl

/-- The parameters kept by a run of the restart loop that returns: at least one
pass was made; if a pass has an error below `QL_MAX_REAL` the parameters kept are
the `result` of a pass, and otherwise none are kept. -/
theorem runRestarts_best (E : Collaborators R) (z1 : ZABRInterpolationImpl R)
    (v : LoopVars R) (hrun : runRestarts E z1 = (none, v)) :
    v.attempts ≠ [] ∧
    ((∃ a ∈ v.attempts, a.tmpInterpolationError < E.QL_MAX_REAL) →
      ∃ a ∈ v.attempts, v.bestParameters = some a.result) ∧
    ((∀ a ∈ v.attempts, ¬ a.tmpInterpolationError < E.QL_MAX_REAL) →
      v.bestParameters = none) ∧
    (∀ p, v.bestParameters = some p → ∃ a ∈ v.attempts, a.result = p) := by
  unfold runRestarts at hrun
  obtain ⟨as, hne, hatt, _, _, hagree⟩ := restartLoop_trace _ _ _ _ v hrun
  have hatt2 : v.attempts = as := by
    rw [hatt]; rfl
  have hbp : v.bestParameters =
      (Best.over ⟨E.QL_MAX_REAL, none, .None⟩ as).bestParameters := hagree.2
  rw [hatt2]
  rcases Best.over_spec as ⟨E.QL_MAX_REAL, none, .None⟩ with ⟨heq, hall⟩ |
    ⟨i, a, hi, heq, hlt, _, _⟩
  · rw [heq] at hbp
    refine ⟨hne, ?_, fun _ => hbp, ?_⟩
    · rintro ⟨a, ha, hlt⟩
      exact absurd hlt (not_lt.mpr (hall a ha))
    · intro p hp
      rw [hbp] at hp
      simp at hp
  · rw [heq] at hbp
    have hmem : a ∈ as := List.getElem?_mem hi
    refine ⟨hne, fun _ => ⟨a, hmem, hbp⟩, ?_, ?_⟩
    · intro hno
      exact absurd hlt (hno a hmem)
    · intro p hp
      rw [hbp] at hp
      exact ⟨a, hmem, Option.some.inj hp⟩

/-- C21, the claim as stated fails at a concrete input over the real numbers: on
`sampleImpl` with `maxGuesses_ = 0` the loop `do .. while` makes its first pass
and `update` hands one starting point to the optimizer. -/
theorem restart_budget_zero :
    ({ (sampleImpl : ZABRInterpolationImpl ℝ) with maxGuesses_ := 0 }).maxGuesses_ = 0 ∧
    (update (sampleCollaborators ⟨Real.sqrt, Real.exp, Real.log, Real.sin, Real.arcsin⟩)
      { (sampleImpl : ZABRInterpolationImpl ℝ) with
        maxGuesses_ := 0 }).minimizeStarts.length = 1 := by
  refine ⟨rfl, ?_⟩
  have h := update_loop_record
    (sampleCollaborators ⟨Real.sqrt, Real.exp, Real.log, Real.sin, Real.arcsin⟩)
    { (sampleImpl : ZABRInterpolationImpl ℝ) with maxGuesses_ := 0 }
    { (sampleImpl : ZABRInterpolationImpl ℝ) with maxGuesses_ := 0 }
    (by norm_num [sampleImpl]) rfl rfl
  have hc := runRestarts_count
    (sampleCollaborators ⟨Real.sqrt, Real.exp, Real.log, Real.sin, Real.arcsin⟩)
    { (sampleImpl : ZABRInterpolationImpl ℝ) with maxGuesses_ := 0 }
  rw [h.1]
  have h0 : ({ (sampleImpl : ZABRInterpolationImpl ℝ) with maxGuesses_ := 0 }).maxGuesses_ = 0 :=
    rfl
  rw [h0] at hc
  exact le_antisymm hc.2 hc.1

/-- C21 (amended). Restart budget: for every `maxGuesses_` and every sequence of
restart errors, one call of `update` hands at most `max(1, maxGuesses_)` starting
points to the optimizer: at most `maxGuesses_` when that is at least 1, and at most
one when it is 0. -/
theorem restart_budget (E : Collaborators R) (z : ZABRInterpolationImpl R) :
    (update E z).minimizeStarts.length ≤ max 1 z.maxGuesses_ ∧
    (1 ≤ z.maxGuesses_ → (update E z).minimizeStarts.length ≤ z.maxGuesses_) ∧
    (z.maxGuesses_ = 0 → (update E z).minimizeStarts.length ≤ 1) := by
  have main : (update E z).minimizeStarts.length ≤ max 1 z.maxGuesses_ := by
    by_cases hloop : ¬ z.forward_ > 0 ∨ (updateWeights E z).1 ≠ none ∨
        allParametersFixed (updateWeights E z).2 = true
    · rw [update_no_loop E z hloop]
      exact Nat.zero_le _
    · have hf : z.forward_ > 0 := by
        by_contra h; exact hloop (Or.inl h)
      have hz := updateWeights_eq E z
      rcases hw : updateWeights E z with ⟨o, z1⟩
      rw [hw] at hz hloop
      simp only at hz hloop
      have ho : o = none := by
        by_contra h; exact hloop (Or.inr (Or.inl h))
      subst ho
      have hall : allParametersFixed z1 = false := by
        cases h : allParametersFixed z1 with
        | false => rfl
        | true => exact absurd (Or.inr (Or.inr h)) hloop
      rw [(update_loop_record E z z1 hf hw hall).1]
      have hm : z1.maxGuesses_ = z.maxGuesses_ := by rw [hz]
      rw [← hm]
      exact (runRestarts_count E z1).2
  refine ⟨main, ?_, ?_⟩
  · intro h1
    rw [max_eq_right h1] at main
    exact main
  · intro h0
    rw [h0] at main
    exact main

/-- C25 (amended). First restart: every call of `update` that reaches the restart
loop draws no sample for restart 0 (one sequence is drawn per later starting
point) and seeds the optimizer first at `project(inverse(g))`, where `g` is the
vector of the parameters `alpha_, beta_, nu_, rho_, gamma_` that the object holds
when `update` is entered. -/
theorem first_restart_start (E : Collaborators R) (z z1 : ZABRInterpolationImpl R)
    (hf : z.forward_ > 0) (hw : updateWeights E z = (none, z1))
    (hall : allParametersFixed z1 = false) :
    ∃ rest, (update E z).minimizeStarts =
        ProjectedCostFunction.project (parameterAreFixed z)
          (ZabrParametersTransformation.inverse E.libm
            ⟨z.alpha_, z.beta_, z.nu_, z.rho_, z.gamma_⟩) :: rest ∧
      (update E z).sequencesDrawn = rest.length :=
  update_first_start E z z1 hf hw hall

/-- C25 (amended) at a concrete input over the real numbers: `sampleImpl`, whose
parameters on entry are (0.2, 0.5, 0.4, 0, 1). -/
theorem first_restart_start_witness :
    ∃ rest,
      (update (sampleCollaborators ⟨Real.sqrt, Real.exp, Real.log, Real.sin, Real.arcsin⟩)
        (sampleImpl : ZABRInterpolationImpl ℝ)).minimizeStarts =
        ProjectedCostFunction.project ⟨false, false, false, false, true⟩
          (ZabrParametersTransformation.inverse
            ⟨Real.sqrt, Real.exp, Real.log, Real.sin, Real.arcsin⟩
            ⟨1 / 5, 1 / 2, 2 / 5, 0, 1⟩) :: rest ∧
      (update (sampleCollaborators ⟨Real.sqrt, Real.exp, Real.log, Real.sin, Real.arcsin⟩)
        (sampleImpl : ZABRInterpolationImpl ℝ)).sequencesDrawn = rest.length :=
  first_restart_start
    (sampleCollaborators ⟨Real.sqrt, Real.exp, Real.log, Real.sin, Real.arcsin⟩)
    (sampleImpl : ZABRInterpolationImpl ℝ) sampleImpl (by norm_num [sampleImpl]) rfl rfl

/-- C30. The read-back of the best parameters: a call of `update` that reaches the
restart loop makes at least one pass; when the loop returns, at least one pass is
recorded, `bestParameters` holds the `result` of a pass if some pass has an error
strictly below `QL_MAX_REAL`, and is still empty, so that the read of its entries
is out of range, if no pass has. -/
theorem read_back_in_bounds (E : Collaborators R) (z z1 : ZABRInterpolationImpl R)
    (hf : z.forward_ > 0) (hw : updateWeights E z = (none, z1))
    (hall : allParametersFixed z1 = false) :
    1 ≤ (update E z).minimizeStarts.length ∧
    ∀ v, runRestarts E z1 = (none, v) →
      (update E z).attempts = v.attempts ∧ v.attempts ≠ [] ∧
      ((∃ a ∈ v.attempts, a.tmpInterpolationError < E.QL_MAX_REAL) →
        ∃ p, v.bestParameters = some p ∧ (update E z).state.alpha_ = p.a0 ∧
          (update E z).state.beta_ = p.a1 ∧ (update E z).state.nu_ = p.a2 ∧
          (update E z).state.rho_ = p.a3 ∧ (update E z).state.gamma_ = p.a4) ∧
      ((∀ a ∈ v.attempts, ¬ a.tmpInterpolationError < E.QL_MAX_REAL) →
        v.bestParameters = none ∧ (update E z).outcome = some .indexOutOfRange) := by
  obtain ⟨h1, _, h3⟩ := update_loop_record E z z1 hf hw hall
  refine ⟨?_, ?_⟩
  · rw [h1]
    exact (runRestarts_count E z1).1
  · intro v hrun
    obtain ⟨hne, hsome, hnone, _⟩ := runRestarts_best E z1 v hrun
    have hu := update_eq_restart E z z1 hf hw hall v hrun
    refine ⟨by rw [h3, hrun], hne, ?_, ?_⟩
    · intro hex
      obtain ⟨a, _, hbp⟩ := hsome hex
      refine ⟨a.result, hbp, ?_⟩
      rw [hu, hbp, readBack_eq]
      cases v.st.zabr.interpolationError E with
      | error e => exact ⟨rfl, rfl, rfl, rfl, rfl⟩
      | ok e1 =>
        simp only
        cases v.st.zabr.interpolationMaxError E with
        | error e => exact ⟨rfl, rfl, rfl, rfl, rfl⟩
        | ok e2 => exact ⟨rfl, rfl, rfl, rfl, rfl⟩
    · intro hno
      have hbp := hnone hno
      refine ⟨hbp, ?_⟩
      rw [hu, hbp]
      rfl

/-- C30 at a concrete input over the real numbers: `update` on `sampleImpl` makes
at least one pass. -/
theorem read_back_in_bounds_witness :
    1 ≤ (update (sampleCollaborators ⟨Real.sqrt, Real.exp, Real.log, Real.sin, Real.arcsin⟩)
      (sampleImpl : ZABRInterpolationImpl ℝ)).minimizeStarts.length :=
  (read_back_in_bounds
    (sampleCollaborators ⟨Real.sqrt, Real.exp, Real.log, Real.sin, Real.arcsin⟩)
    (sampleImpl : ZABRInterpolationImpl ℝ) sampleImpl (by norm_num [sampleImpl]) rfl rfl).1

end RestartClaims

section GammaAndRecovery

variable {R : Type} [LinearOrderedField R]

open ZABRInterpolationImpl

/-- C25, the claim as stated fails at a concrete input over the real numbers. The
constructor, given the guess (0.2, 0.5, 0.4, 0, 1) with gamma fixed, returns
`constructedImpl`; the first `update` seeds the optimizer at
`project(inverse(0.2, 0.5, 0.4, 0, 1))`, and a second `update` on the object as the
first one left it does not: its first starting point is computed from the
parameters that the first call assigned (alpha = 1/4 + 10^-7). -/
theorem recalibration_starts_from_current_parameters :
    ZABRInterpolationImpl.ZABRInterpolationImpl
      ⟨Real.sqrt, Real.exp, Real.log, Real.sin, Real.arcsin⟩ (sampleLibrary : Library ℝ)
      [3 / 100, 4 / 100, 5 / 100] [22 / 100, 20 / 100, 19 / 100] 5 (4 / 100)
      (1 / 5) (1 / 2) (2 / 5) 0 1 false false false false true 0 false (1 / 1000) true 1 =
      .ok constructedImpl ∧
    (update (sampleCollaborators ⟨Real.sqrt, Real.exp, Real.log, Real.sin, Real.arcsin⟩)
      (constructedImpl : ZABRInterpolationImpl ℝ)).minimizeStarts.head? =
      some (ProjectedCostFunction.project ⟨false, false, false, false, true⟩
        (ZabrParametersTransformation.inverse
          ⟨Real.sqrt, Real.exp, Real.log, Real.sin, Real.arcsin⟩
          ⟨1 / 5, 1 / 2, 2 / 5, 0, 1⟩)) ∧
    (update (sampleCollaborators ⟨Real.sqrt, Real.exp, Real.log, Real.sin, Real.arcsin⟩)
      (update (sampleCollaborators ⟨Real.sqrt, Real.exp, Real.log, Real.sin, Real.arcsin⟩)
        (constructedImpl : ZABRInterpolationImpl ℝ)).state).minimizeStarts ≠ [] ∧
    (update (sampleCollaborators ⟨Real.sqrt, Real.exp, Real.log, Real.sin, Real.arcsin⟩)
      (update (sampleCollaborators ⟨Real.sqrt, Real.exp, Real.log, Real.sin, Real.arcsin⟩)
        (constructedImpl : ZABRInterpolationImpl ℝ)).state).minimizeStarts.head? ≠
      some (ProjectedCostFunction.project ⟨false, false, false, false, true⟩
        (ZabrParametersTransformation.inverse
          ⟨Real.sqrt, Real.exp, Real.log, Real.sin, Real.arcsin⟩
          ⟨1 / 5, 1 / 2, 2 / 5, 0, 1⟩)) := by
  have hcfg := update_configuration
    (sampleCollaborators ⟨Real.sqrt, Real.exp, Real.log, Real.sin, Real.arcsin⟩)
    (constructedImpl : ZABRInterpolationImpl ℝ)
  have halpha := (constructed_update
    (⟨Real.sqrt, Real.exp, Real.log, Real.sin, Real.arcsin⟩ : Libm ℝ)).2
  obtain ⟨rest0, h0, _⟩ := update_first_start
    (sampleCollaborators ⟨Real.sqrt, Real.exp, Real.log, Real.sin, Real.arcsin⟩)
    (constructedImpl : ZABRInterpolationImpl ℝ) constructedImpl
    (by norm_num [constructedImpl, freshImpl, sampleImpl]) rfl rfl
  generalize (update
    (sampleCollaborators ⟨Real.sqrt, Real.exp, Real.log, Real.sin, Real.arcsin⟩)
    (constructedImpl : ZABRInterpolationImpl ℝ)).state = st at hcfg halpha
  have hfw : st.forward_ = 4 / 100 := congrArg (fun y => y.forward_) hcfg
  have hvw : st.vegaWeighted_ = false := congrArg (fun y => y.vegaWeighted_) hcfg
  have hfix : parameterAreFixed st = ⟨false, false, false, false, true⟩ := by
    have := congrArg (fun y => parameterAreFixed y) hcfg
    exact this
  have hw : updateWeights
      (sampleCollaborators ⟨Real.sqrt, Real.exp, Real.log, Real.sin, Real.arcsin⟩) st =
      (none, st) := by
    unfold updateWeights
    rw [hvw]
    rfl
  have hall : allParametersFixed st = false := by
    have := congrArg (fun y => allParametersFixed y) hcfg
    exact this
  obtain ⟨rest1, h1, _⟩ := update_first_start
    (sampleCollaborators ⟨Real.sqrt, Real.exp, Real.log, Real.sin, Real.arcsin⟩)
    st st (by rw [hfw]; norm_num) hw hall
  refine ⟨sample_construction _, ?_, ?_, ?_⟩
  · rw [h0]
    rfl
  · rw [h1]
    exact List.cons_ne_nil _ _
  · rw [h1, hfix, halpha]
    intro h
    have h2 := Option.some.inj h
    have h3 : Real.sqrt (1 / 4 + 1 / 10000000 - 1 / 10000000) =
        Real.sqrt (1 / 5 - 1 / 10000000) := by
      have := congrArg (fun l => l.head?) h2
      simpa [ProjectedCostFunction.project, ZabrParametersTransformation.inverse,
        ZabrParametersTransformation.eps1_, sampleCollaborators] using this
    rw [Real.sqrt_inj (by norm_num) (by norm_num)] at h3
    norm_num at h3

/-- C28. Gamma is tied to nu: for every input `x`, entry 4 of `direct x` equals
entry 2 and `direct x` does not depend on `x[4]`; hence after every call of
`update` with a free parameter that returns, and more generally after every call
that reaches the restart loop and keeps the parameters of a pass, the gamma
reported equals the nu reported, whatever gamma was supplied and whether or not
it is fixed. -/
theorem gamma_tied_to_nu (E : Collaborators R) (z : ZABRInterpolationImpl R)
    (hfree : allParametersFixed z = false) :
    (∀ (L : Libm R) (x : Array5 R),
      (ZabrParametersTransformation.direct L x).a4 =
        (ZabrParametersTransformation.direct L x).a2 ∧
      ∀ c : R, ZabrParametersTransformation.direct L { x with a4 := c } =
        ZabrParametersTransformation.direct L x) ∧
    ((update E z).outcome = none → (update E z).state.gamma_ = (update E z).state.nu_) ∧
    (∀ (z1 : ZABRInterpolationImpl R) (v : LoopVars R) (p : Array5 R),
      z.forward_ > 0 → updateWeights E z = (none, z1) → runRestarts E z1 = (none, v) →
      v.bestParameters = some p →
      (update E z).state.gamma_ = (update E z).state.nu_ ∧ (update E z).state.nu_ = p.a2) := by
  have general : ∀ (z1 : ZABRInterpolationImpl R) (v : LoopVars R) (p : Array5 R),
      z.forward_ > 0 → updateWeights E z = (none, z1) → runRestarts E z1 = (none, v) →
      v.bestParameters = some p →
      (update E z).state.gamma_ = (update E z).state.nu_ ∧
        (update E z).state.nu_ = p.a2 := by
    intro z1 v p hf hw hrun hbp
    have hz := updateWeights_eq E z
    rw [hw] at hz
    simp only at hz
    have hall : allParametersFixed z1 = false := by
      rw [hz]; exact hfree
    obtain ⟨a, ha, hap⟩ := (runRestarts_best E z1 v hrun).2.2.2 p hbp
    have hinv := (runRestarts_invariant E z1).2
    rw [hrun] at hinv
    have h42 : p.a4 = p.a2 := by
      rw [← hap]; exact (hinv a ha).2
    have hst : (update E z).state.gamma_ = p.a4 ∧ (update E z).state.nu_ = p.a2 := by
      rw [update_eq_restart E z z1 hf hw hall v hrun, hbp, readBack_eq]
      cases v.st.zabr.interpolationError E with
      | error e => exact ⟨rfl, rfl⟩
      | ok e1 =>
        simp only
        cases v.st.zabr.interpolationMaxError E with
        | error e => exact ⟨rfl, rfl⟩
        | ok e2 => exact ⟨rfl, rfl⟩
    exact ⟨by rw [hst.1, hst.2, h42], hst.2⟩
  refine ⟨?_, ?_, general⟩
  · intro L x
    exact ⟨rfl, fun c => rfl⟩
  · intro hout
    obtain ⟨z1, v, p, e1, e2, hf, hw, _, hrun, hbp, _⟩ :=
      update_restart_inversion E z hfree hout
    exact (general z1 v p hf hw hrun hbp).1

/-- C28 at a concrete input over the real numbers: on `sampleImpl`, where gamma is
supplied as 1 and fixed, `update` returns and the gamma reported equals the nu
reported. -/
theorem gamma_tied_to_nu_witness :
    (update (sampleCollaborators ⟨Real.sqrt, Real.exp, Real.log, Real.sin, Real.arcsin⟩)
      (sampleImpl : ZABRInterpolationImpl ℝ)).state.gamma_ =
    (update (sampleCollaborators ⟨Real.sqrt, Real.exp, Real.log, Real.sin, Real.arcsin⟩)
      (sampleImpl : ZABRInterpolationImpl ℝ)).state.nu_ :=
  (gamma_tied_to_nu
    (sampleCollaborators ⟨Real.sqrt, Real.exp, Real.log, Real.sin, Real.arcsin⟩)
    (sampleImpl : ZABRInterpolationImpl ℝ) rfl).2.1
    (sample_update (⟨Real.sqrt, Real.exp, Real.log, Real.sin, Real.arcsin⟩ : Libm ℝ)).1

/-- A call of `update` that throws leaves `section_` as it found it: the section
is replaced by the last statement only. -/
theorem update_throw_section (E : Collaborators R) (z : ZABRInterpolationImpl R)
    (hout : (update E z).outcome ≠ none) : (update E z).state.section_ = z.section_ := by
  by_cases hf : z.forward_ > 0
  · have hz := updateWeights_eq E z
    rcases hw : updateWeights E z with ⟨o, z1⟩
    rw [hw] at hz
    simp only at hz
    have hs1 : z1.section_ = z.section_ := by rw [hz]
    cases o with
    | some e => rw [update_eq_weights E z z1 hf e hw]; exact hs1
    | none =>
      cases hall : allParametersFixed z1 with
      | true =>
        rw [update_eq_allFixed E z z1 hf hw hall]
        refine Eq.trans ?_ hs1
        show (updateAllFixed E z1).2.section_ = z1.section_
        unfold updateAllFixed
        split
        · rfl
        · simp only
          split <;> rfl
      | false =>
        have hfr := (runRestarts_invariant E z1).1
        rcases hrun : runRestarts E z1 with ⟨o2, v⟩
        rw [hrun] at hfr
        simp only at hfr
        have hsv : v.st.zabr.section_ = z.section_ :=
          (congrArg (fun y => y.section_) hfr).trans hs1
        cases o2 with
        | some e => rw [update_eq_restart_error E z z1 hf hw hall e v hrun]; exact hsv
        | none =>
          have hu := update_eq_restart E z z1 hf hw hall v hrun
          rw [hu] at hout ⊢
          simp only at hout ⊢
          refine Eq.trans ?_ hsv
          cases hbp : v.bestParameters with
          | none => rfl
          | some p =>
            rw [hbp, readBack_eq] at hout
            rw [readBack_eq]
            cases he1 : v.st.zabr.interpolationError E with
            | error e => rfl
            | ok e1 =>
              rw [he1] at hout
              simp only at hout ⊢
              cases he2 : v.st.zabr.interpolationMaxError E with
              | error e => rfl
              | ok e2 =>
                rw [he2] at hout
                exact absurd rfl hout
  · rw [update_eq_forward E z hf]

/-- C22, the code on every object as constructed. Whatever the strikes, the
market volatilities (in particular those generated by the smile model at some
parameters `P`), the guess and the flags, the first call of `update` on the object
that the constructor returns does not return: the objective reads the section held
in `section_`, which is built only at the end of `update`, and finds it empty. No
calibrated result is produced by any restart. -/
theorem calibration_of_constructed_object (L : Libm R) (Lib : Library R)
    (E : Collaborators R) (xs ys : List R) (t forward alpha beta nu rho gamma : R)
    (alphaIsFixed betaIsFixed nuIsFixed rhoIsFixed gammaIsFixed : Bool)
    (evaluation : Nat) (vegaWeighted : Bool) (errorAccept : R) (useMaxError : Bool)
    (maxGuesses : Nat) (z : ZABRInterpolationImpl R)
    (hc : ZABRInterpolationImpl.ZABRInterpolationImpl L Lib xs ys t forward alpha beta
      nu rho gamma alphaIsFixed betaIsFixed nuIsFixed rhoIsFixed gammaIsFixed evaluation
      vegaWeighted errorAccept useMaxError maxGuesses = .ok z) :
    z.section_ = none ∧ (update E z).outcome ≠ none ∧
      (update E z).state.section_ = none := by
  unfold ZABRInterpolationImpl.ZABRInterpolationImpl at hc
  by_cases hx : xs.length = 0
  · simp [Interpolation.templateImpl, hx] at hc
  · have hb : Interpolation.templateImpl xs ys = none := by
      unfold Interpolation.templateImpl
      rw [if_neg hx]
    rw [hb] at hc
    simp only at hc
    cases hh : ZABRCoeffHolder.ZABRCoeffHolder L Lib t forward alpha beta nu rho gamma
        alphaIsFixed betaIsFixed nuIsFixed rhoIsFixed gammaIsFixed with
    | error e => rw [hh] at hc; simp at hc
    | ok holder =>
      rw [hh] at hc
      have hzz := (Except.ok.inj hc).symm
      subst hzz
      have hne : xs ≠ [] := fun h => hx (by rw [h]; rfl)
      have hthrow := update_without_section E
        ({ holder with
            weights_ := List.replicate xs.length (1 / (xs.length : R)),
            xs := xs, ys := ys, errorAccept_ := errorAccept, useMaxError_ := useMaxError,
            maxGuesses_ := maxGuesses, vegaWeighted_ := vegaWeighted, section_ := none,
            evaluation_ := evaluation } : ZABRInterpolationImpl R) rfl hne
      exact ⟨rfl, hthrow, update_throw_section E _ hthrow⟩

/-- C22 at a concrete input over the real numbers: three positive strikes, market
volatilities generated by the sample smile at P = (0.2, 0.5, 0.4, 0, 1), the guess
(0.3, 0.5, 0.4, 0, 1), all five parameters free, the RMS error as criterion and 50
restarts. The constructor returns an object and `update` on it does not return. -/
theorem calibration_of_constructed_object_witness :
    ∃ z, ZABRInterpolationImpl.ZABRInterpolationImpl
        ⟨Real.sqrt, Real.exp, Real.log, Real.sin, Real.arcsin⟩ (sampleLibrary : Library ℝ)
        [3 / 100, 4 / 100, 5 / 100]
        (([3 / 100, 4 / 100, 5 / 100] : List ℝ).map (fun x =>
          (sampleCollaborators ⟨Real.sqrt, Real.exp, Real.log, Real.sin, Real.arcsin⟩).volatility
            ⟨5, 4 / 100, ⟨1 / 5, 1 / 2, 2 / 5, 0, 1⟩, 0⟩ x))
        5 (4 / 100) (3 / 10) (1 / 2) (2 / 5) 0 1 false false false false false
        0 false (1 / 1000) false 50 = .ok z ∧
      (update (sampleCollaborators ⟨Real.sqrt, Real.exp, Real.log, Real.sin, Real.arcsin⟩)
        z).outcome ≠ none := by
  have hex : ∃ z, ZABRInterpolationImpl.ZABRInterpolationImpl
      ⟨Real.sqrt, Real.exp, Real.log, Real.sin, Real.arcsin⟩ (sampleLibrary : Library ℝ)
      [3 / 100, 4 / 100, 5 / 100]
      (([3 / 100, 4 / 100, 5 / 100] : List ℝ).map (fun x =>
        (sampleCollaborators ⟨Real.sqrt, Real.exp, Real.log, Real.sin, Real.arcsin⟩).volatility
          ⟨5, 4 / 100, ⟨1 / 5, 1 / 2, 2 / 5, 0, 1⟩, 0⟩ x))
      5 (4 / 100) (3 / 10) (1 / 2) (2 / 5) 0 1 false false false false false
      0 false (1 / 1000) false 50 = .ok z := by
    norm_num [ZABRInterpolationImpl.ZABRInterpolationImpl, Interpolation.templateImpl,
      ZABRCoeffHolder.ZABRCoeffHolder, sampleLibrary]
  obtain ⟨z, hz⟩ := hex
  exact ⟨z, hz, (calibration_of_constructed_object _ _ _ _ _ _ _ _ _ _ _ _ _ _ _ _ _ _ _ _ _ _
    z hz).2.1⟩

end GammaAndRecovery

section SinglePoint

open ZABRInterpolationImpl

end SinglePoint

end QuantLib
